import Mathlib

/-!
# Appointment booking backend: slot allocation and lifecycle

A shallow embedding of the booking, cancellation, approval, payment verification and
statistics paths of the clinic backend (`controllers/userController.js`,
`controllers/adminController.js`) and of the expiry sweep (`utils/appointmentUtils.js`),
together with the part of the JavaScript runtime they rely on (`parseInt`,
`String.prototype.split`, the `Date` constructor, `setDate`, `setMonth`, `setHours` and
the relational operators on dates).

Conventions of the embedding.

* A JavaScript number that can be `NaN` is an `Option Int` (`none` is `NaN`), and a `Date`
  object is the `Option Int` of its time value in milliseconds (`none` is `Invalid Date`).
* Time values are local time values: the server runs in one time zone with a fixed offset
  from UTC, so comparing two dates is comparing their local time values.
* The persisted collections are `Db.doctors` and `Db.users` (keyed by id) and `Db.appointments`
  (documents in insertion order, each with its `_id`).
* An exception caught by the handler's `try ... catch` becomes the failure response
  carrying the error message, with the writes made before the throw kept.
* Calls run one at a time: `Op` names a call and `runOps` runs a sequence of them.
-/

namespace MalitaDoc

/-! ## ECMAScript date arithmetic -/

/-- Milliseconds in a day (`msPerDay` of the language specification). -/
def msPerDay : Int := 86400000

/-- Whether the year has 366 days (`InLeapYear`). -/
def InLeapYear (y : Int) : Bool :=
  if y % 4 ≠ 0 then false
  else if y % 100 ≠ 0 then true
  else if y % 400 ≠ 0 then false
  else true

/-- Day number of the first day of year `y`, counted from 1 January 1970. -/
def DayFromYear (y : Int) : Int :=
  365 * (y - 1970) + (y - 1969) / 4 - (y - 1901) / 100 + (y - 1601) / 400

/-- Number of days of the year that precede month `m` (0 is January). -/
def monthStart (m : Int) (leap : Bool) : Int :=
  let l : Int := if leap then 1 else 0
  if m ≤ 0 then 0
  else if m = 1 then 31
  else if m = 2 then 59 + l
  else if m = 3 then 90 + l
  else if m = 4 then 120 + l
  else if m = 5 then 151 + l
  else if m = 6 then 181 + l
  else if m = 7 then 212 + l
  else if m = 8 then 243 + l
  else if m = 9 then 273 + l
  else if m = 10 then 304 + l
  else 334 + l

/-- Day number of a time value (`Day(t)`). -/
def Day (t : Int) : Int := t / msPerDay

/-- Milliseconds since the start of the day (`TimeWithinDay(t)`). -/
def TimeWithinDay (t : Int) : Int := t % msPerDay

/-- The year that contains day number `d`: the largest `y` with `DayFromYear y ≤ d`. -/
def YearFromDay (d : Int) : Int :=
  let y := 1970 + (d * 400) / 146097
  if DayFromYear (y + 1) ≤ d then y + 1
  else if DayFromYear y ≤ d then y
  else y - 1

/-- The year of a time value (`YearFromTime`, what `getFullYear` returns). -/
def YearFromTime (t : Int) : Int := YearFromDay (Day t)

/-- Day of the year, from 0 (`DayWithinYear`). -/
def DayWithinYear (t : Int) : Int := Day t - DayFromYear (YearFromTime t)

/-- The month, 0 to 11, that holds day `d` of a year; `l` is 1 in a leap year, else 0. -/
def monthOfDay (d l : Int) : Int :=
  if d < 31 then 0
  else if d < 59 + l then 1
  else if d < 90 + l then 2
  else if d < 120 + l then 3
  else if d < 151 + l then 4
  else if d < 181 + l then 5
  else if d < 212 + l then 6
  else if d < 243 + l then 7
  else if d < 273 + l then 8
  else if d < 304 + l then 9
  else if d < 334 + l then 10
  else 11

/-- Month of a time value, 0 to 11 (`MonthFromTime`, what `getMonth` returns). -/
def MonthFromTime (t : Int) : Int :=
  monthOfDay (DayWithinYear t) (if InLeapYear (YearFromTime t) then 1 else 0)

/-- Day of the month, from 1 (`DateFromTime`, what `getDate` returns). -/
def DateFromTime (t : Int) : Int :=
  DayWithinYear t - monthStart (MonthFromTime t) (InLeapYear (YearFromTime t)) + 1

/-- The day number of day `date` of month `month` of `year`, with the month and the day
allowed to run over (`MakeDay`). As in V8, a year beyond a million or a month beyond ten
million in absolute value gives `NaN`. -/
def MakeDay (year month date : Int) : Option Int :=
  if -1000000 ≤ year ∧ year ≤ 1000000 ∧ -10000000 ≤ month ∧ month ≤ 10000000 then
    let ym := year + month / 12
    let mn := month % 12
    some (DayFromYear ym + monthStart mn (InLeapYear ym) + date - 1)
  else none

/-- A time value outside of 100,000,000 days around the epoch is `NaN` (`TimeClip`). -/
def TimeClip (t : Int) : Option Int :=
  if -8640000000000000 ≤ t ∧ t ≤ 8640000000000000 then some t else none

/-- The call `new Date(year, monthIndex, day)`: local midnight of that day. A year from 0
to 99 stands for 1900 to 1999; a `NaN` argument gives an invalid date. -/
def newDate (year monthIndex day : Option Int) : Option Int :=
  match year, monthIndex, day with
  | some y, some m, some dt =>
    let yr := if 0 ≤ y ∧ y ≤ 99 then 1900 + y else y
    match MakeDay yr m dt with
    | some d => TimeClip (d * msPerDay)
    | none => none
  | _, _, _ => none

/-- The call `d.setDate(dt)` on a valid date with time value `t`; returns the new value. -/
def setDate (t dt : Int) : Option Int :=
  match MakeDay (YearFromTime t) (MonthFromTime t) dt with
  | some d => TimeClip (d * msPerDay + TimeWithinDay t)
  | none => none

/-- The call `d.setMonth(m)` on a valid date with time value `t`; returns the new value. -/
def setMonth (t m : Int) : Option Int :=
  match MakeDay (YearFromTime t) m (DateFromTime t) with
  | some d => TimeClip (d * msPerDay + TimeWithinDay t)
  | none => none

/-- The comparison `a < b` of two dates: false as soon as one of them is invalid. -/
def dateLt (a b : Option Int) : Bool :=
  match a, b with
  | some x, some y => decide (x < y)
  | _, _ => false

/-- The comparison `a > b` of two dates: false as soon as one of them is invalid. -/
def dateGt (a b : Option Int) : Bool := dateLt b a

/-! ## Strings: `split` and `parseInt` -/

/-- The call `s.split(sep)` for a one-character separator, on the characters of `s`. -/
def split (sep : Char) : List Char → List (List Char)
  | [] => [[]]
  | c :: cs =>
    if c = sep then [] :: split sep cs
    else
      match split sep cs with
      | [] => [[c]]
      | h :: t => (c :: h) :: t

/-- White space and line terminators that `parseInt` skips at the start of its input. -/
def isStrWhiteSpaceChar (c : Char) : Bool :=
  let n := c.toNat
  (9 ≤ n && n ≤ 13) || n = 32 || n = 160 || n = 5760 || (8192 ≤ n && n ≤ 8202) ||
    n = 8232 || n = 8233 || n = 8239 || n = 8287 || n = 12288 || n = 65279

/-- Value of a character as a digit (letters count from 10, in either case). -/
def digitValue (c : Char) : Option Nat :=
  let n := c.toNat
  if 48 ≤ n ∧ n ≤ 57 then some (n - 48)
  else if 97 ≤ n ∧ n ≤ 122 then some (n - 87)
  else if 65 ≤ n ∧ n ≤ 90 then some (n - 55)
  else none

/-- The values of the longest prefix made of digits of the radix. -/
def takeDigits (radix : Nat) : List Char → List Nat
  | [] => []
  | c :: cs =>
    match digitValue c with
    | some v => if v < radix then v :: takeDigits radix cs else []
    | none => []

/-- The call `parseInt(s)` with no radix: leading white space is skipped, a sign is read,
a `0x` or `0X` prefix selects radix 16, and the longest prefix of digits is the value; no
digit at all gives `NaN`. The value is kept exact: where a double would round it (beyond
2^53) the date built from it is invalid either way. -/
def parseInt (s : List Char) : Option Int :=
  let s1 := s.dropWhile isStrWhiteSpaceChar
  let signed : Int × List Char :=
    match s1 with
    | '-' :: r => (-1, r)
    | '+' :: r => (1, r)
    | _ => (1, s1)
  let based : Nat × List Char :=
    match signed.2 with
    | '0' :: 'x' :: r => (16, r)
    | '0' :: 'X' :: r => (16, r)
    | _ => (10, signed.2)
  match takeDigits based.1 based.2 with
  | [] => none
  | d :: ds => some (signed.1 * ((d :: ds).foldl (fun a v => a * based.1 + v) 0 : Nat))

/-- The element of index `i` of an array of numbers, `undefined` (here `NaN`) past the end. -/
def nth (l : List (Option Int)) (i : Nat) : Option Int :=
  match l.get? i with
  | some v => v
  | none => none

/-- The date of a date-key, as `bookAppointment` and `cancelPastAppointments` compute it:
`const [day, month, year] = slotDate.split('_').map(num => parseInt(num))` followed by
`new Date(year, month - 1, day)`. -/
def appointmentDate (slotDate : String) : Option Int :=
  let parts := (split '_' slotDate.data).map parseInt
  let day := nth parts 0
  let month := nth parts 1
  let year := nth parts 2
  newDate year (month.map (fun m => m - 1)) day

/-! ## Persisted documents -/

/-- A patient document, as far as booking reads it. -/
structure User where
  email : String
  approval_status : String
deriving DecidableEq, Repr

/-- The ledger of a doctor: `slots_booked[dateKey]` is `undefined` (`none`) or the array of
time labels booked on that date, in the order they were pushed. -/
abbrev Ledger := String → Option (List String)

/-- A doctor document. -/
structure Doctor where
  email : String
  available : Bool
  fees : Nat
  slots_booked : Ledger

/-- The doctor snapshot stored in an appointment (`docData` once `slots_booked` is
deleted from it). -/
structure DocData where
  email : String
  available : Bool
  fees : Nat
deriving DecidableEq, Repr

/-- An appointment document. -/
structure Appointment where
  _id : String
  userId : String
  docId : String
  slotDate : String
  slotTime : String
  userData : Option User
  docData : DocData
  amount : Nat
  date : Int
  cancelled : Bool
  payment : Bool
  isCompleted : Bool
  isRead : Bool
  cancellationReason : Option String
  cancelledBy : Option String
  /-- The field `approveAppointment` writes. The schema is not part of the sources, so it
  is not known whether the store keeps it; no handler reads it. -/
  status : Option String := none
deriving DecidableEq, Repr

/-- Modelled from the spec: the schema of `models/appointmentModel.js` is not part of the
sources; a document created from the booking data starts in `ACTIVE` (not cancelled, not
completed), unpaid and unread, with no cancellation actor or reason. -/
def appointmentModel (_id userId docId : String) (userData : Option User) (docData : DocData)
    (amount : Nat) (slotTime slotDate : String) (date : Int) : Appointment :=
  { _id := _id, userId := userId, docId := docId, slotDate := slotDate, slotTime := slotTime,
    userData := userData, docData := docData, amount := amount, date := date,
    cancelled := false, payment := false, isCompleted := false, isRead := false,
    cancellationReason := none, cancelledBy := none, status := none }

/-- The persisted state: the doctor, user and appointment collections. -/
structure Db where
  doctors : String → Option Doctor
  users : String → Option User
  appointments : List Appointment

/-- The body of a JSON response `{ success, message }`. -/
structure Response where
  success : Bool
  message : String
deriving DecidableEq, Repr

/-- The call `appointmentModel.findById(id)`: the document with that `_id`, or `null`. -/
def findAppointment (id : String) : List Appointment → Option Appointment
  | [] => none
  | a :: rest => if a._id = id then some a else findAppointment id rest

/-- The call `appointmentModel.findByIdAndUpdate(id, fields)`: the document with that `_id`
is rewritten by `f`, the others are kept. -/
def updateAppointment (id : String) (f : Appointment → Appointment) :
    List Appointment → List Appointment
  | [] => []
  | a :: rest => if a._id = id then f a :: rest else a :: updateAppointment id f rest

/-- The assignment `slots_booked[key] = labels`. -/
def Ledger.set (l : Ledger) (key : String) (labels : List String) : Ledger :=
  fun k => if k = key then some labels else l k

/-- The call `doctorModel.findByIdAndUpdate(docId, { slots_booked })`: the field is
replaced in the stored document of that doctor, if there is one. -/
def updateSlots (doctors : String → Option Doctor) (docId : String) (slots_booked : Ledger) :
    String → Option Doctor :=
  fun id =>
    if id = docId then (doctors id).map (fun d => { d with slots_booked := slots_booked })
    else doctors id

/-! ## Booking -/

/-- The body of a booking request (`userId` is written by the `authUser` middleware). -/
structure BookRequest where
  userId : String
  docId : String
  slotDate : String
  slotTime : String
deriving DecidableEq, Repr

/-- The lower end of the window: `minDate = new Date(today)` followed by
`minDate.setDate(today.getDate() + 5)`. -/
def minDate (today : Int) : Option Int := setDate today (DateFromTime today + 5)

/-- The upper end of the window: `maxDate = new Date(today)` followed by
`maxDate.setMonth(today.getMonth() + 1)`. -/
def maxDate (today : Int) : Option Int := setMonth today (MonthFromTime today + 1)

/-- The handler `bookAppointment` of `userController.js`. `today` is the time value of
`new Date()` when the request is handled (the creation stamp `Date.now()` is taken at the
same instant) and `newId` the `_id` given to the new document. Persistence calls succeed.
Returns the response and the persisted state after the call. -/
def bookAppointment (today : Int) (newId : String) (req : BookRequest) (db : Db) :
    Response × Db :=
  let appointmentDate := appointmentDate req.slotDate
  if dateLt appointmentDate (minDate today) then
    (⟨false, "Appointments must be booked at least 5 days in advance"⟩, db)
  else if dateGt appointmentDate (maxDate today) then
    (⟨false, "Appointments cannot be booked more than 1 month in advance"⟩, db)
  else
    match db.doctors req.docId with
    | none => (⟨false, "Cannot read properties of null (reading 'available')"⟩, db)
    | some docData =>
      if !docData.available then (⟨false, "Doctor Not Available"⟩, db)
      else
        let booked : Option Ledger :=
          match docData.slots_booked req.slotDate with
          | some labels =>
            if req.slotTime ∈ labels then none
            else some (docData.slots_booked.set req.slotDate (labels ++ [req.slotTime]))
          | none => some (docData.slots_booked.set req.slotDate ([] ++ [req.slotTime]))
        match booked with
        | none => (⟨false, "Slot Not Available"⟩, db)
        | some slots_booked =>
          let userData := db.users req.userId
          let newAppointment :=
            appointmentModel newId req.userId req.docId userData
              ⟨docData.email, docData.available, docData.fees⟩ docData.fees
              req.slotTime req.slotDate today
          (⟨true, "Appointment Booked"⟩,
            { db with
              appointments := db.appointments ++ [newAppointment]
              doctors := updateSlots db.doctors req.docId slots_booked })

/-! ## Cancellation -/

/-- The expression `cancellationReason || fallback`: the fallback replaces a missing or
empty reason. -/
def reasonOr (cancellationReason : Option String) (fallback : String) : String :=
  match cancellationReason with
  | some r => if r = "" then fallback else r
  | none => fallback

/-- The body of a patient's cancel request (`userId` is written by `authUser`). -/
structure CancelRequest where
  userId : String
  appointmentId : String
  cancellationReason : Option String
deriving DecidableEq, Repr

/-- The handler `cancelAppointment` of `userController.js`. -/
def cancelAppointment (req : CancelRequest) (db : Db) : Response × Db :=
  match findAppointment req.appointmentId db.appointments with
  | none => (⟨false, "Cannot read properties of null (reading 'userId')"⟩, db)
  | some appointmentData =>
    if appointmentData.userId ≠ req.userId then (⟨false, "Unauthorized action"⟩, db)
    else
      let db1 : Db :=
        { db with
          appointments := updateAppointment req.appointmentId
            (fun a => { a with
              cancelled := true
              cancellationReason := some (reasonOr req.cancellationReason "Cancelled by patient")
              cancelledBy := some "user" })
            db.appointments }
      match db1.doctors appointmentData.docId with
      | none => (⟨false, "Cannot read properties of null (reading 'slots_booked')"⟩, db1)
      | some doctorData =>
        match doctorData.slots_booked appointmentData.slotDate with
        | none => (⟨false, "Cannot read properties of undefined (reading 'filter')"⟩, db1)
        | some labels =>
          let slots_booked :=
            doctorData.slots_booked.set appointmentData.slotDate
              (labels.filter (fun e => e ≠ appointmentData.slotTime))
          (⟨true, "Appointment Cancelled"⟩,
            { db1 with
              doctors := updateSlots db1.doctors appointmentData.docId slots_booked })

/-- The handler `appointmentCancel` of `adminController.js` (`appointmentId` comes from the
URL, the reason from the body). -/
def appointmentCancel (appointmentId : String) (cancellationReason : Option String)
    (db : Db) : Response × Db :=
  match findAppointment appointmentId db.appointments with
  | none => (⟨false, "Appointment not found"⟩, db)
  | some appointmentData =>
    let db1 : Db :=
      { db with
        appointments := updateAppointment appointmentId
          (fun a => { a with
            cancelled := true
            cancellationReason := some (reasonOr cancellationReason "Cancelled by admin")
            cancelledBy := some "admin" })
          db.appointments }
    match db1.doctors appointmentData.docId with
    | none => (⟨true, "Appointment Cancelled Successfully"⟩, db1)
    | some doctorData =>
      match doctorData.slots_booked appointmentData.slotDate with
      | none => (⟨true, "Appointment Cancelled Successfully"⟩, db1)
      | some labels =>
        let slots_booked :=
          doctorData.slots_booked.set appointmentData.slotDate
            (labels.filter (fun time => time ≠ appointmentData.slotTime))
        (⟨true, "Appointment Cancelled Successfully"⟩,
          { db1 with
            doctors := updateSlots db1.doctors appointmentData.docId slots_booked })

/-! ## Expiry sweep -/

/-- The call `d.setHours(0, 0, 0, 0)`: the midnight that starts the day of a valid date. -/
def setHoursZero (d : Option Int) : Option Int :=
  match d with
  | some t => TimeClip (Day t * msPerDay)
  | none => none

/-- The test `appointmentDate < today` of the sweep, both dates moved to midnight;
`today` is the clock already moved to midnight. -/
def isPast (today : Option Int) (appointment : Appointment) : Bool :=
  dateLt (setHoursZero (appointmentDate appointment.slotDate)) today

/-- The body of the loop of `cancelPastAppointments` for one appointment of the query
result: `st` is the counter `cancelledCount` and the persisted state so far. -/
def expireAppointment (today : Option Int) (appointment : Appointment) (st : Nat × Db) :
    Nat × Db :=
  if isPast today appointment then
    let db1 : Db :=
      { st.2 with
        appointments := updateAppointment appointment._id
          (fun a => { a with cancelled := true }) st.2.appointments }
    let db2 : Db :=
      match db1.doctors appointment.docId with
      | none => db1
      | some doctorData =>
        match doctorData.slots_booked appointment.slotDate with
        | none => db1
        | some labels =>
          let slots_booked :=
            doctorData.slots_booked.set appointment.slotDate
              (labels.filter (fun time => time ≠ appointment.slotTime))
          { db1 with doctors := updateSlots db1.doctors appointment.docId slots_booked }
    (st.1 + 1, db2)
  else st

/-- The function `cancelPastAppointments` of `utils/appointmentUtils.js`, run when the
clock shows `now`: the query result `find({ cancelled: false, isCompleted: false })` is
taken first, then the loop runs over it. Returns `cancelledCount` and the state. -/
def cancelPastAppointments (now : Int) (db : Db) : Nat × Db :=
  let today := setHoursZero (some now)
  let appointments :=
    db.appointments.filter (fun a => a.cancelled = false ∧ a.isCompleted = false)
  appointments.foldl (fun st appointment => expireAppointment today appointment st) (0, db)

/-! ## Approval, payment, doctors and statistics -/

/-- The handler `approveAppointment` of `adminController.js`:
`findByIdAndUpdate(appointmentId, { status: 'approved' }, { new: true })`. -/
def approveAppointment (appointmentId : String) (db : Db) : Response × Db :=
  match findAppointment appointmentId db.appointments with
  | none => (⟨false, "Appointment not found"⟩, db)
  | some _ =>
    (⟨true, "Appointment approved successfully"⟩,
      { db with
        appointments := updateAppointment appointmentId
          (fun a => { a with status := some "approved" }) db.appointments })

/-- The handler `verifyStripe` of `userController.js`; `success` is the body field. -/
def verifyStripe (appointmentId success : String) (db : Db) : Response × Db :=
  if success = "true" then
    (⟨true, "Payment Successful"⟩,
      { db with
        appointments := updateAppointment appointmentId
          (fun a => { a with payment := true }) db.appointments })
  else (⟨false, "Payment Failed"⟩, db)

/-- What the payment gateway answers to `orders.fetch`, as far as the handler reads it. -/
structure OrderInfo where
  status : String
  receipt : String
deriving DecidableEq, Repr

/-- The handler `verifyRazorpay` of `userController.js`, given the answer of the gateway. -/
def verifyRazorpay (orderInfo : OrderInfo) (db : Db) : Response × Db :=
  if orderInfo.status = "paid" then
    (⟨true, "Payment Successful"⟩,
      { db with
        appointments := updateAppointment orderInfo.receipt
          (fun a => { a with payment := true }) db.appointments })
  else (⟨false, "Payment Failed"⟩, db)

/-- The handler `deleteDoctor` of `adminController.js`. -/
def deleteDoctor (id : String) (db : Db) : Response × Db :=
  match db.doctors id with
  | none => (⟨false, "Doctor not found"⟩, db)
  | some _ =>
    (⟨true, "Doctor deleted successfully"⟩,
      { db with doctors := fun i => if i = id then none else db.doctors i })

/-- The counters kept for one user by `getUsersAppointmentStats`. -/
structure UserStats where
  total : Nat
  approved : Nat
  pending : Nat
  cancelled : Nat
deriving DecidableEq, Repr

/-- The entry `userStats[userId]` after `if (!userStats[userId]) userStats[userId] = ...`:
the counters of the user, all zero for a user seen for the first time. -/
def statsEntry (userStats : String → Option UserStats) (userId : String) : UserStats :=
  match userStats userId with
  | some s => s
  | none => ⟨0, 0, 0, 0⟩

/-- The body of the `forEach` of `getUsersAppointmentStats` for one appointment: an empty
user id is skipped, a user seen for the first time starts from zero, then `total` and one
of the three other counters go up by one. User ids are object ids, never the name of a
property that every object inherits. -/
def countAppointment (userStats : String → Option UserStats) (appointment : Appointment) :
    String → Option UserStats :=
  let userId := appointment.userId
  if userId = "" then userStats
  else
    let start : UserStats := statsEntry userStats userId
    let counted : UserStats := { start with total := start.total + 1 }
    let classed : UserStats :=
      if appointment.cancelled then { counted with cancelled := counted.cancelled + 1 }
      else if appointment.isCompleted then { counted with approved := counted.approved + 1 }
      else { counted with pending := counted.pending + 1 }
    fun id => if id = userId then some classed else userStats id

/-- The object `userStats` that `getUsersAppointmentStats` of `adminController.js` sends. -/
def getUsersAppointmentStats (db : Db) : String → Option UserStats :=
  db.appointments.foldl countAppointment (fun _ => none)

/-! ## Predicates and sample data used by the statements -/

/-- The clock is a valid time value, and so is the instant 31 days later. -/
def validClock (today : Int) : Prop :=
  -8640000000000000 ≤ today ∧ today + 31 * msPerDay ≤ 8640000000000000

instance (today : Int) : Decidable (validClock today) :=
  inferInstanceAs (Decidable (_ ∧ _))

/-- A date-key passes the window check of `bookAppointment`: neither
`appointmentDate < minDate` nor `appointmentDate > maxDate` holds. -/
def inWindow (today : Int) (slotDate : String) : Prop :=
  dateLt (appointmentDate slotDate) (minDate today) = false ∧
    dateGt (appointmentDate slotDate) (maxDate today) = false

instance (today : Int) (slotDate : String) : Decidable (inWindow today slotDate) :=
  inferInstanceAs (Decidable (_ ∧ _))

/-- The slot is free in the doctor's ledger: the key is absent or its array lacks the label. -/
def slotFree (d : Doctor) (slotDate slotTime : String) : Prop :=
  ∀ labels, d.slots_booked slotDate = some labels → slotTime ∉ labels

/-- Local time value of 6 November 2026, 10:00. -/
def nov6at10 : Int := 1793959200000

/-- Local time value of 20 February 2026, 10:00. -/
def feb20at10 : Int := 1771581600000

/-- A doctor with one label booked on 20 November 2026. -/
def drCruz : Doctor :=
  { email := "cruz@clinic.example", available := true, fees := 500,
    slots_booked := fun k => if k = "20_11_2026" then some ["09:00 AM"] else none }

/-- A clinic with one doctor, two patients and no appointment yet. -/
def clinic : Db :=
  { doctors := fun id => if id = "doc1" then some drCruz else none
    users := fun id =>
      if id = "u1" then some ⟨"ana@mail.example", "approved"⟩
      else if id = "u2" then some ⟨"ben@mail.example", "approved"⟩
      else none
    appointments := [] }

/-- The clinic after patient `u1` has booked 12 November 2026, 10:00 AM, as appointment `a1`. -/
def clinicBooked : Db :=
  (bookAppointment nov6at10 "a1" ⟨"u1", "doc1", "12_11_2026", "10:00 AM"⟩ clinic).2

/-- Then the admin has cancelled `a1`, which frees the slot. -/
def clinicAdminCancelled : Db := (appointmentCancel "a1" none clinicBooked).2

/-- Then patient `u2` has booked the freed slot, as appointment `a2`. -/
def clinicRebooked : Db :=
  (bookAppointment nov6at10 "a2" ⟨"u2", "doc1", "12_11_2026", "10:00 AM"⟩
    clinicAdminCancelled).2

/-- What a cancel writes on an appointment: the flag, the actor and the reason. -/
def cancelFields (a : Appointment) : Bool × Option String × Option String :=
  (a.cancelled, a.cancelledBy, a.cancellationReason)

/-- The ledger entry of a doctor for a date-key, `none` when the doctor is missing. -/
def ledgerEntry (db : Db) (docId slotDate : String) : Option (Option (List String)) :=
  (db.doctors docId).map (fun d => d.slots_booked slotDate)

/-- The ledgers of `db2` are those of `db1` up to the label `slotTime` under `slotDate` of
doctor `docId`: the same doctors exist, every other entry is the same, and the entry of
that doctor and date-key holds the same labels other than `slotTime`, in the same order. -/
def ledgersAgreeExcept (db1 db2 : Db) (docId slotDate slotTime : String) : Prop :=
  ∀ id k,
    (db2.doctors id).isSome = (db1.doctors id).isSome ∧
      (¬(id = docId ∧ k = slotDate) → ledgerEntry db2 id k = ledgerEntry db1 id k) ∧
      (ledgerEntry db2 id k).map (Option.map (List.filter (fun e => e ≠ slotTime))) =
        (ledgerEntry db1 id k).map (Option.map (List.filter (fun e => e ≠ slotTime)))

/-- The guarded release of a slot, as `appointmentCancel` and the sweep write it: the
label is filtered out of the entry of the date-key when the doctor and the entry exist,
and nothing is written otherwise. -/
def releaseSlot (doctors : String → Option Doctor) (docId slotDate slotTime : String) :
    String → Option Doctor :=
  match doctors docId with
  | none => doctors
  | some doctorData =>
    match doctorData.slots_booked slotDate with
    | none => doctors
    | some labels =>
      updateSlots doctors docId
        (doctorData.slots_booked.set slotDate (labels.filter (fun time => time ≠ slotTime)))

/-- The label `e` under date-key `k` of doctor `id` is the slot of none of the
appointments of `l`, so no release for them filters it out. -/
def survives (l : List Appointment) (id k e : String) : Bool :=
  l.all (fun a => !(decide (a.docId = id) && decide (a.slotDate = k) && decide (e = a.slotTime)))

/-- The appointment is open: neither cancelled nor completed, what the query of the sweep
selects. -/
def isOpen (a : Appointment) : Prop := a.cancelled = false ∧ a.isCompleted = false

instance (a : Appointment) : Decidable (isOpen a) :=
  inferInstanceAs (Decidable (_ ∧ _))

/-- The sweep run at `now` transitions the appointment: it is open and its date is past. -/
def expires (now : Int) (a : Appointment) : Prop :=
  isOpen a ∧ isPast (setHoursZero (some now)) a = true

instance (now : Int) (a : Appointment) : Decidable (expires now a) :=
  inferInstanceAs (Decidable (_ ∧ _))

/-- The date-key of the appointment is a valid date whose calendar day comes before the
calendar day of `now`, time of day ignored. -/
def datedBefore (now : Int) (a : Appointment) : Bool :=
  match appointmentDate a.slotDate with
  | some t => decide (Day t < Day now)
  | none => false

/-- No two stored appointments have the same `_id`. -/
def uniqueIds (db : Db) : Prop := (db.appointments.map (fun a => a._id)).Nodup

instance (db : Db) : Decidable (uniqueIds db) :=
  inferInstanceAs (Decidable (List.Nodup _))

/-- The ledger entry of the doctor for the date-key, if any, does not hold the label. -/
def ledgerLacks (db : Db) (docId slotDate slotTime : String) : Prop :=
  ∀ labels, ledgerEntry db docId slotDate = some (some labels) → slotTime ∉ labels

/-- Every ledger entry of every doctor holds pairwise distinct labels. -/
def ledgersNodup (db : Db) : Prop :=
  ∀ id k labels, ledgerEntry db id k = some (some labels) → labels.Nodup

/-- The three lifecycle states, read off the two flags as the statistics read them. -/
def isActivePending (a : Appointment) : Prop := a.cancelled = false ∧ a.isCompleted = false

/-- The appointment is approved: its `isCompleted` flag is set. -/
def isApproved (a : Appointment) : Prop := a.isCompleted = true

/-- The appointment is cancelled: its `cancelled` flag is set. -/
def isCancelled (a : Appointment) : Prop := a.cancelled = true

/-- One call of a handler that writes appointments or ledgers, with its inputs. -/
inductive Op where
  | book (today : Int) (newId : String) (req : BookRequest)
  | cancel (req : CancelRequest)
  | adminCancel (appointmentId : String) (cancellationReason : Option String)
  | approve (appointmentId : String)
  | sweep (now : Int)
  | payStripe (appointmentId success : String)
  | payRazorpay (orderInfo : OrderInfo)

/-- The persisted state after one call. -/
def Op.apply (op : Op) (db : Db) : Db :=
  match op with
  | .book today newId req => (bookAppointment today newId req db).2
  | .cancel req => (cancelAppointment req db).2
  | .adminCancel appointmentId cancellationReason =>
    (appointmentCancel appointmentId cancellationReason db).2
  | .approve appointmentId => (approveAppointment appointmentId db).2
  | .sweep now => (cancelPastAppointments now db).2
  | .payStripe appointmentId success => (verifyStripe appointmentId success db).2
  | .payRazorpay orderInfo => (verifyRazorpay orderInfo db).2

/-- The persisted state after a sequence of calls, one at a time. -/
def runOps (ops : List Op) (db : Db) : Db := ops.foldl (fun st op => op.apply st) db

/-- Local time value of 13 November 2026, 10:00. -/
def nov13at10 : Int := 1794564000000

/-- The clinic after `a1` was booked and the doctor was then deleted. -/
def clinicDoctorDeleted : Db := (deleteDoctor "doc1" clinicBooked).2

/-- The clinic after `a1` was booked, with the ledger of the doctor back to what it was
before, so that the date-key of `a1` is absent. -/
def clinicKeyAbsent : Db := { clinicBooked with doctors := clinic.doctors }

/-- The clinic after `a1` was booked and then approved by the admin. -/
def clinicApproved : Db := (approveAppointment "a1" clinicBooked).2

/-- The record `a1` once it has been booked, approved and then cancelled by its owner. -/
def a1Closed : Appointment :=
  { _id := "a1", userId := "u1", docId := "doc1", slotDate := "12_11_2026",
    slotTime := "10:00 AM", userData := some ⟨"ana@mail.example", "approved"⟩,
    docData := ⟨"cruz@clinic.example", true, 500⟩, amount := 500, date := nov6at10,
    cancelled := true, payment := false, isCompleted := false, isRead := false,
    cancellationReason := some "Cancelled by patient", cancelledBy := some "user",
    status := some "approved" }

/-! ## Booking step by step -/

/-- What the outside world decides during one booking call: `save` and `update` are the
messages of the errors that `newAppointment.save()` and
`doctorModel.findByIdAndUpdate(docId, { slots_booked })` throw (`none` when the call
succeeds), and `mailSent` tells whether `transporter.sendMail` resolves. -/
structure BookOutcomes where
  save : Option String
  update : Option String
  mailSent : Bool
deriving DecidableEq, Repr

/-- The function `sendDoctorAppointmentNotification` of `utils/emailService.js`, given the
`userData` of the appointment data: destructuring `null` throws (`none` here); otherwise the
result is `true` when the mail was sent and `false` when `sendMail` threw. -/
def sendDoctorAppointmentNotification (mailSent : Bool) (userData : Option User) :
    Option Bool :=
  match userData with
  | none => none
  | some _ => if mailSent then some true else some false

/-- Where a booking call stands. Between two stages lies one `await`; the code between
two `await`s runs without interruption. A stage carries the local variables the rest of
the call still reads. -/
inductive BookStage where
  /-- The call has not read the doctor yet. -/
  | start
  /-- The doctor is read, the checks are passed and the label is pushed in memory;
  `userModel.findById` comes next. -/
  | doctorRead (docData : Doctor) (slots_booked : Ledger)
  /-- The user is read and the appointment data is built; `newAppointment.save()` comes
  next. -/
  | userRead (docData : Doctor) (slots_booked : Ledger) (userData : Option User)
  /-- The appointment is saved; `doctorModel.findByIdAndUpdate` comes next. -/
  | saved (slots_booked : Ledger) (userData : Option User)
  /-- The ledger is written; the notification comes next. -/
  | updated (userData : Option User)
  /-- The response is sent. -/
  | done (response : Response)

/-- The response of a call, once it is sent. -/
def BookStage.response : BookStage → Option Response
  | .done response => some response
  | _ => none

/-- One stage of `bookAppointment` of `userController.js`: the pending persistence call
is made on the state `db` and the code up to the next `await` runs. The first stage is
the window checks, which read no stored data, the read `doctorModel.findById(docId)` and
the two checks on the doctor; the next stages are `userModel.findById(userId)`,
`newAppointment.save()`, `doctorModel.findByIdAndUpdate(docId, { slots_booked })`, which
writes the ledger as computed from the first read, and the notification in its inner
`try`/`catch`. The outer `catch` answers a thrown error with its message; what was written
before stays written. `today` and `newId` are as in `bookAppointment`. -/
def bookStep (out : BookOutcomes) (today : Int) (newId : String) (req : BookRequest)
    (stage : BookStage) (db : Db) : BookStage × Db :=
  match stage with
  | .start =>
    let appointmentDate := appointmentDate req.slotDate
    if dateLt appointmentDate (minDate today) then
      (.done ⟨false, "Appointments must be booked at least 5 days in advance"⟩, db)
    else if dateGt appointmentDate (maxDate today) then
      (.done ⟨false, "Appointments cannot be booked more than 1 month in advance"⟩, db)
    else
      match db.doctors req.docId with
      | none => (.done ⟨false, "Cannot read properties of null (reading 'available')"⟩, db)
      | some docData =>
        if !docData.available then (.done ⟨false, "Doctor Not Available"⟩, db)
        else
          match docData.slots_booked req.slotDate with
          | some labels =>
            if req.slotTime ∈ labels then (.done ⟨false, "Slot Not Available"⟩, db)
            else
              (.doctorRead docData
                (docData.slots_booked.set req.slotDate (labels ++ [req.slotTime])), db)
          | none =>
            (.doctorRead docData
              (docData.slots_booked.set req.slotDate ([] ++ [req.slotTime])), db)
  | .doctorRead docData slots_booked =>
    (.userRead docData slots_booked (db.users req.userId), db)
  | .userRead docData slots_booked userData =>
    match out.save with
    | some message => (.done ⟨false, message⟩, db)
    | none =>
      let newAppointment :=
        appointmentModel newId req.userId req.docId userData
          ⟨docData.email, docData.available, docData.fees⟩ docData.fees
          req.slotTime req.slotDate today
      (.saved slots_booked userData,
        { db with appointments := db.appointments ++ [newAppointment] })
  | .saved slots_booked userData =>
    match out.update with
    | some message => (.done ⟨false, message⟩, db)
    | none =>
      (.updated userData,
        { db with doctors := updateSlots db.doctors req.docId slots_booked })
  | .updated userData =>
    match sendDoctorAppointmentNotification out.mailSent userData with
    | some _ => (.done ⟨true, "Appointment Booked"⟩, db)
    | none => (.done ⟨true, "Appointment Booked"⟩, db)
  | .done response => (.done response, db)

/-- A booking call run alone from its first stage to its response: five stages in a row. -/
def bookAppointmentSteps (out : BookOutcomes) (today : Int) (newId : String)
    (req : BookRequest) (db : Db) : BookStage × Db :=
  let s1 := bookStep out today newId req .start db
  let s2 := bookStep out today newId req s1.1 s1.2
  let s3 := bookStep out today newId req s2.1 s2.2
  let s4 := bookStep out today newId req s3.1 s3.2
  bookStep out today newId req s4.1 s4.2

/-- A booking call in flight: its inputs and the stage it has reached. -/
structure BookCall where
  out : BookOutcomes
  today : Int
  newId : String
  req : BookRequest
  stage : BookStage

/-- The call moves by one stage. -/
def BookCall.step (c : BookCall) (db : Db) : BookCall × Db :=
  let r := bookStep c.out c.today c.newId c.req c.stage db
  ({ c with stage := r.1 }, r.2)

/-- Two booking calls served by one event loop: the schedule says which call moves next
(`true` for the first), one stage at a time. -/
def interleave (schedule : List Bool) (a b : BookCall) (db : Db) : BookCall × BookCall × Db :=
  match schedule with
  | [] => (a, b, db)
  | true :: rest => interleave rest (a.step db).1 b (a.step db).2
  | false :: rest => interleave rest a (b.step db).1 (b.step db).2

/-! ## Login and the authentication of requests -/

/-- The two calls of the `jsonwebtoken` library that the code makes, the secret fixed:
`sign id` is `jwt.sign({ id }, JWT_SECRET)`, and `verify token` is the `id` of the
payload that `jwt.verify(token, JWT_SECRET)` decodes or the message of the error it
throws. -/
structure Jwt where
  sign : String → String
  verify : String → Except String String

/-- The response of `loginUser`: the HTTP status and the body `{ success, message, token }`. -/
structure LoginResponse where
  status : Nat
  success : Bool
  message : Option String
  token : Option String
deriving DecidableEq, Repr

/-- The handler `loginUser` of `userController.js`. `user` is the document that
`userModel.findOne({ email })` returns, with its `_id`, and `validPassword` the result of
`bcrypt.compare(password, user.password)`. -/
def loginUser (jwt : Jwt) (user : Option (String × User)) (validPassword : Bool) :
    LoginResponse :=
  match user with
  | none => ⟨400, false, some "User not found", none⟩
  | some (_id, user) =>
    if user.approval_status = "pending" then
      ⟨403, false, some "Your registration is pending approval", none⟩
    else if user.approval_status = "declined" then
      ⟨403, false, some "Your registration has been declined", none⟩
    else if user.approval_status = "blocked" then
      ⟨403, false,
        some "Your account has been blocked. Please contact support for assistance.", none⟩
    else if !validPassword then ⟨400, false, some "Invalid password", none⟩
    else ⟨200, true, none, some (jwt.sign _id)⟩

/-- The middleware `authUser` of `middleware/authUser.js`, given the `Authorization`
header: the user id it writes into `req.body.userId` before the handler runs, or the
response it sends with status 401. -/
def authUser (jwt : Jwt) (authorization : Option String) : Except Response String :=
  match authorization with
  | none => .error ⟨false, "Not Authorized. Please login again."⟩
  | some authHeader =>
    if !("Bearer ".toList.isPrefixOf authHeader.toList) then
      .error ⟨false, "Not Authorized. Please login again."⟩
    else
      let token := String.mk (((split ' ' authHeader.toList).get? 1).getD [])
      match jwt.verify token with
      | .ok id => .ok id
      | .error message =>
        .error ⟨false, if message = "" then "Authentication failed" else message⟩

/-- The route `POST /book-appointment` of `routes/userRoute.js`: `authUser`, then
`bookAppointment` with the `userId` that `authUser` wrote into the body. -/
def bookAppointmentRoute (jwt : Jwt) (authorization : Option String) (today : Int)
    (newId : String) (body : BookRequest) (db : Db) : Response × Db :=
  match authUser jwt authorization with
  | .error response => (response, db)
  | .ok id => bookAppointment today newId { body with userId := id } db

/-- The handler `updateApprovalStatus` of `adminController.js`, the mail it sends after
the write left aside. -/
def updateApprovalStatus (userId status : String) (db : Db) : Response × Db :=
  if status ∉ ["approved", "declined", "blocked"] then (⟨false, "Invalid approval status"⟩, db)
  else
    match db.users userId with
    | none => (⟨false, "User not found"⟩, db)
    | some user =>
      (⟨true,
          if status = "blocked" then "User blocked successfully"
          else "User registration " ++ status ++ " successfully"⟩,
        { db with
          users := fun id =>
            if id = userId then some { user with approval_status := status }
            else db.users id })

/-! ## Double booking -/

/-- Two appointments are for the same slot: same doctor, date-key and time label. -/
def sameSlot (a b : Appointment) : Prop :=
  a.docId = b.docId ∧ a.slotDate = b.slotDate ∧ a.slotTime = b.slotTime

instance (a b : Appointment) : Decidable (sameSlot a b) :=
  inferInstanceAs (Decidable (_ ∧ _))

/-- No two stored appointments that are not cancelled are for the same slot. -/
def noDoubleBooking (db : Db) : Prop :=
  db.appointments.Pairwise
    (fun a b => ¬(a.cancelled = false ∧ b.cancelled = false ∧ sameSlot a b))

instance (db : Db) : Decidable (noDoubleBooking db) :=
  inferInstanceAs (Decidable (List.Pairwise _ _))

/-- The ledger of the appointment's doctor holds its time label under its date-key. -/
def slotHeld (db : Db) (a : Appointment) : Bool :=
  match ledgerEntry db a.docId a.slotDate with
  | some (some labels) => decide (a.slotTime ∈ labels)
  | _ => false

/-- Every stored appointment that is not cancelled has its slot held in the ledger. -/
def activeHeld (db : Db) : Prop :=
  ∀ a ∈ db.appointments, a.cancelled = false → slotHeld db a = true

instance (db : Db) : Decidable (activeHeld db) :=
  inferInstanceAs (Decidable (∀ a ∈ db.appointments, _))

/-- Each doctor's ledger holds exactly the (date-key, time label) pairs of that doctor's
appointments that are not cancelled. -/
def ledgerMatches (db : Db) : Prop :=
  ∀ id k t,
    (∃ labels, ledgerEntry db id k = some (some labels) ∧ t ∈ labels) ↔
      ∃ a ∈ db.appointments, a.cancelled = false ∧ a.docId = id ∧ a.slotDate = k ∧
        a.slotTime = t

/-- The call is a booking, a patient cancel, an admin cancel or an approval, and if it is
a cancel, the appointment it finds is not cancelled yet. -/
def Op.withoutRecancel (op : Op) (db : Db) : Bool :=
  match op with
  | .book _ _ _ => true
  | .cancel req =>
    match findAppointment req.appointmentId db.appointments with
    | some a => !a.cancelled
    | none => true
  | .adminCancel appointmentId _ =>
    match findAppointment appointmentId db.appointments with
    | some a => !a.cancelled
    | none => true
  | .approve _ => true
  | _ => false

/-- Every call of the sequence, run on the state the calls before it leave, is of the
four kinds and cancels no appointment that is cancelled already. -/
def runWithoutRecancel : List Op → Db → Bool
  | [], _ => true
  | op :: rest, db => op.withoutRecancel db && runWithoutRecancel rest (op.apply db)

/-! ## Samples for the statements on booking steps, login and double booking -/

/-- Every persistence call succeeds and the mail is sent. -/
def allGood : BookOutcomes := ⟨none, none, true⟩

/-- The appointment is saved, then the write of the ledger fails. -/
def updateFails : BookOutcomes := ⟨none, some "connection closed", true⟩

/-- A stand-in for the token library: a token is the id behind a fixed mark. -/
def toyJwt : Jwt :=
  { sign := fun id => "tok." ++ id
    verify := fun token =>
      if "tok.".toList.isPrefixOf token.toList then .ok (String.mk (token.toList.drop 4))
      else .error "jwt malformed" }

/-- A doctor with nothing booked. -/
def drSantos : Doctor :=
  { email := "santos@clinic.example", available := true, fees := 400,
    slots_booked := fun _ => none }

/-- A clinic with one doctor whose ledger is empty, two patients and no appointment. -/
def clinicOpening : Db :=
  { doctors := fun id => if id = "doc1" then some drSantos else none
    users := clinic.users
    appointments := [] }

/-- The request of a patient for 12 November 2026, 10:00 AM, with doctor `doc1`. -/
def slotReq (userId : String) : BookRequest := ⟨userId, "doc1", "12_11_2026", "10:00 AM"⟩

/-- The booking call of patient `u1` for that slot, not started yet. -/
def callOfU1 : BookCall := ⟨allGood, nov6at10, "a1", slotReq "u1", .start⟩

/-- The booking call of patient `u2` for the same slot, not started yet. -/
def callOfU2 : BookCall := ⟨allGood, nov6at10, "a2", slotReq "u2", .start⟩

/-- The first call reads the doctor, then the second call reads the doctor, then the
first call runs to its response, then the second. -/
def overlapping : List Bool :=
  [true, false, true, true, true, true, false, false, false, false]

/-- The first call runs to its response before the second call starts. -/
def oneAfterTheOther : List Bool :=
  [true, true, true, true, true, false, false, false, false, false]

/-- Patient `u1` books the slot, the admin cancels that appointment, patient `u2` books
the freed slot, then `u1` cancels the first appointment once more. -/
def recancelRun : List Op :=
  [.book nov6at10 "a1" (slotReq "u1"), .adminCancel "a1" none,
    .book nov6at10 "a2" (slotReq "u2"), .cancel ⟨"u1", "a1", none⟩]

/-- The clinic after `u1` was blocked by the admin. -/
def clinicU1Blocked : Db := (updateApprovalStatus "u1" "blocked" clinic).2

/-! ## Date arithmetic of the booking window -/

theorem DayFromYear_succ (y : Int) :
    DayFromYear (y + 1) = DayFromYear y + 365 + (if InLeapYear y then 1 else 0) := by
  have h4 : (y + 1 - 1969) / 4 = (y - 1969) / 4 + (if y % 4 = 0 then 1 else 0) := by
    split_ifs <;> omega
  have h100 : (y + 1 - 1901) / 100 = (y - 1901) / 100 + (if y % 100 = 0 then 1 else 0) := by
    split_ifs <;> omega
  have h400 : (y + 1 - 1601) / 400 = (y - 1601) / 400 + (if y % 400 = 0 then 1 else 0) := by
    split_ifs <;> omega
  unfold DayFromYear InLeapYear
  rw [h4, h100, h400]
  by_cases c4 : y % 4 = 0 <;> by_cases c100 : y % 100 = 0 <;> by_cases c400 : y % 400 = 0 <;>
    simp [c4, c100, c400] <;> omega

/-- Month `m + 1` starts a whole month, of 28 to 31 days, after month `m`. -/
theorem MakeDay_next_month (y m d : Int) (hy : -999000 ≤ y ∧ y ≤ 999000)
    (hm : 0 ≤ m ∧ m ≤ 11) :
    ∃ n L : Int, MakeDay y m d = some n ∧ MakeDay y (m + 1) d = some (n + L) ∧
      28 ≤ L ∧ L ≤ 31 := by
  have hcases : m = 0 ∨ m = 1 ∨ m = 2 ∨ m = 3 ∨ m = 4 ∨ m = 5 ∨ m = 6 ∨ m = 7 ∨ m = 8 ∨
      m = 9 ∨ m = 10 ∨ m = 11 := by omega
  have hsucc := DayFromYear_succ y
  unfold MakeDay
  rw [if_pos (by omega), if_pos (by omega)]
  refine ⟨_, (DayFromYear (y + (m + 1) / 12) +
      monthStart ((m + 1) % 12) (InLeapYear (y + (m + 1) / 12))) -
      (DayFromYear (y + m / 12) + monthStart (m % 12) (InLeapYear (y + m / 12))),
    rfl, ?_, ?_⟩
  · simp only [Option.some.injEq]
    ring
  · rcases hcases with h | h | h | h | h | h | h | h | h | h | h | h <;> subst h <;>
      cases hl : InLeapYear y <;>
      simp [monthStart, hl, hsucc]
    omega

/-- The estimate of `YearFromDay` is at most one year off. -/
theorem YearFromDay_estimate (d : Int) :
    DayFromYear (1970 + d * 400 / 146097 - 1) ≤ d ∧
      d < DayFromYear (1970 + d * 400 / 146097 + 1 + 1) := by
  unfold DayFromYear
  constructor <;> omega

/-- The year returned by `YearFromDay` is the one that contains the day: it starts on or
before day `d` and the next year starts after it. -/
theorem YearFromDay_spec (d : Int) :
    DayFromYear (YearFromDay d) ≤ d ∧ d < DayFromYear (YearFromDay d + 1) := by
  have h := YearFromDay_estimate d
  unfold YearFromDay
  simp only []
  split_ifs with h1 h2
  · exact ⟨h1, h.2⟩
  · exact ⟨h2, lt_of_not_le h1⟩
  · refine ⟨h.1, ?_⟩
    rw [sub_add_cancel]
    exact lt_of_not_le h2

/-- The day of the year runs from 0 to 364, or to 365 in a leap year. -/
theorem DayWithinYear_bounds (t : Int) :
    0 ≤ DayWithinYear t ∧
      DayWithinYear t < 365 + (if InLeapYear (YearFromTime t) then 1 else 0) := by
  have h := YearFromDay_spec (Day t)
  have hs := DayFromYear_succ (YearFromDay (Day t))
  unfold DayWithinYear YearFromTime
  constructor <;> omega

theorem YearFromDay_bounds (d : Int) (h0 : -100000000 ≤ d) (h1 : d ≤ 100000000) :
    -999000 ≤ YearFromDay d ∧ YearFromDay d ≤ 999000 := by
  unfold YearFromDay
  simp only []
  split_ifs <;> omega

theorem ite_between {c : Prop} [Decidable c] {a b lo hi : Int} (ha : lo ≤ a ∧ a ≤ hi)
    (hb : lo ≤ b ∧ b ≤ hi) : lo ≤ (if c then a else b) ∧ (if c then a else b) ≤ hi := by
  split <;> assumption

theorem monthOfDay_bounds (d l : Int) : 0 ≤ monthOfDay d l ∧ monthOfDay d l ≤ 11 := by
  unfold monthOfDay
  repeat (first | exact ⟨by omega, by omega⟩ | apply ite_between)

theorem MonthFromTime_bounds (t : Int) : 0 ≤ MonthFromTime t ∧ MonthFromTime t ≤ 11 :=
  monthOfDay_bounds _ _

theorem Day_bounds (t : Int) (h0 : -8640000000000000 ≤ t) (h1 : t ≤ 8640000000000000) :
    -100000000 ≤ Day t ∧ Day t ≤ 100000000 := by
  unfold Day msPerDay; omega

/-- Building a day from the year, month and day of the month read off a date, with the day
of the month moved by `k`, gives the day number moved by `k`. -/
theorem MakeDay_getters (t k : Int) (h0 : -8640000000000000 ≤ t) (h1 : t ≤ 8640000000000000) :
    MakeDay (YearFromTime t) (MonthFromTime t) (DateFromTime t + k) = some (Day t + k) := by
  have hd := Day_bounds t h0 h1
  have hY := YearFromDay_bounds (Day t) hd.1 hd.2
  have hM := MonthFromTime_bounds t
  unfold MakeDay
  have hdiv : MonthFromTime t / 12 = 0 := by omega
  have hmod : MonthFromTime t % 12 = MonthFromTime t := by omega
  rw [if_pos (by unfold YearFromTime; omega)]
  simp only [hdiv, hmod, add_zero]
  unfold DateFromTime DayWithinYear
  congr 1
  ring

/-- The lower end of the window is the same time of day five days after the clock. -/
theorem minDate_eq (today : Int) (h : validClock today) :
    minDate today = some (today + 5 * msPerDay) := by
  unfold validClock msPerDay at h
  unfold minDate setDate
  rw [MakeDay_getters today 5 h.1 (by omega)]
  simp only [TimeClip, Day, TimeWithinDay, msPerDay]
  rw [if_pos (by omega)]
  congr 1
  omega

/-- The upper end of the window is the same time of day a whole month, of 28 to 31 days,
after the clock. -/
theorem maxDate_eq (today : Int) (h : validClock today) :
    ∃ L : Int, 28 ≤ L ∧ L ≤ 31 ∧ maxDate today = some (today + L * msPerDay) := by
  unfold validClock msPerDay at h
  have h1 : today ≤ 8640000000000000 := by omega
  have hd := Day_bounds today h.1 h1
  have hY := YearFromDay_bounds (Day today) hd.1 hd.2
  have hM := MonthFromTime_bounds today
  obtain ⟨n, L, hn, hn1, hL0, hL1⟩ :=
    MakeDay_next_month (YearFromTime today) (MonthFromTime today) (DateFromTime today) hY hM
  have hg := MakeDay_getters today 0 h.1 h1
  rw [add_zero, hn] at hg
  simp only [Option.some.injEq, add_zero] at hg
  refine ⟨L, hL0, hL1, ?_⟩
  unfold maxDate setMonth
  rw [hn1, hg]
  simp only [TimeClip, Day, TimeWithinDay, msPerDay]
  have hval : (today / 86400000 + L) * 86400000 + today % 86400000 = today + L * 86400000 := by
    rw [add_mul]; omega
  rw [hval, if_pos (by omega)]

/-- The date of a date-key, when valid, is the midnight that starts its day. -/
theorem appointmentDate_midnight (slotDate : String) (a : Int)
    (h : appointmentDate slotDate = some a) : a = Day a * msPerDay := by
  unfold appointmentDate newDate at h
  simp only [] at h
  split at h
  · split at h
    · unfold TimeClip at h
      split at h
      · simp only [Option.some.injEq] at h
        subst h
        unfold Day msPerDay
        omega
      · exact absurd h (by simp)
    · exact absurd h (by simp)
  · exact absurd h (by simp)

/-! ## The branches of `bookAppointment` -/

theorem book_too_early (today : Int) (newId : String) (req : BookRequest) (db : Db)
    (h : dateLt (appointmentDate req.slotDate) (minDate today) = true) :
    bookAppointment today newId req db =
      (⟨false, "Appointments must be booked at least 5 days in advance"⟩, db) := by
  simp [bookAppointment, h]

theorem book_too_late (today : Int) (newId : String) (req : BookRequest) (db : Db)
    (h1 : dateLt (appointmentDate req.slotDate) (minDate today) = false)
    (h2 : dateGt (appointmentDate req.slotDate) (maxDate today) = true) :
    bookAppointment today newId req db =
      (⟨false, "Appointments cannot be booked more than 1 month in advance"⟩, db) := by
  simp [bookAppointment, h1, h2]

theorem book_no_doctor (today : Int) (newId : String) (req : BookRequest) (db : Db)
    (hw : inWindow today req.slotDate) (hd : db.doctors req.docId = none) :
    bookAppointment today newId req db =
      (⟨false, "Cannot read properties of null (reading 'available')"⟩, db) := by
  simp [bookAppointment, hw.1, hw.2, hd]

theorem book_unavailable (today : Int) (newId : String) (req : BookRequest) (db : Db)
    (docData : Doctor) (hw : inWindow today req.slotDate)
    (hd : db.doctors req.docId = some docData) (ha : docData.available = false) :
    bookAppointment today newId req db = (⟨false, "Doctor Not Available"⟩, db) := by
  simp [bookAppointment, hw.1, hw.2, hd, ha]

theorem book_taken (today : Int) (newId : String) (req : BookRequest) (db : Db)
    (docData : Doctor) (labels : List String) (hw : inWindow today req.slotDate)
    (hd : db.doctors req.docId = some docData) (ha : docData.available = true)
    (hl : docData.slots_booked req.slotDate = some labels) (hm : req.slotTime ∈ labels) :
    bookAppointment today newId req db = (⟨false, "Slot Not Available"⟩, db) := by
  simp [bookAppointment, hw.1, hw.2, hd, ha, hl, hm]

theorem book_ok (today : Int) (newId : String) (req : BookRequest) (db : Db)
    (docData : Doctor) (hw : inWindow today req.slotDate)
    (hd : db.doctors req.docId = some docData) (ha : docData.available = true)
    (hf : slotFree docData req.slotDate req.slotTime) :
    bookAppointment today newId req db =
      (⟨true, "Appointment Booked"⟩,
        { db with
          appointments := db.appointments ++
            [appointmentModel newId req.userId req.docId (db.users req.userId)
              ⟨docData.email, docData.available, docData.fees⟩ docData.fees
              req.slotTime req.slotDate today]
          doctors := updateSlots db.doctors req.docId
            (docData.slots_booked.set req.slotDate
              ((docData.slots_booked req.slotDate).getD [] ++ [req.slotTime])) }) := by
  unfold slotFree at hf
  cases hl : docData.slots_booked req.slotDate with
  | none => simp [bookAppointment, hw.1, hw.2, hd, ha, hl]
  | some labels =>
    have hm := hf labels hl
    simp [bookAppointment, hw.1, hw.2, hd, ha, hl, hm]

/-- Every call of `bookAppointment` takes one of six branches. -/
theorem book_cases (today : Int) (newId : String) (req : BookRequest) (db : Db) :
    (dateLt (appointmentDate req.slotDate) (minDate today) = true ∧
        bookAppointment today newId req db =
          (⟨false, "Appointments must be booked at least 5 days in advance"⟩, db)) ∨
      (dateLt (appointmentDate req.slotDate) (minDate today) = false ∧
        dateGt (appointmentDate req.slotDate) (maxDate today) = true ∧
        bookAppointment today newId req db =
          (⟨false, "Appointments cannot be booked more than 1 month in advance"⟩, db)) ∨
      (inWindow today req.slotDate ∧
        bookAppointment today newId req db =
          (⟨false, "Cannot read properties of null (reading 'available')"⟩, db)) ∨
      (inWindow today req.slotDate ∧
        bookAppointment today newId req db = (⟨false, "Doctor Not Available"⟩, db)) ∨
      (inWindow today req.slotDate ∧
        bookAppointment today newId req db = (⟨false, "Slot Not Available"⟩, db)) ∨
      (∃ docData, inWindow today req.slotDate ∧ db.doctors req.docId = some docData ∧
        docData.available = true ∧ slotFree docData req.slotDate req.slotTime ∧
        (bookAppointment today newId req db).1 = ⟨true, "Appointment Booked"⟩) := by
  cases h1 : dateLt (appointmentDate req.slotDate) (minDate today) with
  | true => exact Or.inl ⟨rfl, book_too_early today newId req db h1⟩
  | false =>
    cases h2 : dateGt (appointmentDate req.slotDate) (maxDate today) with
    | true => exact Or.inr (Or.inl ⟨rfl, rfl, book_too_late today newId req db h1 h2⟩)
    | false =>
      have hw : inWindow today req.slotDate := ⟨h1, h2⟩
      cases hd : db.doctors req.docId with
      | none => exact Or.inr (Or.inr (Or.inl ⟨hw, book_no_doctor today newId req db hw hd⟩))
      | some docData =>
        cases ha : docData.available with
        | false =>
          exact Or.inr (Or.inr (Or.inr (Or.inl
            ⟨hw, book_unavailable today newId req db docData hw hd ha⟩)))
        | true =>
          by_cases hf : slotFree docData req.slotDate req.slotTime
          · right; right; right; right; right
            rw [book_ok today newId req db docData hw hd ha hf]
            exact ⟨docData, hw, rfl, ha, hf, rfl⟩
          · unfold slotFree at hf
            push_neg at hf
            obtain ⟨labels, hl, hm⟩ := hf
            exact Or.inr (Or.inr (Or.inr (Or.inr (Or.inl
              ⟨hw, book_taken today newId req db docData labels hw hd ha hl hm⟩))))

/-- A rejected booking leaves the persisted state as it was. -/
theorem book_failure_frame (today : Int) (newId : String) (req : BookRequest) (db : Db)
    (h : (bookAppointment today newId req db).1.success = false) :
    (bookAppointment today newId req db).2 = db := by
  rcases book_cases today newId req db with
    ⟨_, h1⟩ | ⟨_, _, h1⟩ | ⟨_, h1⟩ | ⟨_, h1⟩ | ⟨_, h1⟩ | ⟨_, _, _, _, _, h1⟩
  · rw [h1]
  · rw [h1]
  · rw [h1]
  · rw [h1]
  · rw [h1]
  · rw [h1] at h
    simp at h

/-- The first window check, on a valid clock: the request is turned down as too early
exactly when the midnight of the date-key comes before the instant five days after the
clock. -/
theorem too_early_iff (today : Int) (hclock : validClock today) (newId : String)
    (req : BookRequest) (db : Db) :
    (bookAppointment today newId req db).1 =
        ⟨false, "Appointments must be booked at least 5 days in advance"⟩ ↔
      ∃ a, appointmentDate req.slotDate = some a ∧ a < today + 5 * msPerDay := by
  have hmin := minDate_eq today hclock
  constructor
  · intro h
    rcases book_cases today newId req db with
      ⟨hc, _⟩ | ⟨_, _, h1⟩ | ⟨_, h1⟩ | ⟨_, h1⟩ | ⟨_, h1⟩ | ⟨_, _, _, _, _, h1⟩
    · rw [hmin] at hc
      cases ha : appointmentDate req.slotDate with
      | none => rw [ha] at hc; exact absurd hc (by simp [dateLt])
      | some a =>
        rw [ha] at hc
        exact ⟨a, rfl, by simpa [dateLt] using hc⟩
    all_goals (rw [h1] at h; simp at h)
  · rintro ⟨a, ha, hlt⟩
    rw [book_too_early today newId req db (by rw [ha, hmin]; simpa [dateLt] using hlt)]

/-! ## Lookups and updates of the appointment collection -/

theorem findAppointment_update (id : String) (f : Appointment → Appointment)
    (hf : ∀ a, (f a)._id = a._id) (l : List Appointment) :
    findAppointment id (updateAppointment id f l) = (findAppointment id l).map f := by
  induction l with
  | nil => rfl
  | cons a rest ih =>
    by_cases h : a._id = id
    · simp [findAppointment, updateAppointment, h, hf]
    · simp [findAppointment, updateAppointment, h, ih]

theorem findAppointment_append_fresh (id : String) (l : List Appointment) (a : Appointment)
    (hfresh : findAppointment id l = none) (ha : a._id = id) :
    findAppointment id (l ++ [a]) = some a := by
  induction l with
  | nil => simp [findAppointment, ha]
  | cons b rest ih =>
    by_cases h : b._id = id
    · simp [findAppointment, h] at hfresh
    · simp only [findAppointment, h, if_false] at hfresh
      simp [findAppointment, h, ih hfresh]

theorem updateAppointment_length (id : String) (f : Appointment → Appointment)
    (l : List Appointment) : (updateAppointment id f l).length = l.length := by
  induction l with
  | nil => rfl
  | cons a rest ih =>
    by_cases h : a._id = id
    · simp [updateAppointment, h]
    · simp [updateAppointment, h, ih]

/-! ## The branches of the two cancel handlers -/

theorem cancel_unauthorized (req : CancelRequest) (db : Db) (a : Appointment)
    (hfind : findAppointment req.appointmentId db.appointments = some a)
    (hu : a.userId ≠ req.userId) :
    cancelAppointment req db = (⟨false, "Unauthorized action"⟩, db) := by
  simp [cancelAppointment, hfind, hu]

theorem cancel_ok (req : CancelRequest) (db : Db) (a : Appointment) (d : Doctor)
    (labels : List String)
    (hfind : findAppointment req.appointmentId db.appointments = some a)
    (hu : a.userId = req.userId) (hd : db.doctors a.docId = some d)
    (hl : d.slots_booked a.slotDate = some labels) :
    cancelAppointment req db =
      (⟨true, "Appointment Cancelled"⟩,
        { db with
          appointments := updateAppointment req.appointmentId
            (fun x => { x with
              cancelled := true
              cancellationReason := some (reasonOr req.cancellationReason "Cancelled by patient")
              cancelledBy := some "user" })
            db.appointments
          doctors := updateSlots db.doctors a.docId
            (d.slots_booked.set a.slotDate (labels.filter (fun e => e ≠ a.slotTime))) }) := by
  simp [cancelAppointment, hfind, hu, hd, hl]

/-- A patient cancel that answers with success found the appointment, its owner, the
doctor and the ledger entry of the date-key. -/
theorem cancel_success_inv (req : CancelRequest) (db : Db)
    (h : (cancelAppointment req db).1.success = true) :
    ∃ a d labels, findAppointment req.appointmentId db.appointments = some a ∧
      a.userId = req.userId ∧ db.doctors a.docId = some d ∧
      d.slots_booked a.slotDate = some labels := by
  unfold cancelAppointment at h
  cases hfind : findAppointment req.appointmentId db.appointments with
  | none => simp [hfind] at h
  | some a =>
    by_cases hu : a.userId = req.userId
    · cases hd : db.doctors a.docId with
      | none => simp [hfind, hu, hd] at h
      | some d =>
        cases hl : d.slots_booked a.slotDate with
        | none => simp [hfind, hu, hd, hl] at h
        | some labels => exact ⟨a, d, labels, rfl, hu, hd, hl⟩
    · simp [hfind, hu] at h

/-- The state an admin cancel leaves when there is no ledger entry to release. -/
theorem admin_cancel_no_entry (appointmentId : String) (reason : Option String) (db : Db)
    (a : Appointment) (hfind : findAppointment appointmentId db.appointments = some a)
    (hno : db.doctors a.docId = none ∨
      ∃ d, db.doctors a.docId = some d ∧ d.slots_booked a.slotDate = none) :
    appointmentCancel appointmentId reason db =
      (⟨true, "Appointment Cancelled Successfully"⟩,
        { db with
          appointments := updateAppointment appointmentId
            (fun x => { x with
              cancelled := true
              cancellationReason := some (reasonOr reason "Cancelled by admin")
              cancelledBy := some "admin" })
            db.appointments }) := by
  rcases hno with hd | ⟨d, hd, hl⟩
  · simp [appointmentCancel, hfind, hd]
  · simp [appointmentCancel, hfind, hd, hl]

/-- The state an admin cancel leaves when the ledger has an entry for the date-key. -/
theorem admin_cancel_entry (appointmentId : String) (reason : Option String) (db : Db)
    (a : Appointment) (d : Doctor) (labels : List String)
    (hfind : findAppointment appointmentId db.appointments = some a)
    (hd : db.doctors a.docId = some d) (hl : d.slots_booked a.slotDate = some labels) :
    appointmentCancel appointmentId reason db =
      (⟨true, "Appointment Cancelled Successfully"⟩,
        { db with
          appointments := updateAppointment appointmentId
            (fun x => { x with
              cancelled := true
              cancellationReason := some (reasonOr reason "Cancelled by admin")
              cancelledBy := some "admin" })
            db.appointments
          doctors := updateSlots db.doctors a.docId
            (d.slots_booked.set a.slotDate (labels.filter (fun time => time ≠ a.slotTime))) }) := by
  simp [appointmentCancel, hfind, hd, hl]

theorem admin_cancel_success_inv (appointmentId : String) (reason : Option String) (db : Db)
    (h : (appointmentCancel appointmentId reason db).1.success = true) :
    ∃ a, findAppointment appointmentId db.appointments = some a := by
  unfold appointmentCancel at h
  cases hfind : findAppointment appointmentId db.appointments with
  | none => simp [hfind] at h
  | some a => exact ⟨a, rfl⟩

/-! ## Ledger frames -/

theorem ledgersAgreeExcept_same (db1 db2 : Db) (docId slotDate slotTime : String)
    (h : db2.doctors = db1.doctors) : ledgersAgreeExcept db1 db2 docId slotDate slotTime := by
  intro id k
  simp [ledgerEntry, h]

theorem ledgersAgreeExcept_release (db1 db2 : Db) (docId slotDate slotTime : String)
    (d : Doctor) (labels : List String) (hd : db1.doctors docId = some d)
    (hl : d.slots_booked slotDate = some labels)
    (h : db2.doctors = updateSlots db1.doctors docId
      (d.slots_booked.set slotDate (labels.filter (fun e => e ≠ slotTime)))) :
    ledgersAgreeExcept db1 db2 docId slotDate slotTime := by
  intro id k
  by_cases hid : id = docId
  · subst hid
    by_cases hk : k = slotDate
    · subst hk
      simp [ledgerEntry, h, updateSlots, Ledger.set, hd, hl, List.filter_filter]
    · simp [ledgerEntry, h, updateSlots, Ledger.set, hd, hk]
  · simp [ledgerEntry, h, updateSlots, hid]

/-! ## Claims -/

/-- C1 (booking-window lower bound). The claim asks that a date-key exactly five days after
today is never turned down as too early. The handler compares the midnight of the date-key
to the clock moved five days ahead, time of day kept: at 10:00 on 6 November 2026 the
date-key `11_11_2026`, whose day is the fifth day after today, is rejected with
'Appointments must be booked at least 5 days in advance', whatever the rest of the request
and the stored data. -/
theorem lower_bound_fifth_day_rejected (newId userId docId slotTime : String) (db : Db) :
    appointmentDate "11_11_2026" = some ((Day nov6at10 + 5) * msPerDay) ∧
      bookAppointment nov6at10 newId ⟨userId, docId, "11_11_2026", slotTime⟩ db =
        (⟨false, "Appointments must be booked at least 5 days in advance"⟩, db) :=
  ⟨by decide, book_too_early nov6at10 newId _ db
    (by decide : dateLt (appointmentDate "11_11_2026") (minDate nov6at10) = true)⟩

/-- C2 (booking-window upper bound). On a valid clock the upper end `maxDate` of the window
exists, and the request is rejected with 'Appointments cannot be booked more than 1 month in
advance' exactly when the day of the date-key is later than the day of `maxDate`, the
calendar day one month after the clock. A date-key on that very day passes both window
checks, and a date-key on the following day is rejected. -/
theorem upper_bound_inclusive (today : Int) (hclock : validClock today) (newId : String)
    (req : BookRequest) (db : Db) :
    ∃ mx, maxDate today = some mx ∧
      ((bookAppointment today newId req db).1 =
          ⟨false, "Appointments cannot be booked more than 1 month in advance"⟩ ↔
        ∃ a, appointmentDate req.slotDate = some a ∧ Day mx < Day a) ∧
      (∀ a, appointmentDate req.slotDate = some a → Day a = Day mx →
        inWindow today req.slotDate) ∧
      (∀ a, appointmentDate req.slotDate = some a → Day a = Day mx + 1 →
        bookAppointment today newId req db =
          (⟨false, "Appointments cannot be booked more than 1 month in advance"⟩, db)) := by
  have hmin := minDate_eq today hclock
  obtain ⟨L, hL0, hL1, hmax⟩ := maxDate_eq today hclock
  have key : ∀ a, appointmentDate req.slotDate = some a →
      (Day (today + L * msPerDay) < Day a ↔ today + L * msPerDay < a) := by
    intro a ha
    have hmid := appointmentDate_midnight req.slotDate a ha
    unfold Day msPerDay at *
    omega
  have late : ∀ a, appointmentDate req.slotDate = some a → today + L * msPerDay < a →
      bookAppointment today newId req db =
        (⟨false, "Appointments cannot be booked more than 1 month in advance"⟩, db) := by
    intro a ha hlt
    apply book_too_late
    · rw [ha, hmin]
      have : ¬ a < today + 5 * msPerDay := by unfold msPerDay at *; omega
      simpa [dateLt] using this
    · rw [ha, hmax]
      simpa [dateGt, dateLt] using hlt
  refine ⟨today + L * msPerDay, hmax, ⟨?_, ?_⟩, ?_, ?_⟩
  · intro h
    rcases book_cases today newId req db with
      ⟨_, h1⟩ | ⟨_, hc, _⟩ | ⟨_, h1⟩ | ⟨_, h1⟩ | ⟨_, h1⟩ | ⟨_, _, _, _, _, h1⟩
    · rw [h1] at h; simp at h
    · rw [hmax] at hc
      cases ha : appointmentDate req.slotDate with
      | none => rw [ha] at hc; exact absurd hc (by simp [dateGt, dateLt])
      | some a =>
        rw [ha] at hc
        exact ⟨a, rfl, (key a ha).2 (by simpa [dateGt, dateLt] using hc)⟩
    all_goals (rw [h1] at h; simp at h)
  · rintro ⟨a, ha, hlt⟩
    rw [late a ha ((key a ha).1 hlt)]
  · intro a ha hday
    have hmid := appointmentDate_midnight req.slotDate a ha
    constructor
    · rw [ha, hmin]
      have : ¬ a < today + 5 * msPerDay := by unfold Day msPerDay at *; omega
      simpa [dateLt] using this
    · rw [ha, hmax]
      have : ¬ today + L * msPerDay < a := by unfold Day msPerDay at *; omega
      simpa [dateGt, dateLt] using this
  · intro a ha hday
    exact late a ha ((key a ha).1 (by omega))

/-- Witness of C2 at 10:00 on 6 November 2026: `6_12_2026` passes the window check. -/
theorem upper_bound_inclusive_witness :
    validClock nov6at10 ∧
      ∃ mx, maxDate nov6at10 = some mx ∧
        ((bookAppointment nov6at10 "a1" ⟨"u1", "doc1", "6_12_2026", "10:00 AM"⟩ clinic).1 =
            ⟨false, "Appointments cannot be booked more than 1 month in advance"⟩ ↔
          ∃ a, appointmentDate "6_12_2026" = some a ∧ Day mx < Day a) ∧
        (∀ a, appointmentDate "6_12_2026" = some a → Day a = Day mx →
          inWindow nov6at10 "6_12_2026") ∧
        (∀ a, appointmentDate "6_12_2026" = some a → Day a = Day mx + 1 →
          bookAppointment nov6at10 "a1" ⟨"u1", "doc1", "6_12_2026", "10:00 AM"⟩ clinic =
            (⟨false, "Appointments cannot be booked more than 1 month in advance"⟩, clinic)) :=
  ⟨by decide, upper_bound_inclusive nov6at10 (by decide) "a1"
    ⟨"u1", "doc1", "6_12_2026", "10:00 AM"⟩ clinic⟩

/-- C3 (slot taken). An in-window request to an available doctor whose ledger entry for the
date-key already holds the time label is answered 'Slot Not Available', and the persisted
state, the appointment records included, is the one before the call. -/
theorem slot_taken (today : Int) (newId : String) (req : BookRequest) (db : Db)
    (docData : Doctor) (labels : List String) (hw : inWindow today req.slotDate)
    (hd : db.doctors req.docId = some docData) (ha : docData.available = true)
    (hl : docData.slots_booked req.slotDate = some labels) (hm : req.slotTime ∈ labels) :
    bookAppointment today newId req db = (⟨false, "Slot Not Available"⟩, db) ∧
      (bookAppointment today newId req db).2.appointments = db.appointments := by
  rw [book_taken today newId req db docData labels hw hd ha hl hm]
  exact ⟨rfl, rfl⟩

/-- Witness of C3: the label booked on 20 November 2026 is asked for again. -/
theorem slot_taken_witness :
    bookAppointment nov6at10 "a1" ⟨"u2", "doc1", "20_11_2026", "09:00 AM"⟩ clinic =
        (⟨false, "Slot Not Available"⟩, clinic) ∧
      (bookAppointment nov6at10 "a1" ⟨"u2", "doc1", "20_11_2026", "09:00 AM"⟩
        clinic).2.appointments = clinic.appointments :=
  slot_taken nov6at10 "a1" ⟨"u2", "doc1", "20_11_2026", "09:00 AM"⟩ clinic drCruz
    ["09:00 AM"] ⟨by decide, by decide⟩ rfl rfl rfl (by decide)

/-- C4 (no side effects on rejection). When the response is one of the window rejections,
'Doctor Not Available' or 'Slot Not Available', the persisted state after the call, every
doctor's ledger and the appointment records, is the state before the call. -/
theorem rejection_no_side_effect (today : Int) (newId : String) (req : BookRequest) (db : Db)
    (h : (bookAppointment today newId req db).1.message =
          "Appointments must be booked at least 5 days in advance" ∨
        (bookAppointment today newId req db).1.message =
          "Appointments cannot be booked more than 1 month in advance" ∨
        (bookAppointment today newId req db).1.message = "Doctor Not Available" ∨
        (bookAppointment today newId req db).1.message = "Slot Not Available") :
    (bookAppointment today newId req db).1.success = false ∧
      (bookAppointment today newId req db).2 = db := by
  rcases book_cases today newId req db with
    ⟨_, h1⟩ | ⟨_, _, h1⟩ | ⟨_, h1⟩ | ⟨_, h1⟩ | ⟨_, h1⟩ | ⟨_, _, _, _, _, h1⟩
  · rw [h1]; exact ⟨rfl, rfl⟩
  · rw [h1]; exact ⟨rfl, rfl⟩
  · rw [h1]; exact ⟨rfl, rfl⟩
  · rw [h1]; exact ⟨rfl, rfl⟩
  · rw [h1]; exact ⟨rfl, rfl⟩
  · rw [h1] at h
    rcases h with h | h | h | h <;> exact absurd h (by decide)

/-- Witness of C4: an unavailable slot leaves the clinic as it was. -/
theorem rejection_no_side_effect_witness :
    (bookAppointment nov6at10 "a1" ⟨"u2", "doc1", "20_11_2026", "09:00 AM"⟩
        clinic).1.success = false ∧
      (bookAppointment nov6at10 "a1" ⟨"u2", "doc1", "20_11_2026", "09:00 AM"⟩ clinic).2 =
        clinic :=
  rejection_no_side_effect nov6at10 "a1" ⟨"u2", "doc1", "20_11_2026", "09:00 AM"⟩ clinic
    (Or.inr (Or.inr (Or.inr (by decide))))

/-- C5 (date-key validation), as the claim states it, fails: at 10:00 on 20 February 2026
the date-key `31_2_2026` names no calendar day, yet the request is booked, a record is
created and the label is stored under the key as written; the key is read as 3 March 2026.
A key with no number in it, `soon`, is booked as well. -/
theorem invalid_date_key_is_booked :
    appointmentDate "31_2_2026" = appointmentDate "3_3_2026" ∧
      (bookAppointment feb20at10 "a1" ⟨"u1", "doc1", "31_2_2026", "10:00 AM"⟩ clinic).1 =
        ⟨true, "Appointment Booked"⟩ ∧
      (bookAppointment feb20at10 "a1" ⟨"u1", "doc1", "31_2_2026", "10:00 AM"⟩
          clinic).2.appointments.map (fun a => (a._id, a.slotDate, a.slotTime)) =
        [("a1", "31_2_2026", "10:00 AM")] ∧
      ledgerEntry (bookAppointment feb20at10 "a1" ⟨"u1", "doc1", "31_2_2026", "10:00 AM"⟩
          clinic).2 "doc1" "31_2_2026" = some (some ["10:00 AM"]) ∧
      appointmentDate "soon" = none ∧
      (bookAppointment nov6at10 "a1" ⟨"u1", "doc1", "soon", "10:00 AM"⟩ clinic).1 =
        ⟨true, "Appointment Booked"⟩ := by
  decide

/-- C5 as amended. The handler does not validate the date-key. A key that gives an invalid
date (a component that is missing or not a number) passes both window comparisons, so the
request is booked as soon as the doctor is available and the slot is free; a day past
the end of the month runs over into the following days (`31_2_2026` is read as `3_3_2026`).
Whenever the request is rejected, the persisted state is the one before the call. -/
theorem date_key_not_validated (today : Int) (newId : String) (req : BookRequest) (db : Db) :
    (appointmentDate req.slotDate = none → inWindow today req.slotDate) ∧
      (appointmentDate req.slotDate = none → ∀ docData, db.doctors req.docId = some docData →
        docData.available = true → slotFree docData req.slotDate req.slotTime →
        (bookAppointment today newId req db).1 = ⟨true, "Appointment Booked"⟩) ∧
      (∀ y m d k, MakeDay y m (d + k) = (MakeDay y m d).map (fun n => n + k)) ∧
      appointmentDate "31_2_2026" = appointmentDate "3_3_2026" ∧
      ((bookAppointment today newId req db).1.success = false →
        (bookAppointment today newId req db).2 = db) := by
  have hwin : appointmentDate req.slotDate = none → inWindow today req.slotDate := by
    intro h
    constructor
    · rw [h]; rfl
    · rw [h]; unfold dateGt dateLt; split <;> simp_all
  refine ⟨hwin, ?_, ?_, by decide, book_failure_frame today newId req db⟩
  · intro h docData hd ha hf
    rw [book_ok today newId req db docData (hwin h) hd ha hf]
  · intro y m d k
    unfold MakeDay
    split
    · simp only [Option.map_some', Option.some.injEq]
      ring
    · rfl

/-- Witness of the amended C5: the key `soon` on the sample clinic. -/
theorem date_key_not_validated_witness :
    appointmentDate "soon" = none ∧ inWindow nov6at10 "soon" ∧
      (bookAppointment nov6at10 "a1" ⟨"u1", "doc1", "soon", "10:00 AM"⟩ clinic).1 =
        ⟨true, "Appointment Booked"⟩ ∧
      (bookAppointment nov6at10 "a1" ⟨"u2", "doc1", "20_11_2026", "09:00 AM"⟩ clinic).2 =
        clinic :=
  ⟨by decide,
    (date_key_not_validated nov6at10 "a1" ⟨"u1", "doc1", "soon", "10:00 AM"⟩ clinic).1
      (by decide),
    (date_key_not_validated nov6at10 "a1" ⟨"u1", "doc1", "soon", "10:00 AM"⟩ clinic).2.1
      (by decide) drCruz rfl rfl (fun labels h => by simp [drCruz] at h),
    (date_key_not_validated nov6at10 "a1" ⟨"u2", "doc1", "20_11_2026", "09:00 AM"⟩
      clinic).2.2.2.2 (by decide)⟩

/-- C6 (book postcondition). A request in the window, to an available doctor, for a slot
that is free, is answered 'Appointment Booked'. Afterwards the ledger entry of the date-key
is the previous labels followed by the time label (the one-element list if the key was
absent), every other date-key of the doctor and every other doctor are as before, and the
appointment records are the previous ones followed by one new record that carries the
request's user, doctor, date-key and time label, the doctor's fee as amount, and is neither
cancelled nor completed. -/
theorem book_postcondition (today : Int) (newId : String) (req : BookRequest) (db : Db)
    (docData : Doctor) (hw : inWindow today req.slotDate)
    (hd : db.doctors req.docId = some docData) (ha : docData.available = true)
    (hf : slotFree docData req.slotDate req.slotTime) :
    (bookAppointment today newId req db).1 = ⟨true, "Appointment Booked"⟩ ∧
      (∃ d, (bookAppointment today newId req db).2.doctors req.docId = some d ∧
        d.slots_booked req.slotDate =
          some ((docData.slots_booked req.slotDate).getD [] ++ [req.slotTime]) ∧
        (docData.slots_booked req.slotDate = none →
          d.slots_booked req.slotDate = some [req.slotTime]) ∧
        (∀ k, k ≠ req.slotDate → d.slots_booked k = docData.slots_booked k) ∧
        d.available = docData.available ∧ d.fees = docData.fees) ∧
      (∀ id, id ≠ req.docId →
        (bookAppointment today newId req db).2.doctors id = db.doctors id) ∧
      (∃ a, (bookAppointment today newId req db).2.appointments = db.appointments ++ [a] ∧
        a._id = newId ∧ a.userId = req.userId ∧ a.docId = req.docId ∧
        a.slotDate = req.slotDate ∧ a.slotTime = req.slotTime ∧ a.amount = docData.fees ∧
        a.cancelled = false ∧ a.isCompleted = false) := by
  rw [book_ok today newId req db docData hw hd ha hf]
  refine ⟨rfl, ⟨{ docData with
      slots_booked := docData.slots_booked.set req.slotDate
        ((docData.slots_booked req.slotDate).getD [] ++ [req.slotTime]) },
    by simp [updateSlots, hd], ?_, ?_, ?_, rfl, rfl⟩, ?_, ⟨_, rfl, ?_⟩⟩
  · simp [Ledger.set]
  · intro hnone
    simp [Ledger.set, hnone]
  · intro k hk
    simp [Ledger.set, hk]
  · intro id hid
    simp [updateSlots, hid]
  · simp [appointmentModel]

/-- Witness of C6: patient `u1` books 12 November 2026, 10:00 AM, on the sample clinic. -/
theorem book_postcondition_witness :
    (bookAppointment nov6at10 "a1" ⟨"u1", "doc1", "12_11_2026", "10:00 AM"⟩ clinic).1 =
      ⟨true, "Appointment Booked"⟩ :=
  (book_postcondition nov6at10 "a1" ⟨"u1", "doc1", "12_11_2026", "10:00 AM"⟩ clinic drCruz
    (by decide) rfl rfl (fun labels h => by simp [drCruz] at h)).1

/-- C7 (round trip). After a successful booking, stored under a fresh `_id`, the cancel of
that appointment by the patient who booked it succeeds, and afterwards the doctor's ledger
entry of the date-key is the list of labels it held before the booking (none of them the
time label, the empty list if the key was absent) and every other date-key is as before
the booking. -/
theorem book_cancel_round_trip (today : Int) (newId : String) (req : BookRequest) (db : Db)
    (reason : Option String) (hfresh : findAppointment newId db.appointments = none)
    (hbook : (bookAppointment today newId req db).1.success = true) :
    ∃ d0 d2, db.doctors req.docId = some d0 ∧
      (cancelAppointment ⟨req.userId, newId, reason⟩
        (bookAppointment today newId req db).2).1 = ⟨true, "Appointment Cancelled"⟩ ∧
      (cancelAppointment ⟨req.userId, newId, reason⟩
        (bookAppointment today newId req db).2).2.doctors req.docId = some d2 ∧
      d2.slots_booked req.slotDate = some ((d0.slots_booked req.slotDate).getD []) ∧
      req.slotTime ∉ (d0.slots_booked req.slotDate).getD [] ∧
      ∀ k, k ≠ req.slotDate → d2.slots_booked k = d0.slots_booked k := by
  rcases book_cases today newId req db with
    ⟨_, h1⟩ | ⟨_, _, h1⟩ | ⟨_, h1⟩ | ⟨_, h1⟩ | ⟨_, h1⟩ | ⟨docData, hw, hd, ha, hf, _⟩
  · rw [h1] at hbook; simp at hbook
  · rw [h1] at hbook; simp at hbook
  · rw [h1] at hbook; simp at hbook
  · rw [h1] at hbook; simp at hbook
  · rw [h1] at hbook; simp at hbook
  · have hnot : req.slotTime ∉ (docData.slots_booked req.slotDate).getD [] := by
      cases hl : docData.slots_booked req.slotDate with
      | none => simp
      | some labels => simpa using hf labels hl
    rw [book_ok today newId req db docData hw hd ha hf]
    rw [cancel_ok ⟨req.userId, newId, reason⟩ _
      (appointmentModel newId req.userId req.docId (db.users req.userId)
        ⟨docData.email, docData.available, docData.fees⟩ docData.fees
        req.slotTime req.slotDate today)
      { docData with
        slots_booked := docData.slots_booked.set req.slotDate
          ((docData.slots_booked req.slotDate).getD [] ++ [req.slotTime]) }
      ((docData.slots_booked req.slotDate).getD [] ++ [req.slotTime])
      (findAppointment_append_fresh newId _ _ hfresh rfl) rfl
      (by simp [updateSlots, appointmentModel, hd]) (by simp [Ledger.set, appointmentModel])]
    refine ⟨docData,
      { docData with
        slots_booked := (docData.slots_booked.set req.slotDate
          ((docData.slots_booked req.slotDate).getD [] ++ [req.slotTime])).set req.slotDate
            (List.filter (fun e => decide (e ≠ req.slotTime))
              ((docData.slots_booked req.slotDate).getD [] ++ [req.slotTime])) },
      hd, rfl, by simp [updateSlots, appointmentModel, hd], ?_, hnot, ?_⟩
    · have hfilter : List.filter (fun e => decide (e ≠ req.slotTime))
          ((docData.slots_booked req.slotDate).getD []) =
          (docData.slots_booked req.slotDate).getD [] := by
        rw [List.filter_eq_self]
        intro e he
        have : e ≠ req.slotTime := fun h => hnot (h ▸ he)
        simpa using this
      simp only [Ledger.set, if_true, List.filter_append, hfilter]
      simp
    · intro k hk
      simp [Ledger.set, hk]

/-- Witness of C7: `u1` books 12 November 2026, 10:00 AM, on the sample clinic, then cancels. -/
theorem book_cancel_round_trip_witness :
    ∃ d0 d2, clinic.doctors "doc1" = some d0 ∧
      (cancelAppointment ⟨"u1", "a1", none⟩ clinicBooked).1 = ⟨true, "Appointment Cancelled"⟩ ∧
      (cancelAppointment ⟨"u1", "a1", none⟩ clinicBooked).2.doctors "doc1" = some d2 ∧
      d2.slots_booked "12_11_2026" = some ((d0.slots_booked "12_11_2026").getD []) ∧
      "10:00 AM" ∉ (d0.slots_booked "12_11_2026").getD [] ∧
      ∀ k, k ≠ "12_11_2026" → d2.slots_booked k = d0.slots_booked k :=
  book_cancel_round_trip nov6at10 "a1" ⟨"u1", "doc1", "12_11_2026", "10:00 AM"⟩ clinic none
    rfl (by decide)

/-- C8 (cancel idempotence), as the claim states it, fails. Appointment `a1` was cancelled by
the admin and its slot was booked again by patient `u2`. A further cancel of `a1` by its
owner is answered with success, yet it rewrites the actor from `admin` to `user` and the
reason, and it empties the ledger entry that now holds the label of `u2`. -/
theorem second_cancel_is_not_a_noop :
    (findAppointment "a1" clinicRebooked.appointments).map cancelFields =
        some (true, some "admin", some "Cancelled by admin") ∧
      ledgerEntry clinicRebooked "doc1" "12_11_2026" = some (some ["10:00 AM"]) ∧
      (cancelAppointment ⟨"u1", "a1", none⟩ clinicRebooked).1 =
        ⟨true, "Appointment Cancelled"⟩ ∧
      (findAppointment "a1"
          (cancelAppointment ⟨"u1", "a1", none⟩ clinicRebooked).2.appointments).map
          cancelFields = some (true, some "user", some "Cancelled by patient") ∧
      ledgerEntry (cancelAppointment ⟨"u1", "a1", none⟩ clinicRebooked).2 "doc1" "12_11_2026" =
        some (some []) := by
  decide

/-- C8 as amended. A further cancel of an appointment that is already cancelled reports no
error and leaves it cancelled, but it is not a no-op: the actor and the reason are written
again, with the values of the latest cancel. In the ledgers every label other than the
appointment's own time label, and every other date-key, is as before. This holds for the
admin cancel, and for the owner's cancel when the doctor and the ledger entry of the
date-key still exist. -/
theorem cancel_of_cancelled (db : Db) (id : String) (a : Appointment)
    (hfind : findAppointment id db.appointments = some a) (hc : a.cancelled = true) :
    (∀ reason d labels, db.doctors a.docId = some d → d.slots_booked a.slotDate = some labels →
        (cancelAppointment ⟨a.userId, id, reason⟩ db).1 = ⟨true, "Appointment Cancelled"⟩ ∧
        findAppointment id (cancelAppointment ⟨a.userId, id, reason⟩ db).2.appointments =
          some { a with
            cancellationReason := some (reasonOr reason "Cancelled by patient")
            cancelledBy := some "user" } ∧
        ledgersAgreeExcept db (cancelAppointment ⟨a.userId, id, reason⟩ db).2
          a.docId a.slotDate a.slotTime) ∧
      (∀ reason,
        (appointmentCancel id reason db).1 = ⟨true, "Appointment Cancelled Successfully"⟩ ∧
        findAppointment id (appointmentCancel id reason db).2.appointments =
          some { a with
            cancellationReason := some (reasonOr reason "Cancelled by admin")
            cancelledBy := some "admin" } ∧
        ledgersAgreeExcept db (appointmentCancel id reason db).2
          a.docId a.slotDate a.slotTime) := by
  constructor
  · intro reason d labels hd hl
    rw [cancel_ok ⟨a.userId, id, reason⟩ db a d labels hfind rfl hd hl]
    refine ⟨rfl, ?_, ledgersAgreeExcept_release db _ a.docId a.slotDate a.slotTime d labels
      hd hl rfl⟩
    simp only []
    rw [findAppointment_update id _ (by intro _; rfl), hfind]
    simp [← hc]
  · intro reason
    have hupd : findAppointment id (updateAppointment id
        (fun x => { x with
          cancelled := true
          cancellationReason := some (reasonOr reason "Cancelled by admin")
          cancelledBy := some "admin" }) db.appointments) =
        some { a with
          cancellationReason := some (reasonOr reason "Cancelled by admin")
          cancelledBy := some "admin" } := by
      rw [findAppointment_update id _ (by intro _; rfl), hfind]
      simp [← hc]
    cases hd : db.doctors a.docId with
    | none =>
      rw [admin_cancel_no_entry id reason db a hfind (Or.inl hd)]
      exact ⟨rfl, hupd, ledgersAgreeExcept_same db _ _ _ _ rfl⟩
    | some d =>
      cases hl : d.slots_booked a.slotDate with
      | none =>
        rw [admin_cancel_no_entry id reason db a hfind (Or.inr ⟨d, hd, hl⟩)]
        exact ⟨rfl, hupd, ledgersAgreeExcept_same db _ _ _ _ rfl⟩
      | some labels =>
        rw [admin_cancel_entry id reason db a d labels hfind hd hl]
        exact ⟨rfl, hupd, ledgersAgreeExcept_release db _ a.docId a.slotDate a.slotTime d
          labels hd hl rfl⟩

/-- Witness of the amended C8: the admin cancels `a1` a second time on the sample clinic. -/
theorem cancel_of_cancelled_witness :
    (appointmentCancel "a1" (some "again") clinicRebooked).1 =
      ⟨true, "Appointment Cancelled Successfully"⟩ :=
  ((cancel_of_cancelled clinicRebooked "a1"
    { _id := "a1", userId := "u1", docId := "doc1", slotDate := "12_11_2026",
      slotTime := "10:00 AM", userData := some ⟨"ana@mail.example", "approved"⟩,
      docData := ⟨"cruz@clinic.example", true, 500⟩, amount := 500, date := nov6at10,
      cancelled := true, payment := false, isCompleted := false, isRead := false,
      cancellationReason := some "Cancelled by admin", cancelledBy := some "admin" }
    (by decide) rfl).2 (some "again")).1

/-- C9 (ownership check). A cancel request whose caller is not the patient of the
appointment is answered 'Unauthorized action', and the persisted state, the appointment
record and the doctor's ledger included, is the one before the call. -/
theorem cancel_requires_owner (req : CancelRequest) (db : Db) (a : Appointment)
    (hfind : findAppointment req.appointmentId db.appointments = some a)
    (hu : a.userId ≠ req.userId) :
    cancelAppointment req db = (⟨false, "Unauthorized action"⟩, db) :=
  cancel_unauthorized req db a hfind hu

/-- Witness of C9: patient `u2` tries to cancel the appointment of `u1`. -/
theorem cancel_requires_owner_witness :
    cancelAppointment ⟨"u2", "a1", none⟩ clinicBooked =
      (⟨false, "Unauthorized action"⟩, clinicBooked) :=
  cancel_requires_owner ⟨"u2", "a1", none⟩ clinicBooked
    { _id := "a1", userId := "u1", docId := "doc1", slotDate := "12_11_2026",
      slotTime := "10:00 AM", userData := some ⟨"ana@mail.example", "approved"⟩,
      docData := ⟨"cruz@clinic.example", true, 500⟩, amount := 500, date := nov6at10,
      cancelled := false, payment := false, isCompleted := false, isRead := false,
      cancellationReason := none, cancelledBy := none }
    (by decide) (by decide)

/-- C10 (cancel records its actor), as the claim states it, fails: after a successful
cancel by the patient the record is cancelled and its actor is `user`, not `patient`. -/
theorem patient_cancel_actor_is_user :
    (cancelAppointment ⟨"u1", "a1", none⟩ clinicBooked).1 = ⟨true, "Appointment Cancelled"⟩ ∧
      (findAppointment "a1"
          (cancelAppointment ⟨"u1", "a1", none⟩ clinicBooked).2.appointments).map
          cancelFields = some (true, some "user", some "Cancelled by patient") ∧
      (findAppointment "a1"
          (cancelAppointment ⟨"u1", "a1", none⟩ clinicBooked).2.appointments).map
          (fun a => a.cancelledBy) ≠ some (some "patient") := by
  decide

/-- C10 as amended. After a successful cancel by the patient the appointment is cancelled,
its actor being `user`, and after a successful cancel by the admin it is cancelled, its
actor being `admin`; a cancel writes no other actor. -/
theorem cancel_records_actor (db : Db) :
    (∀ req, (cancelAppointment req db).1.success = true →
        ∃ a, findAppointment req.appointmentId (cancelAppointment req db).2.appointments =
            some a ∧ a.cancelled = true ∧ a.cancelledBy = some "user") ∧
      (∀ id reason, (appointmentCancel id reason db).1.success = true →
        ∃ a, findAppointment id (appointmentCancel id reason db).2.appointments = some a ∧
          a.cancelled = true ∧ a.cancelledBy = some "admin") := by
  constructor
  · intro req h
    obtain ⟨a, d, labels, hfind, hu, hd, hl⟩ := cancel_success_inv req db h
    rw [cancel_ok req db a d labels hfind hu hd hl]
    simp only []
    rw [findAppointment_update req.appointmentId _ (by intro _; rfl), hfind]
    exact ⟨_, rfl, rfl, rfl⟩
  · intro id reason h
    obtain ⟨a, hfind⟩ := admin_cancel_success_inv id reason db h
    have hupd : findAppointment id (updateAppointment id
        (fun x => { x with
          cancelled := true
          cancellationReason := some (reasonOr reason "Cancelled by admin")
          cancelledBy := some "admin" }) db.appointments) =
        some { a with
          cancelled := true
          cancellationReason := some (reasonOr reason "Cancelled by admin")
          cancelledBy := some "admin" } := by
      rw [findAppointment_update id _ (by intro _; rfl), hfind]
      rfl
    cases hd : db.doctors a.docId with
    | none =>
      rw [admin_cancel_no_entry id reason db a hfind (Or.inl hd)]
      exact ⟨_, hupd, rfl, rfl⟩
    | some d =>
      cases hl : d.slots_booked a.slotDate with
      | none =>
        rw [admin_cancel_no_entry id reason db a hfind (Or.inr ⟨d, hd, hl⟩)]
        exact ⟨_, hupd, rfl, rfl⟩
      | some labels =>
        rw [admin_cancel_entry id reason db a d labels hfind hd hl]
        exact ⟨_, hupd, rfl, rfl⟩

/-- Witness of the amended C10: the patient's and the admin's cancel of `a1`. -/
theorem cancel_records_actor_witness :
    (∃ a, findAppointment "a1"
          (cancelAppointment ⟨"u1", "a1", none⟩ clinicBooked).2.appointments = some a ∧
        a.cancelled = true ∧ a.cancelledBy = some "user") ∧
      (∃ a, findAppointment "a1" (appointmentCancel "a1" none clinicBooked).2.appointments =
          some a ∧ a.cancelled = true ∧ a.cancelledBy = some "admin") :=
  ⟨(cancel_records_actor clinicBooked).1 ⟨"u1", "a1", none⟩ (by decide),
    (cancel_records_actor clinicBooked).2 "a1" none (by decide)⟩

/-! ## The expiry sweep as a map over the store -/

/-- One turn of the loop of the sweep: a past appointment is flagged and its slot
released, any other one is skipped. -/
theorem expireAppointment_eq (today : Option Int) (a : Appointment) (st : Nat × Db) :
    expireAppointment today a st =
      if isPast today a then
        (st.1 + 1,
          { st.2 with
            appointments := updateAppointment a._id (fun x => { x with cancelled := true })
              st.2.appointments
            doctors := releaseSlot st.2.doctors a.docId a.slotDate a.slotTime })
      else st := by
  unfold expireAppointment releaseSlot
  by_cases hp : isPast today a = true
  · simp only [hp, if_true]
    cases hd : st.2.doctors a.docId with
    | none => rfl
    | some d =>
      cases hl : d.slots_booked a.slotDate with
      | none => simp [hl]
      | some labels => simp [hl]
  · simp [hp]

/-- The sweep over a query result `l`: the counter goes up by the number of past
appointments, and each of these is flagged and released, in order. -/
theorem sweep_fold (today : Option Int) (l : List Appointment) (n : Nat) (db : Db) :
    l.foldl (fun st a => expireAppointment today a st) (n, db) =
      (n + (l.filter (isPast today)).length,
        { db with
          appointments := (l.filter (isPast today)).foldl
            (fun apps a => updateAppointment a._id (fun x => { x with cancelled := true }) apps)
            db.appointments
          doctors := (l.filter (isPast today)).foldl
            (fun ds a => releaseSlot ds a.docId a.slotDate a.slotTime) db.doctors }) := by
  induction l generalizing n db with
  | nil => rfl
  | cons a rest ih =>
    rw [List.foldl_cons, expireAppointment_eq]
    by_cases hp : isPast today a = true
    · simp only [hp, if_true, List.filter_cons_of_pos, List.foldl_cons, List.length_cons]
      rw [ih]
      simp only [Prod.mk.injEq, and_true]
      omega
    · simp only [hp, if_false, Bool.false_eq_true]
      rw [ih]
      simp [hp]

/-- With distinct ids, an update by id rewrites the documents with that id, in place. -/
theorem updateAppointment_eq_map (id : String) (f : Appointment → Appointment)
    (l : List Appointment) (hl : (l.map (fun a => a._id)).Nodup) :
    updateAppointment id f l = l.map (fun a => if a._id = id then f a else a) := by
  induction l with
  | nil => rfl
  | cons a rest ih =>
    simp only [List.map_cons, List.nodup_cons, List.mem_map, not_exists, not_and] at hl
    by_cases h : a._id = id
    · have hrest : rest.map (fun a => if a._id = id then f a else a) = rest := by
        conv_rhs => rw [← List.map_id rest]
        apply List.map_congr_left
        intro b hb
        have : b._id ≠ id := fun e => hl.1 b hb (by rw [e, h])
        simp [this]
      simp [updateAppointment, h, hrest]
    · simp [updateAppointment, h, ih hl.2]

/-- With distinct ids, a run of updates by id rewrites exactly the documents whose id is
among those updated, once each when the rewrite is idempotent. -/
theorem updateAppointment_fold (f : Appointment → Appointment)
    (hid : ∀ a, (f a)._id = a._id) (hff : ∀ a, f (f a) = f a) (p : List Appointment) :
    ∀ l : List Appointment, (l.map (fun a => a._id)).Nodup →
      p.foldl (fun apps a => updateAppointment a._id f apps) l =
        l.map (fun a => if a._id ∈ p.map (fun b => b._id) then f a else a) := by
  induction p with
  | nil => intro l _; simp
  | cons b rest ih =>
    intro l hl
    rw [List.foldl_cons, updateAppointment_eq_map b._id f l hl]
    have hl1 : ((l.map (fun a => if a._id = b._id then f a else a)).map
        (fun a => a._id)).Nodup := by
      have : (l.map (fun a => if a._id = b._id then f a else a)).map (fun a => a._id) =
          l.map (fun a => a._id) := by
        rw [List.map_map]
        apply List.map_congr_left
        intro a _
        by_cases h : a._id = b._id <;> simp [h, hid]
      rw [this]; exact hl
    rw [ih _ hl1, List.map_map]
    apply List.map_congr_left
    intro a _
    by_cases h : a._id = b._id
    · by_cases h2 : a._id ∈ rest.map (fun b => b._id)
      · simp [h, hid, hff, h2]
      · have h3 : b._id ∉ rest.map (fun b => b._id) := by rw [← h]; exact h2
        simp only [List.mem_map] at h3
        simp [h, hid, h3]
    · simp [h]

/-- The appointments the loop of the sweep acts on are those that `expires` describes. -/
theorem sweep_selected (now : Int) (l : List Appointment) :
    (l.filter (fun a => decide (a.cancelled = false ∧ a.isCompleted = false))).filter
        (isPast (setHoursZero (some now))) =
      l.filter (fun a => decide (expires now a)) := by
  rw [List.filter_filter]
  apply List.filter_congr
  intro a _
  simp only [expires, isOpen, Bool.decide_and, Bool.decide_eq_true]
  exact Bool.and_comm _ _

/-- The sweep, whole: counter, appointments, ledgers. -/
theorem sweep_eq (now : Int) (db : Db) :
    cancelPastAppointments now db =
      ((db.appointments.filter (fun a => decide (expires now a))).length,
        { db with
          appointments := (db.appointments.filter (fun a => decide (expires now a))).foldl
            (fun apps a => updateAppointment a._id (fun x => { x with cancelled := true }) apps)
            db.appointments
          doctors := (db.appointments.filter (fun a => decide (expires now a))).foldl
            (fun ds a => releaseSlot ds a.docId a.slotDate a.slotTime) db.doctors }) := by
  unfold cancelPastAppointments
  simp only []
  rw [sweep_fold, sweep_selected, Nat.zero_add]

/-- With distinct ids the sweep flags exactly the appointments that expire and leaves
every other document as it was. -/
theorem sweep_appointments (now : Int) (db : Db) (hu : uniqueIds db) :
    (cancelPastAppointments now db).2.appointments =
      db.appointments.map (fun a => if expires now a then { a with cancelled := true } else a) := by
  rw [sweep_eq]
  simp only []
  rw [updateAppointment_fold _ (by intro _; rfl) (by intro _; rfl) _ _ hu]
  apply List.map_congr_left
  intro a ha
  by_cases he : expires now a
  · have : a._id ∈ (db.appointments.filter (fun a => decide (expires now a))).map
        (fun b => b._id) :=
      List.mem_map.2 ⟨a, List.mem_filter.2 ⟨ha, by simpa using he⟩, rfl⟩
    simp only [this, he, if_true]
  · have : a._id ∉ (db.appointments.filter (fun a => decide (expires now a))).map
        (fun b => b._id) := by
      intro hmem
      obtain ⟨b, hb, hbid⟩ := List.mem_map.1 hmem
      have hb' := List.mem_filter.1 hb
      have hab : b = a := List.inj_on_of_nodup_map hu hb'.1 ha hbid
      rw [hab] at hb'
      exact he (by simpa using hb'.2)
    simp only [this, he, if_false]

/-! ## Ledger effect of a release -/

theorem releaseSlot_no_doctor (ds : String → Option Doctor) (docId slotDate slotTime : String)
    (hd : ds docId = none) : releaseSlot ds docId slotDate slotTime = ds := by
  simp [releaseSlot, hd]

theorem releaseSlot_no_entry (ds : String → Option Doctor) (docId slotDate slotTime : String)
    (d : Doctor) (hd : ds docId = some d) (hl : d.slots_booked slotDate = none) :
    releaseSlot ds docId slotDate slotTime = ds := by
  simp [releaseSlot, hd, hl]

theorem releaseSlot_entry_found (ds : String → Option Doctor)
    (docId slotDate slotTime : String) (d : Doctor) (labels : List String)
    (hd : ds docId = some d) (hl : d.slots_booked slotDate = some labels) :
    releaseSlot ds docId slotDate slotTime =
      updateSlots ds docId
        (d.slots_booked.set slotDate (labels.filter (fun time => time ≠ slotTime))) := by
  simp [releaseSlot, hd, hl]

/-- The entries after one release: the entry of the doctor and date-key, if any, loses
the label, and every other entry, present or not, is as before. -/
theorem releaseSlot_entry (ds : String → Option Doctor) (docId slotDate slotTime id k : String) :
    ((releaseSlot ds docId slotDate slotTime) id).map (fun d => d.slots_booked k) =
      if id = docId ∧ k = slotDate then
        ((ds id).map (fun d => d.slots_booked k)).map
          (Option.map (List.filter (fun e => e ≠ slotTime)))
      else (ds id).map (fun d => d.slots_booked k) := by
  cases hd : ds docId with
  | none =>
    rw [releaseSlot_no_doctor ds docId slotDate slotTime hd]
    by_cases h : id = docId ∧ k = slotDate
    · simp [h, hd]
    · simp [h]
  | some d =>
    cases hl : d.slots_booked slotDate with
    | none =>
      rw [releaseSlot_no_entry ds docId slotDate slotTime d hd hl]
      by_cases h : id = docId ∧ k = slotDate
      · simp [h, hd, hl]
      · simp [h]
    | some labels =>
      rw [releaseSlot_entry_found ds docId slotDate slotTime d labels hd hl]
      by_cases h1 : id = docId
      · by_cases h2 : k = slotDate
        · simp [h1, h2, hd, hl, updateSlots, Ledger.set]
        · simp [h1, h2, hd, updateSlots, Ledger.set]
      · simp [h1, updateSlots]

/-- A release keeps the doctors that exist. -/
theorem releaseSlot_isSome (ds : String → Option Doctor) (docId slotDate slotTime id : String) :
    ((releaseSlot ds docId slotDate slotTime) id).isSome = (ds id).isSome := by
  cases hd : ds docId with
  | none => rw [releaseSlot_no_doctor ds docId slotDate slotTime hd]
  | some d =>
    cases hl : d.slots_booked slotDate with
    | none => rw [releaseSlot_no_entry ds docId slotDate slotTime d hd hl]
    | some labels =>
      rw [releaseSlot_entry_found ds docId slotDate slotTime d labels hd hl]
      by_cases h1 : id = docId
      · simp [h1, hd, updateSlots]
      · simp [h1, updateSlots]

/-- The entries after a run of releases: each entry keeps, in order, the labels that are
the slot of none of the released appointments. -/
theorem releaseSlot_fold_entry (l : List Appointment) (id k : String) :
    ∀ ds : String → Option Doctor,
      ((l.foldl (fun ds a => releaseSlot ds a.docId a.slotDate a.slotTime) ds) id).map
          (fun d => d.slots_booked k) =
        ((ds id).map (fun d => d.slots_booked k)).map
          (Option.map (List.filter (survives l id k))) := by
  induction l with
  | nil =>
    intro ds
    simp only [List.foldl_nil]
    generalize (ds id).map (fun d => d.slots_booked k) = o
    rcases o with _ | _ | labels
    · rfl
    · rfl
    · simp only [Option.map_some', Option.some.injEq]
      exact (List.filter_eq_self.2 (by intro e _; rfl)).symm
  | cons a rest ih =>
    intro ds
    rw [List.foldl_cons, ih, releaseSlot_entry]
    generalize (ds id).map (fun d => d.slots_booked k) = o
    by_cases hm : id = a.docId ∧ k = a.slotDate
    · rw [if_pos hm]
      rcases o with _ | _ | labels
      · rfl
      · rfl
      · simp only [Option.map_some', List.filter_filter, Option.some.injEq]
        apply List.filter_congr
        intro e _
        simp [survives, hm.1, hm.2, Bool.and_comm]
    · rw [if_neg hm]
      rcases o with _ | _ | labels
      · rfl
      · rfl
      · simp only [Option.map_some', Option.some.injEq]
        apply List.filter_congr
        intro e _
        have : (decide (a.docId = id) && decide (a.slotDate = k)) = false := by
          by_cases h1 : a.docId = id
          · by_cases h3 : a.slotDate = k
            · exact absurd ⟨h1.symm, h3.symm⟩ hm
            · simp [h3]
          · simp [h1]
        simp only [survives, List.all_cons, this, Bool.false_and, Bool.not_false,
          Bool.true_and]

/-! ## Lemmas for the claims on release and expiry -/

/-- The ledger entries of a state whose doctors are those of `db` after one release. -/
theorem ledgerEntry_release (db db2 : Db) (docId slotDate slotTime : String)
    (h : db2.doctors = releaseSlot db.doctors docId slotDate slotTime) (id k : String) :
    ledgerEntry db2 id k =
      if id = docId ∧ k = slotDate then
        (ledgerEntry db id k).map (Option.map (List.filter (fun e => e ≠ slotTime)))
      else ledgerEntry db id k := by
  unfold ledgerEntry
  rw [h, releaseSlot_entry]

/-- What a release leaves in the ledgers when the entry of the date-key exists: that entry
without the label, order kept, and every other entry as before. -/
theorem release_frame (db db2 : Db) (docId slotDate slotTime : String) (d : Doctor)
    (labels : List String) (hd : db.doctors docId = some d)
    (hl : d.slots_booked slotDate = some labels)
    (h : db2.doctors = releaseSlot db.doctors docId slotDate slotTime) :
    ledgerEntry db2 docId slotDate = some (some (labels.filter (fun e => e ≠ slotTime))) ∧
      ∀ id k, ¬(id = docId ∧ k = slotDate) → ledgerEntry db2 id k = ledgerEntry db id k := by
  constructor
  · rw [ledgerEntry_release db db2 docId slotDate slotTime h]
    simp [ledgerEntry, hd, hl]
  · intro id k hne
    rw [ledgerEntry_release db db2 docId slotDate slotTime h, if_neg hne]

/-- A date built from a date-key lies in the range of time values. -/
theorem appointmentDate_range (slotDate : String) (t : Int)
    (h : appointmentDate slotDate = some t) :
    -8640000000000000 ≤ t ∧ t ≤ 8640000000000000 := by
  unfold appointmentDate newDate at h
  simp only [] at h
  split at h
  · split at h
    · unfold TimeClip at h
      split at h
      · simp only [Option.some.injEq] at h
        subst h
        assumption
      · exact absurd h (by simp)
    · exact absurd h (by simp)
  · exact absurd h (by simp)

theorem setHoursZero_some (t : Int) : setHoursZero (some t) = TimeClip (Day t * msPerDay) :=
  rfl

/-- The test of the sweep compares calendar days: an appointment is past exactly when its
date-key is a valid date on a day before the day of the clock. -/
theorem isPast_eq_datedBefore (now : Int) (h0 : -8640000000000000 ≤ now)
    (h1 : now ≤ 8640000000000000) (a : Appointment) :
    isPast (setHoursZero (some now)) a = datedBefore now a := by
  unfold isPast datedBefore
  cases ht : appointmentDate a.slotDate with
  | none => rfl
  | some t =>
    have hmid := appointmentDate_midnight a.slotDate t ht
    have hr := appointmentDate_range a.slotDate t ht
    have e1 : setHoursZero (some t) = some t := by
      rw [setHoursZero_some, ← hmid]
      unfold TimeClip
      rw [if_pos hr]
    have e2 : setHoursZero (some now) = some (Day now * msPerDay) := by
      rw [setHoursZero_some]
      unfold TimeClip
      rw [if_pos (by unfold Day msPerDay; omega)]
    rw [e1, e2]
    unfold dateLt
    simp only []
    have : (t < Day now * msPerDay) ↔ (Day t < Day now) := by
      unfold Day msPerDay at *
      omega
    simp only [this]

/-- The midnight of the clock depends on the calendar day of the clock only. -/
theorem expires_congr (now1 now2 : Int) (h : Day now2 = Day now1) (a : Appointment) :
    expires now2 a ↔ expires now1 a := by
  unfold expires
  rw [setHoursZero_some, setHoursZero_some, h]

theorem findAppointment_map_unique (g : Appointment → Appointment)
    (hg : ∀ x, (g x)._id = x._id) (l : List Appointment)
    (hl : (l.map (fun a => a._id)).Nodup) (a : Appointment) (ha : a ∈ l) :
    findAppointment a._id (l.map g) = some (g a) := by
  induction l with
  | nil => exact absurd ha (by simp)
  | cons b rest ih =>
    simp only [List.map_cons, List.nodup_cons, List.mem_map, not_exists, not_and] at hl
    rcases List.mem_cons.1 ha with h | h
    · subst h
      simp [findAppointment, hg]
    · have hne : b._id ≠ a._id := fun e => hl.1 a h e.symm
      simp [findAppointment, hg, hne, ih hl.2 h]

/-- The ledgers after the sweep: each entry keeps, in order, the labels that are the slot
of none of the appointments that expired. -/
theorem sweep_ledger (now : Int) (db : Db) (id k : String) :
    ledgerEntry (cancelPastAppointments now db).2 id k =
      (ledgerEntry db id k).map (Option.map (List.filter
        (survives (db.appointments.filter (fun a => decide (expires now a))) id k))) := by
  rw [sweep_eq]
  unfold ledgerEntry
  simp only []
  rw [releaseSlot_fold_entry]

/-! ## Claims on release and expiry -/

/-- C11 (release removes only the cancelled label). For an appointment whose doctor has an
entry `labels` under its date-key, each cancel path (the owner's `cancelAppointment`, the
admin's `appointmentCancel`, one turn of the loop of `cancelPastAppointments` on a past
appointment, and the whole sweep when this is the only appointment that expires) leaves
under that date-key the previous labels other than the time label, in their previous
order, and leaves every other entry of every ledger as it was. -/
theorem release_removes_only_label (db : Db) (a : Appointment) (d : Doctor)
    (labels : List String) (hd : db.doctors a.docId = some d)
    (hl : d.slots_booked a.slotDate = some labels) :
    (∀ req : CancelRequest, findAppointment req.appointmentId db.appointments = some a →
        a.userId = req.userId →
        ledgerEntry (cancelAppointment req db).2 a.docId a.slotDate =
            some (some (labels.filter (fun e => e ≠ a.slotTime))) ∧
          ∀ id k, ¬(id = a.docId ∧ k = a.slotDate) →
            ledgerEntry (cancelAppointment req db).2 id k = ledgerEntry db id k) ∧
      (∀ appointmentId reason, findAppointment appointmentId db.appointments = some a →
        ledgerEntry (appointmentCancel appointmentId reason db).2 a.docId a.slotDate =
            some (some (labels.filter (fun e => e ≠ a.slotTime))) ∧
          ∀ id k, ¬(id = a.docId ∧ k = a.slotDate) →
            ledgerEntry (appointmentCancel appointmentId reason db).2 id k =
              ledgerEntry db id k) ∧
      (∀ today n, isPast today a = true →
        ledgerEntry (expireAppointment today a (n, db)).2 a.docId a.slotDate =
            some (some (labels.filter (fun e => e ≠ a.slotTime))) ∧
          ∀ id k, ¬(id = a.docId ∧ k = a.slotDate) →
            ledgerEntry (expireAppointment today a (n, db)).2 id k = ledgerEntry db id k) ∧
      (∀ now, db.appointments.filter (fun x => decide (expires now x)) = [a] →
        ledgerEntry (cancelPastAppointments now db).2 a.docId a.slotDate =
            some (some (labels.filter (fun e => e ≠ a.slotTime))) ∧
          ∀ id k, ¬(id = a.docId ∧ k = a.slotDate) →
            ledgerEntry (cancelPastAppointments now db).2 id k = ledgerEntry db id k) := by
  have hrel := (releaseSlot_entry_found db.doctors a.docId a.slotDate a.slotTime d labels
    hd hl).symm
  refine ⟨?_, ?_, ?_, ?_⟩
  · intro req hfind hu
    rw [cancel_ok req db a d labels hfind hu hd hl]
    exact release_frame db _ a.docId a.slotDate a.slotTime d labels hd hl hrel
  · intro appointmentId reason hfind
    rw [admin_cancel_entry appointmentId reason db a d labels hfind hd hl]
    exact release_frame db _ a.docId a.slotDate a.slotTime d labels hd hl hrel
  · intro today n hp
    rw [expireAppointment_eq, if_pos hp]
    exact release_frame db _ a.docId a.slotDate a.slotTime d labels hd hl rfl
  · intro now hsel
    rw [sweep_eq, hsel]
    exact release_frame db _ a.docId a.slotDate a.slotTime d labels hd hl rfl

/-- Witness of C11: the admin cancels `a2`, the only label of 12 November 2026. -/
theorem release_removes_only_label_witness :
    ledgerEntry (appointmentCancel "a2" none clinicRebooked).2 "doc1" "12_11_2026" =
        some (some (["10:00 AM"].filter (fun e => e ≠ "10:00 AM"))) ∧
      ∀ id k, ¬(id = "doc1" ∧ k = "12_11_2026") →
        ledgerEntry (appointmentCancel "a2" none clinicRebooked).2 id k =
          ledgerEntry clinicRebooked id k :=
  (release_removes_only_label clinicRebooked
    { _id := "a2", userId := "u2", docId := "doc1", slotDate := "12_11_2026",
      slotTime := "10:00 AM", userData := some ⟨"ben@mail.example", "approved"⟩,
      docData := ⟨"cruz@clinic.example", true, 500⟩, amount := 500, date := nov6at10,
      cancelled := false, payment := false, isCompleted := false, isRead := false,
      cancellationReason := none, cancelledBy := none }
    ((clinicRebooked.doctors "doc1").get (by decide)) ["10:00 AM"]
    (Option.some_get _).symm (by decide)).2.1 "a2" none (by decide)

/-- C12 (release tolerates an absent entry). The claim holds for the admin's cancel and for
the sweep, which test the doctor and the entry before they filter, and fails for the
owner's `cancelAppointment`, which does not: once the doctor of `a1` is deleted, or when
the date-key of `a1` is absent from the ledger, the owner's cancel is answered with a
failure that carries the message of the exception, after the record has been marked
cancelled; the admin's cancel of the same appointment in the same state succeeds. -/
theorem patient_cancel_fails_after_marking :
    (cancelAppointment ⟨"u1", "a1", none⟩ clinicDoctorDeleted).1 =
        ⟨false, "Cannot read properties of null (reading 'slots_booked')"⟩ ∧
      (findAppointment "a1"
          (cancelAppointment ⟨"u1", "a1", none⟩ clinicDoctorDeleted).2.appointments).map
          cancelFields = some (true, some "user", some "Cancelled by patient") ∧
      (appointmentCancel "a1" none clinicDoctorDeleted).1 =
        ⟨true, "Appointment Cancelled Successfully"⟩ ∧
      ledgerEntry clinicKeyAbsent "doc1" "12_11_2026" = some none ∧
      (cancelAppointment ⟨"u1", "a1", none⟩ clinicKeyAbsent).1 =
        ⟨false, "Cannot read properties of undefined (reading 'filter')"⟩ ∧
      (findAppointment "a1"
          (cancelAppointment ⟨"u1", "a1", none⟩ clinicKeyAbsent).2.appointments).map
          cancelFields = some (true, some "user", some "Cancelled by patient") ∧
      (appointmentCancel "a1" none clinicKeyAbsent).1 =
        ⟨true, "Appointment Cancelled Successfully"⟩ ∧
      (cancelPastAppointments nov13at10 clinicKeyAbsent).1 = 1 := by
  decide

/-- C13 (expiry effect), as the claim states it, fails: `a1`, booked for 12 November 2026
and still open, is swept on 13 November; it ends cancelled and its slot is released, but
no actor is recorded, the actor stays unset and is not `system`. -/
theorem sweep_records_no_actor :
    (findAppointment "a1" clinicBooked.appointments).map
        (fun a => (a.cancelled, a.isCompleted, a.cancelledBy)) = some (false, false, none) ∧
      (cancelPastAppointments nov13at10 clinicBooked).1 = 1 ∧
      (findAppointment "a1" (cancelPastAppointments nov13at10 clinicBooked).2.appointments).map
        cancelFields = some (true, none, none) ∧
      (findAppointment "a1" (cancelPastAppointments nov13at10 clinicBooked).2.appointments).map
        (fun a => a.cancelledBy) ≠ some (some "system") ∧
      ledgerEntry (cancelPastAppointments nov13at10 clinicBooked).2 "doc1" "12_11_2026" =
        some (some []) := by
  decide

/-- C13 as amended. With distinct ids and a valid clock, an appointment that is neither
cancelled nor completed and whose date-key is a calendar day before today is, after
`cancelPastAppointments`, the same record with `cancelled` set (the actor and the reason
are as they were, the sweep writes neither), and the ledger entry of its doctor for that
date-key no longer holds its time label. -/
theorem sweep_expiry_effect (now : Int) (h0 : -8640000000000000 ≤ now)
    (h1 : now ≤ 8640000000000000) (db : Db) (hu : uniqueIds db) (a : Appointment)
    (ha : a ∈ db.appointments) (hopen : a.cancelled = false ∧ a.isCompleted = false)
    (hdate : datedBefore now a = true) :
    findAppointment a._id (cancelPastAppointments now db).2.appointments =
        some { a with cancelled := true } ∧
      ledgerLacks (cancelPastAppointments now db).2 a.docId a.slotDate a.slotTime := by
  have he : expires now a :=
    ⟨hopen, by rw [isPast_eq_datedBefore now h0 h1 a]; exact hdate⟩
  constructor
  · rw [sweep_appointments now db hu,
      findAppointment_map_unique _ (by intro x; split <;> rfl) _ hu a ha]
    simp only [he, if_true]
  · intro labels hlab
    rw [sweep_ledger] at hlab
    cases hentry : ledgerEntry db a.docId a.slotDate with
    | none => rw [hentry] at hlab; exact absurd hlab (by simp)
    | some o =>
      cases o with
      | none => rw [hentry] at hlab; exact absurd hlab (by simp)
      | some old =>
        rw [hentry] at hlab
        simp only [Option.map_some', Option.some.injEq] at hlab
        rw [← hlab]
        intro hmem
        have hs := (List.mem_filter.1 hmem).2
        unfold survives at hs
        rw [List.all_eq_true] at hs
        have := hs a (List.mem_filter.2 ⟨ha, by simpa using he⟩)
        simp at this

/-- Witness of the amended C13: the sweep of 13 November 2026 on the booked clinic. -/
theorem sweep_expiry_effect_witness :
    findAppointment "a1" (cancelPastAppointments nov13at10 clinicBooked).2.appointments =
        some { _id := "a1", userId := "u1", docId := "doc1", slotDate := "12_11_2026",
               slotTime := "10:00 AM", userData := some ⟨"ana@mail.example", "approved"⟩,
               docData := ⟨"cruz@clinic.example", true, 500⟩, amount := 500,
               date := nov6at10, cancelled := true, payment := false, isCompleted := false,
               isRead := false, cancellationReason := none, cancelledBy := none } ∧
      ledgerLacks (cancelPastAppointments nov13at10 clinicBooked).2 "doc1" "12_11_2026"
        "10:00 AM" :=
  sweep_expiry_effect nov13at10 (by decide) (by decide) clinicBooked (by decide)
    { _id := "a1", userId := "u1", docId := "doc1", slotDate := "12_11_2026",
      slotTime := "10:00 AM", userData := some ⟨"ana@mail.example", "approved"⟩,
      docData := ⟨"cruz@clinic.example", true, 500⟩, amount := 500, date := nov6at10,
      cancelled := false, payment := false, isCompleted := false, isRead := false,
      cancellationReason := none, cancelledBy := none }
    (by decide) ⟨rfl, rfl⟩ (by decide)

/-- C14 (sweep selection and count). On a valid clock `cancelPastAppointments` returns the
number of stored appointments that are neither cancelled nor completed and whose date-key
is a calendar day before today, time of day ignored. With distinct ids it sets `cancelled`
on exactly those and leaves every other record as it was: an appointment dated today or
later, already cancelled or completed is found unchanged afterwards. -/
theorem sweep_selection_and_count (now : Int) (h0 : -8640000000000000 ≤ now)
    (h1 : now ≤ 8640000000000000) (db : Db) (hu : uniqueIds db) :
    (cancelPastAppointments now db).1 =
        (db.appointments.filter (fun a => decide (isOpen a) && datedBefore now a)).length ∧
      (cancelPastAppointments now db).2.appointments =
        db.appointments.map (fun a =>
          if isOpen a ∧ datedBefore now a = true then { a with cancelled := true } else a) ∧
      (∀ a ∈ db.appointments,
        a.cancelled = true ∨ a.isCompleted = true ∨ datedBefore now a = false →
        findAppointment a._id (cancelPastAppointments now db).2.appointments = some a) := by
  have hiff : ∀ a, expires now a ↔ (isOpen a ∧ datedBefore now a = true) := by
    intro a
    unfold expires
    rw [isPast_eq_datedBefore now h0 h1 a]
  have hmap : (cancelPastAppointments now db).2.appointments =
      db.appointments.map (fun a =>
        if isOpen a ∧ datedBefore now a = true then { a with cancelled := true } else a) := by
    rw [sweep_appointments now db hu]
    apply List.map_congr_left
    intro a _
    by_cases h : expires now a
    · rw [if_pos h, if_pos ((hiff a).1 h)]
    · rw [if_neg h, if_neg (fun h2 => h ((hiff a).2 h2))]
  refine ⟨?_, hmap, ?_⟩
  · rw [sweep_eq]
    simp only []
    congr 1
    apply List.filter_congr
    intro a _
    rw [show decide (expires now a) = decide (isOpen a ∧ datedBefore now a = true) from
      decide_eq_decide.2 (hiff a)]
    simp
  · intro a ha hkeep
    rw [hmap, findAppointment_map_unique _ (by intro x; split <;> rfl) _ hu a ha]
    have : ¬(isOpen a ∧ datedBefore now a = true) := by
      rintro ⟨⟨hc, hcomp⟩, hd⟩
      rcases hkeep with h | h | h
      · rw [hc] at h; exact absurd h (by decide)
      · rw [hcomp] at h; exact absurd h (by decide)
      · rw [hd] at h; exact absurd h (by decide)
    rw [if_neg this]

/-- Witness of C14: the sweep of 13 November 2026 on the clinic with `a1` cancelled by the
admin and `a2` open counts one appointment. -/
theorem sweep_selection_and_count_witness :
    (cancelPastAppointments nov13at10 clinicRebooked).1 =
      (clinicRebooked.appointments.filter
        (fun a => decide (isOpen a) && datedBefore nov13at10 a)).length :=
  (sweep_selection_and_count nov13at10 (by decide) (by decide) clinicRebooked
    (by decide)).1

/-- C15 (sweep idempotence). With distinct ids, a second run of `cancelPastAppointments`
on the same calendar day, right after a first one, returns 0 and leaves the persisted
state, appointments and ledgers, exactly as the first run left it. -/
theorem sweep_idempotent (now1 now2 : Int) (hday : Day now2 = Day now1) (db : Db)
    (hu : uniqueIds db) :
    cancelPastAppointments now2 (cancelPastAppointments now1 db).2 =
      (0, (cancelPastAppointments now1 db).2) := by
  have hnone : (cancelPastAppointments now1 db).2.appointments.filter
      (fun a => decide (expires now2 a)) = [] := by
    rw [List.filter_eq_nil_iff]
    intro b hb
    rw [sweep_appointments now1 db hu] at hb
    obtain ⟨a, _, hab⟩ := List.mem_map.1 hb
    intro he
    have he2 : expires now2 b := by simpa using he
    by_cases h : expires now1 a
    · rw [if_pos h] at hab
      rw [← hab] at he2
      exact absurd he2.1.1 (by simp)
    · rw [if_neg h] at hab
      rw [← hab] at he2
      exact h ((expires_congr now1 now2 hday a).1 he2)
  rw [sweep_eq now2, hnone]
  rfl

/-- Witness of C15: two sweeps of the booked clinic on 13 November 2026. -/
theorem sweep_idempotent_witness :
    cancelPastAppointments nov13at10 (cancelPastAppointments nov13at10 clinicBooked).2 =
      (0, (cancelPastAppointments nov13at10 clinicBooked).2) :=
  sweep_idempotent nov13at10 nov13at10 rfl clinicBooked (by decide)

/-! ## What each handler writes -/

theorem mem_updateAppointment (id : String) (f : Appointment → Appointment)
    (l : List Appointment) (a : Appointment) (h : a ∈ updateAppointment id f l) :
    a ∈ l ∨ ∃ b ∈ l, a = f b := by
  induction l with
  | nil => exact absurd h (by simp [updateAppointment])
  | cons b rest ih =>
    by_cases hb : b._id = id
    · simp only [updateAppointment, hb, if_true, List.mem_cons] at h
      rcases h with h | h
      · exact Or.inr ⟨b, List.mem_cons_self _ _, h⟩
      · exact Or.inl (List.mem_cons_of_mem _ h)
    · simp only [updateAppointment, hb, if_false, List.mem_cons] at h
      rcases h with h | h
      · exact Or.inl (h ▸ List.mem_cons_self _ _)
      · rcases ih h with h2 | ⟨c, hc, hac⟩
        · exact Or.inl (List.mem_cons_of_mem _ h2)
        · exact Or.inr ⟨c, List.mem_cons_of_mem _ hc, hac⟩

/-- A property of records that a rewrite keeps holds after an update by id. -/
theorem forall_updateAppointment (P : Appointment → Prop) (id : String)
    (f : Appointment → Appointment) (hf : ∀ a, P a → P (f a)) (l : List Appointment)
    (h : ∀ a ∈ l, P a) : ∀ a ∈ updateAppointment id f l, P a := by
  intro a ha
  rcases mem_updateAppointment id f l a ha with h1 | ⟨b, hb, hab⟩
  · exact h a h1
  · rw [hab]; exact hf b (h b hb)

/-- The appointments after a booking: unchanged, or one fresh open record more. -/
theorem book_appointments (today : Int) (newId : String) (req : BookRequest) (db : Db) :
    (bookAppointment today newId req db).2.appointments = db.appointments ∨
      ∃ a, a.cancelled = false ∧ a.isCompleted = false ∧
        (bookAppointment today newId req db).2.appointments = db.appointments ++ [a] := by
  rcases book_cases today newId req db with
    ⟨_, h1⟩ | ⟨_, _, h1⟩ | ⟨_, h1⟩ | ⟨_, h1⟩ | ⟨_, h1⟩ | ⟨docData, hw, hd, ha, hf, _⟩
  · rw [h1]; exact Or.inl rfl
  · rw [h1]; exact Or.inl rfl
  · rw [h1]; exact Or.inl rfl
  · rw [h1]; exact Or.inl rfl
  · rw [h1]; exact Or.inl rfl
  · rw [book_ok today newId req db docData hw hd ha hf]
    exact Or.inr ⟨_, rfl, rfl, rfl⟩

/-- The appointments after the owner's cancel: unchanged, or one update by id that writes
the flag, the reason and the actor. -/
theorem cancel_appointments (req : CancelRequest) (db : Db) :
    (cancelAppointment req db).2.appointments = db.appointments ∨
      (cancelAppointment req db).2.appointments =
        updateAppointment req.appointmentId
          (fun x => { x with
            cancelled := true
            cancellationReason := some (reasonOr req.cancellationReason "Cancelled by patient")
            cancelledBy := some "user" })
          db.appointments := by
  unfold cancelAppointment
  cases hfind : findAppointment req.appointmentId db.appointments with
  | none => exact Or.inl rfl
  | some a =>
    by_cases hu : a.userId = req.userId
    · cases hd : db.doctors a.docId with
      | none => simp [hu, hd]
      | some d =>
        cases hl : d.slots_booked a.slotDate with
        | none => simp [hu, hd, hl]
        | some labels => simp [hu, hd, hl]
    · simp [hu]

/-- The doctors after the owner's cancel: unchanged, or one release. -/
theorem cancel_doctors (req : CancelRequest) (db : Db) :
    (cancelAppointment req db).2.doctors = db.doctors ∨
      ∃ a : Appointment, (cancelAppointment req db).2.doctors =
        releaseSlot db.doctors a.docId a.slotDate a.slotTime := by
  unfold cancelAppointment
  cases hfind : findAppointment req.appointmentId db.appointments with
  | none => exact Or.inl rfl
  | some a =>
    by_cases hu : a.userId = req.userId
    · cases hd : db.doctors a.docId with
      | none => simp [hu, hd]
      | some d =>
        cases hl : d.slots_booked a.slotDate with
        | none => simp [hu, hd, hl]
        | some labels =>
          right
          refine ⟨a, ?_⟩
          rw [releaseSlot_entry_found db.doctors a.docId a.slotDate a.slotTime d labels hd hl]
          simp [hu, hd, hl]
    · simp [hu]

/-- The appointments after the admin's cancel. -/
theorem admin_cancel_appointments (appointmentId : String) (reason : Option String)
    (db : Db) :
    (appointmentCancel appointmentId reason db).2.appointments = db.appointments ∨
      (appointmentCancel appointmentId reason db).2.appointments =
        updateAppointment appointmentId
          (fun x => { x with
            cancelled := true
            cancellationReason := some (reasonOr reason "Cancelled by admin")
            cancelledBy := some "admin" })
          db.appointments := by
  cases hfind : findAppointment appointmentId db.appointments with
  | none => left; simp [appointmentCancel, hfind]
  | some a =>
    right
    cases hd : db.doctors a.docId with
    | none => rw [admin_cancel_no_entry appointmentId reason db a hfind (Or.inl hd)]
    | some d =>
      cases hl : d.slots_booked a.slotDate with
      | none => rw [admin_cancel_no_entry appointmentId reason db a hfind (Or.inr ⟨d, hd, hl⟩)]
      | some labels => rw [admin_cancel_entry appointmentId reason db a d labels hfind hd hl]

/-- The doctors after the admin's cancel: unchanged, or one release. -/
theorem admin_cancel_doctors (appointmentId : String) (reason : Option String) (db : Db) :
    (appointmentCancel appointmentId reason db).2.doctors = db.doctors ∨
      ∃ a : Appointment, (appointmentCancel appointmentId reason db).2.doctors =
        releaseSlot db.doctors a.docId a.slotDate a.slotTime := by
  cases hfind : findAppointment appointmentId db.appointments with
  | none => left; simp [appointmentCancel, hfind]
  | some a =>
    cases hd : db.doctors a.docId with
    | none =>
      rw [admin_cancel_no_entry appointmentId reason db a hfind (Or.inl hd)]
      exact Or.inl rfl
    | some d =>
      cases hl : d.slots_booked a.slotDate with
      | none =>
        rw [admin_cancel_no_entry appointmentId reason db a hfind (Or.inr ⟨d, hd, hl⟩)]
        exact Or.inl rfl
      | some labels =>
        rw [admin_cancel_entry appointmentId reason db a d labels hfind hd hl]
        right
        refine ⟨a, ?_⟩
        rw [releaseSlot_entry_found db.doctors a.docId a.slotDate a.slotTime d labels hd hl]

/-- The state after an approval: only the `status` of the record with that id is written. -/
theorem approve_state (appointmentId : String) (db : Db) :
    (approveAppointment appointmentId db).2.doctors = db.doctors ∧
      ((approveAppointment appointmentId db).2.appointments = db.appointments ∨
        (approveAppointment appointmentId db).2.appointments =
          updateAppointment appointmentId (fun a => { a with status := some "approved" })
            db.appointments) := by
  unfold approveAppointment
  cases hfind : findAppointment appointmentId db.appointments with
  | none => exact ⟨rfl, Or.inl rfl⟩
  | some a => exact ⟨rfl, Or.inr rfl⟩

/-- The state after a payment verification: only the `payment` flag of one record. -/
theorem verifyStripe_state (appointmentId success : String) (db : Db) :
    (verifyStripe appointmentId success db).2.doctors = db.doctors ∧
      ((verifyStripe appointmentId success db).2.appointments = db.appointments ∨
        (verifyStripe appointmentId success db).2.appointments =
          updateAppointment appointmentId (fun a => { a with payment := true })
            db.appointments) := by
  unfold verifyStripe
  split
  · exact ⟨rfl, Or.inr rfl⟩
  · exact ⟨rfl, Or.inl rfl⟩

theorem verifyRazorpay_state (orderInfo : OrderInfo) (db : Db) :
    (verifyRazorpay orderInfo db).2.doctors = db.doctors ∧
      ((verifyRazorpay orderInfo db).2.appointments = db.appointments ∨
        (verifyRazorpay orderInfo db).2.appointments =
          updateAppointment orderInfo.receipt (fun a => { a with payment := true })
            db.appointments) := by
  unfold verifyRazorpay
  split
  · exact ⟨rfl, Or.inr rfl⟩
  · exact ⟨rfl, Or.inl rfl⟩

/-- A property of records that setting `cancelled` keeps holds after the sweep. -/
theorem forall_sweep (P : Appointment → Prop)
    (hP : ∀ a, P a → P { a with cancelled := true }) (now : Int) (db : Db)
    (h : ∀ a ∈ db.appointments, P a) :
    ∀ a ∈ (cancelPastAppointments now db).2.appointments, P a := by
  rw [sweep_eq]
  simp only []
  generalize db.appointments.filter (fun a => decide (expires now a)) = sel
  generalize db.appointments = apps at h
  induction sel generalizing apps with
  | nil => exact h
  | cons b rest ih =>
    rw [List.foldl_cons]
    exact ih _ (forall_updateAppointment P b._id _ hP apps h)

/-! ## Claims on approval, invariants and statistics -/

/-- C16 (approve only from ACTIVE), as the claim states it, fails: the admin has cancelled
`a1`, and its approval is still answered 'Appointment approved successfully', the record
ending cancelled with status `approved`. -/
theorem approve_of_cancelled_succeeds :
    (findAppointment "a1" clinicAdminCancelled.appointments).map (fun a => a.cancelled) =
        some true ∧
      (approveAppointment "a1" clinicAdminCancelled).1 =
        ⟨true, "Appointment approved successfully"⟩ ∧
      (findAppointment "a1" (approveAppointment "a1" clinicAdminCancelled).2.appointments).map
        (fun a => (a.cancelled, a.status)) = some (true, some "approved") := by
  decide

/-- C16 as amended. The approval does not look at the state of the appointment: for every
stored appointment, cancelled or already approved included, it answers 'Appointment
approved successfully'; the record keeps its patient, doctor and slot, its `cancelled`
flag, its actor, its reason and its payment flag, and every ledger is as before. An id
that is not stored is answered 'Appointment not found' and nothing is written. -/
theorem approve_ignores_state (appointmentId : String) (db : Db) :
    (∀ a, findAppointment appointmentId db.appointments = some a →
        (approveAppointment appointmentId db).1 = ⟨true, "Appointment approved successfully"⟩ ∧
        (∃ b, findAppointment appointmentId
              (approveAppointment appointmentId db).2.appointments = some b ∧
            b.userId = a.userId ∧ b.docId = a.docId ∧ b.slotDate = a.slotDate ∧
            b.slotTime = a.slotTime ∧ b.cancelled = a.cancelled ∧
            b.cancelledBy = a.cancelledBy ∧ b.cancellationReason = a.cancellationReason ∧
            b.payment = a.payment) ∧
        (approveAppointment appointmentId db).2.doctors = db.doctors) ∧
      (findAppointment appointmentId db.appointments = none →
        approveAppointment appointmentId db = (⟨false, "Appointment not found"⟩, db)) := by
  constructor
  · intro a hfind
    have e : approveAppointment appointmentId db =
        (⟨true, "Appointment approved successfully"⟩,
          { db with
            appointments := updateAppointment appointmentId
              (fun a => { a with status := some "approved" }) db.appointments }) := by
      simp [approveAppointment, hfind]
    rw [e]
    refine ⟨rfl, ⟨{ a with status := some "approved" }, ?_, rfl, rfl, rfl, rfl, rfl, rfl,
      rfl, rfl⟩, rfl⟩
    simp only []
    rw [findAppointment_update appointmentId _ (by intro _; rfl), hfind]
    rfl
  · intro hfind
    simp [approveAppointment, hfind]

/-- Witness of the amended C16: the approval of the cancelled `a1`, and of an unknown id. -/
theorem approve_ignores_state_witness :
    (approveAppointment "a1" clinicAdminCancelled).1 =
        ⟨true, "Appointment approved successfully"⟩ ∧
      approveAppointment "a9" clinicAdminCancelled =
        (⟨false, "Appointment not found"⟩, clinicAdminCancelled) :=
  ⟨((approve_ignores_state "a1" clinicAdminCancelled).1
      { _id := "a1", userId := "u1", docId := "doc1", slotDate := "12_11_2026",
        slotTime := "10:00 AM", userData := some ⟨"ana@mail.example", "approved"⟩,
        docData := ⟨"cruz@clinic.example", true, 500⟩, amount := 500, date := nov6at10,
        cancelled := true, payment := false, isCompleted := false, isRead := false,
        cancellationReason := some "Cancelled by admin", cancelledBy := some "admin" }
      (by decide)).1,
    (approve_ignores_state "a9" clinicAdminCancelled).2 (by decide)⟩

/-- C17 (approve postcondition). The claim asks that an approved appointment has its
`isCompleted` flag set. The handler writes `status: 'approved'` and leaves the flag: after
the approval of the open `a1` the flag is still false, the statistics count `a1` as
pending and not as approved, and the sweep of 13 November 2026 still selects it, cancels
it and releases its slot. The ledger is unchanged by the approval itself. -/
theorem approve_leaves_flag_unset :
    (approveAppointment "a1" clinicBooked).1 = ⟨true, "Appointment approved successfully"⟩ ∧
      (findAppointment "a1" clinicApproved.appointments).map
        (fun a => (a.cancelled, a.isCompleted, a.status)) =
        some (false, false, some "approved") ∧
      getUsersAppointmentStats clinicApproved "u1" = some ⟨1, 0, 1, 0⟩ ∧
      ledgerEntry clinicApproved "doc1" "12_11_2026" = some (some ["10:00 AM"]) ∧
      (cancelPastAppointments nov13at10 clinicApproved).1 = 1 ∧
      (findAppointment "a1"
          (cancelPastAppointments nov13at10 clinicApproved).2.appointments).map
          (fun a => a.cancelled) = some true ∧
      ledgerEntry (cancelPastAppointments nov13at10 clinicApproved).2 "doc1" "12_11_2026" =
        some (some []) := by
  decide

/-- One call keeps the `isCompleted` flag of every stored appointment unset. -/
theorem Op.apply_isCompleted (op : Op) (db : Db)
    (h : ∀ a ∈ db.appointments, a.isCompleted = false) :
    ∀ a ∈ (op.apply db).appointments, a.isCompleted = false := by
  cases op with
  | book today newId req =>
    rcases book_appointments today newId req db with h1 | ⟨b, _, hb, h1⟩
    · simp only [Op.apply, h1]; exact h
    · simp only [Op.apply, h1]
      intro a ha
      rcases List.mem_append.1 ha with h2 | h2
      · exact h a h2
      · rw [List.mem_singleton.1 h2]; exact hb
  | cancel req =>
    rcases cancel_appointments req db with h1 | h1
    · simp only [Op.apply, h1]; exact h
    · simp only [Op.apply, h1]
      exact forall_updateAppointment _ _ _ (by intro _ ha; exact ha) _ h
  | adminCancel appointmentId reason =>
    rcases admin_cancel_appointments appointmentId reason db with h1 | h1
    · simp only [Op.apply, h1]; exact h
    · simp only [Op.apply, h1]
      exact forall_updateAppointment _ _ _ (by intro _ ha; exact ha) _ h
  | approve appointmentId =>
    rcases (approve_state appointmentId db).2 with h1 | h1
    · simp only [Op.apply, h1]; exact h
    · simp only [Op.apply, h1]
      exact forall_updateAppointment _ _ _ (by intro _ ha; exact ha) _ h
  | sweep now =>
    exact forall_sweep _ (by intro _ ha; exact ha) now db h
  | payStripe appointmentId success =>
    rcases (verifyStripe_state appointmentId success db).2 with h1 | h1
    · simp only [Op.apply, h1]; exact h
    · simp only [Op.apply, h1]
      exact forall_updateAppointment _ _ _ (by intro _ ha; exact ha) _ h
  | payRazorpay orderInfo =>
    rcases (verifyRazorpay_state orderInfo db).2 with h1 | h1
    · simp only [Op.apply, h1]; exact h
    · simp only [Op.apply, h1]
      exact forall_updateAppointment _ _ _ (by intro _ ha; exact ha) _ h

/-- A sequence of calls keeps the `isCompleted` flag of every stored appointment unset. -/
theorem runOps_isCompleted (ops : List Op) (db : Db)
    (h : ∀ a ∈ db.appointments, a.isCompleted = false) :
    ∀ a ∈ (runOps ops db).appointments, a.isCompleted = false := by
  induction ops generalizing db with
  | nil => exact h
  | cons op rest ih => exact ih (op.apply db) (Op.apply_isCompleted op db h)

/-- The `status` written by an approval is outside the two flags: an approved and then
cancelled appointment is cancelled and keeps the status `approved`. -/
theorem approved_status_survives_cancel :
    (findAppointment "a1"
        (runOps [.approve "a1", .adminCancel "a1" none] clinicBooked).appointments).map
        (fun a => (a.cancelled, a.isCompleted, a.status)) =
      some (true, false, some "approved") := by
  decide

/-- C18 (lifecycle state invariant). Start from a store whose appointments are all open,
as a booking creates them, and run any sequence of bookings, cancels by the owner or the
admin, approvals, sweeps and payment verifications. Every stored appointment is then in
exactly one of the three states read off its flags (active-pending, approved, cancelled)
and is never both cancelled and completed. -/
theorem lifecycle_invariant (ops : List Op) (db : Db)
    (h : ∀ a ∈ db.appointments, a.cancelled = false ∧ a.isCompleted = false) :
    ∀ a ∈ (runOps ops db).appointments,
      ¬(a.cancelled = true ∧ a.isCompleted = true) ∧
        ((isActivePending a ∧ ¬isApproved a ∧ ¬isCancelled a) ∨
          (¬isActivePending a ∧ isApproved a ∧ ¬isCancelled a) ∨
          (¬isActivePending a ∧ ¬isApproved a ∧ isCancelled a)) := by
  intro a ha
  have hc := runOps_isCompleted ops db (fun b hb => (h b hb).2) a ha
  unfold isActivePending isApproved isCancelled
  cases hcan : a.cancelled <;> simp [hc]

/-- Witness of C18: the record `a1` after a booking, an approval, a cancel and a sweep on
the sample clinic. -/
theorem lifecycle_invariant_witness :
    ¬(a1Closed.cancelled = true ∧ a1Closed.isCompleted = true) ∧
      ((isActivePending a1Closed ∧ ¬isApproved a1Closed ∧ ¬isCancelled a1Closed) ∨
        (¬isActivePending a1Closed ∧ isApproved a1Closed ∧ ¬isCancelled a1Closed) ∨
        (¬isActivePending a1Closed ∧ ¬isApproved a1Closed ∧ isCancelled a1Closed)) :=
  lifecycle_invariant
    [.book nov6at10 "a1" ⟨"u1", "doc1", "12_11_2026", "10:00 AM"⟩, .approve "a1",
      .cancel ⟨"u1", "a1", none⟩, .sweep nov13at10]
    clinic (by intro a ha; exact absurd ha (by simp [clinic])) a1Closed (by decide)

theorem ledgersNodup_of_doctors (db db2 : Db) (h : db2.doctors = db.doctors)
    (hn : ledgersNodup db) : ledgersNodup db2 := by
  intro id k labels hl
  unfold ledgerEntry at hl
  rw [h] at hl
  exact hn id k labels hl

/-- A release keeps every ledger entry free of duplicates. -/
theorem ledgersNodup_release (db db2 : Db) (docId slotDate slotTime : String)
    (h : db2.doctors = releaseSlot db.doctors docId slotDate slotTime)
    (hn : ledgersNodup db) : ledgersNodup db2 := by
  intro id k labels hl
  rw [ledgerEntry_release db db2 docId slotDate slotTime h] at hl
  split at hl
  · cases hentry : ledgerEntry db id k with
    | none => rw [hentry] at hl; exact absurd hl (by simp)
    | some o =>
      cases o with
      | none => rw [hentry] at hl; exact absurd hl (by simp)
      | some old =>
        rw [hentry] at hl
        simp only [Option.map_some', Option.some.injEq] at hl
        rw [← hl]
        exact (hn id k old hentry).filter _
  · exact hn id k labels hl

/-- The sweep keeps every ledger entry free of duplicates. -/
theorem ledgersNodup_sweep (now : Int) (db : Db) (hn : ledgersNodup db) :
    ledgersNodup (cancelPastAppointments now db).2 := by
  intro id k labels hl
  rw [sweep_ledger] at hl
  cases hentry : ledgerEntry db id k with
  | none => rw [hentry] at hl; exact absurd hl (by simp)
  | some o =>
    cases o with
    | none => rw [hentry] at hl; exact absurd hl (by simp)
    | some old =>
      rw [hentry] at hl
      simp only [Option.map_some', Option.some.injEq] at hl
      rw [← hl]
      exact (hn id k old hentry).filter _

/-- A booking keeps every ledger entry free of duplicates: the label is pushed only when
the entry does not hold it. -/
theorem ledgersNodup_book (today : Int) (newId : String) (req : BookRequest) (db : Db)
    (hn : ledgersNodup db) : ledgersNodup (bookAppointment today newId req db).2 := by
  rcases book_cases today newId req db with
    ⟨_, h1⟩ | ⟨_, _, h1⟩ | ⟨_, h1⟩ | ⟨_, h1⟩ | ⟨_, h1⟩ | ⟨docData, hw, hd, ha, hf, _⟩
  · rw [h1]; exact hn
  · rw [h1]; exact hn
  · rw [h1]; exact hn
  · rw [h1]; exact hn
  · rw [h1]; exact hn
  · rw [book_ok today newId req db docData hw hd ha hf]
    intro id k labels hl
    unfold ledgerEntry at hl
    simp only [updateSlots] at hl
    by_cases hid : id = req.docId
    · rw [hid] at hl
      by_cases hk : k = req.slotDate
      · rw [hk] at hl
        simp only [if_true, hd, Option.map_some', Ledger.set, Option.some.injEq] at hl
        rw [← hl]
        cases hprev : docData.slots_booked req.slotDate with
        | none => simp
        | some prev =>
          have hnd : prev.Nodup :=
            hn req.docId req.slotDate prev (by simp [ledgerEntry, hd, hprev])
          have hnot : req.slotTime ∉ prev := hf prev hprev
          simp only [Option.getD_some]
          exact List.Nodup.append hnd (List.nodup_singleton _)
            (by intro x hx hx2; rw [List.mem_singleton] at hx2; exact hnot (hx2 ▸ hx))
      · simp only [if_true, hd, Option.map_some', Ledger.set, hk, if_false] at hl
        exact hn req.docId k labels (by simp [ledgerEntry, hd, hl])
    · simp only [hid, if_false] at hl
      exact hn id k labels hl

/-- One call keeps every ledger entry free of duplicates. -/
theorem Op.apply_ledgersNodup (op : Op) (db : Db) (hn : ledgersNodup db) :
    ledgersNodup (op.apply db) := by
  cases op with
  | book today newId req => exact ledgersNodup_book today newId req db hn
  | cancel req =>
    rcases cancel_doctors req db with h1 | ⟨a, h1⟩
    · exact ledgersNodup_of_doctors db _ h1 hn
    · exact ledgersNodup_release db _ _ _ _ h1 hn
  | adminCancel appointmentId reason =>
    rcases admin_cancel_doctors appointmentId reason db with h1 | ⟨a, h1⟩
    · exact ledgersNodup_of_doctors db _ h1 hn
    · exact ledgersNodup_release db _ _ _ _ h1 hn
  | approve appointmentId =>
    exact ledgersNodup_of_doctors db _ (approve_state appointmentId db).1 hn
  | sweep now => exact ledgersNodup_sweep now db hn
  | payStripe appointmentId success =>
    exact ledgersNodup_of_doctors db _ (verifyStripe_state appointmentId success db).1 hn
  | payRazorpay orderInfo =>
    exact ledgersNodup_of_doctors db _ (verifyRazorpay_state orderInfo db).1 hn

/-- C19 (ledger has no duplicates). If every date-key of every doctor holds pairwise
distinct time labels, then so it is after any sequence of bookings, cancels by the owner
or the admin and sweeps (approvals and payment verifications, which write no ledger, may
be mixed in). -/
theorem ledger_stays_duplicate_free (ops : List Op) (db : Db) (hn : ledgersNodup db) :
    ledgersNodup (runOps ops db) := by
  induction ops generalizing db with
  | nil => exact hn
  | cons op rest ih => exact ih (op.apply db) (Op.apply_ledgersNodup op db hn)

/-- Witness of C19: two bookings of the same slot, a cancel and a sweep on the clinic. -/
theorem ledger_stays_duplicate_free_witness :
    ledgersNodup (runOps [.book nov6at10 "a1" ⟨"u1", "doc1", "12_11_2026", "10:00 AM"⟩,
      .book nov6at10 "a2" ⟨"u2", "doc1", "12_11_2026", "10:00 AM"⟩,
      .cancel ⟨"u1", "a1", none⟩, .sweep nov13at10] clinic) :=
  ledger_stays_duplicate_free _ clinic (by
    intro id k labels h
    simp only [ledgerEntry, clinic, drCruz] at h
    split at h
    · simp only [Option.map_some', Option.some.injEq] at h
      split at h
      · simp only [Option.some.injEq] at h
        rw [← h]
        decide
      · exact absurd h (by simp)
    · exact absurd h (by simp))

/-- One turn of the statistics loop keeps, for every user, the total equal to the sum of
the three other counters. -/
theorem countAppointment_partition (userStats : String → Option UserStats)
    (a : Appointment)
    (h : ∀ id s, userStats id = some s → s.total = s.approved + s.pending + s.cancelled) :
    ∀ id s, countAppointment userStats a id = some s →
      s.total = s.approved + s.pending + s.cancelled := by
  intro id s hs
  by_cases hempty : a.userId = ""
  · simp only [countAppointment, hempty, if_true] at hs
    exact h id s hs
  · by_cases hid : id = a.userId
    · have hsum : (statsEntry userStats a.userId).total =
          (statsEntry userStats a.userId).approved + (statsEntry userStats a.userId).pending +
            (statsEntry userStats a.userId).cancelled := by
        unfold statsEntry
        cases hu : userStats a.userId with
        | none => rfl
        | some s0 => exact h _ _ hu
      simp only [countAppointment, hempty, if_false, hid, if_true,
        Option.some.injEq] at hs
      rw [← hs]
      split
      · simp only []; omega
      · split
        · simp only []; omega
        · simp only []; omega
    · simp only [countAppointment, hempty, hid, if_false] at hs
      exact h id s hs

/-- C20 (statistics partition). For every store and every user id that has an entry in the
result of `getUsersAppointmentStats`, the total is the sum of the approved, the pending and
the cancelled counters. -/
theorem stats_partition (db : Db) (userId : String) (s : UserStats)
    (h : getUsersAppointmentStats db userId = some s) :
    s.total = s.approved + s.pending + s.cancelled := by
  unfold getUsersAppointmentStats at h
  have key : ∀ (l : List Appointment) (st : String → Option UserStats),
      (∀ id s, st id = some s → s.total = s.approved + s.pending + s.cancelled) →
      ∀ id s, l.foldl countAppointment st id = some s →
        s.total = s.approved + s.pending + s.cancelled := by
    intro l
    induction l with
    | nil => intro st hst; exact hst
    | cons a rest ih =>
      intro st hst
      rw [List.foldl_cons]
      exact ih _ (countAppointment_partition st a hst)
  exact key db.appointments (fun _ => none) (by intro id s hs; exact absurd hs (by simp))
    userId s h

/-- Witness of C20: the counters of `u1` once `a1` is cancelled and the slot booked again. -/
theorem stats_partition_witness :
    getUsersAppointmentStats clinicRebooked "u1" = some ⟨1, 0, 0, 1⟩ ∧
      (⟨1, 0, 0, 1⟩ : UserStats).total =
        (⟨1, 0, 0, 1⟩ : UserStats).approved + (⟨1, 0, 0, 1⟩ : UserStats).pending +
          (⟨1, 0, 0, 1⟩ : UserStats).cancelled :=
  ⟨by decide, stats_partition clinicRebooked "u1" ⟨1, 0, 0, 1⟩ (by decide)⟩

/-! ## The stages of a booking call run in a row -/

/-- A call that the checks turn down answers at its first stage, whatever the outcomes. -/
theorem steps_rejected (out : BookOutcomes) (today : Int) (newId : String) (req : BookRequest)
    (db : Db) (h : (bookAppointment today newId req db).1.success = false) :
    bookAppointmentSteps out today newId req db =
      (.done (bookAppointment today newId req db).1, db) := by
  cases h1 : dateLt (appointmentDate req.slotDate) (minDate today) with
  | true => simp [bookAppointmentSteps, bookStep, bookAppointment, h1]
  | false =>
    cases h2 : dateGt (appointmentDate req.slotDate) (maxDate today) with
    | true => simp [bookAppointmentSteps, bookStep, bookAppointment, h1, h2]
    | false =>
      cases hd : db.doctors req.docId with
      | none => simp [bookAppointmentSteps, bookStep, bookAppointment, h1, h2, hd]
      | some docData =>
        cases ha : docData.available with
        | false => simp [bookAppointmentSteps, bookStep, bookAppointment, h1, h2, hd, ha]
        | true =>
          by_cases hf : slotFree docData req.slotDate req.slotTime
          · rw [book_ok today newId req db docData ⟨h1, h2⟩ hd ha hf] at h
            simp at h
          · unfold slotFree at hf
            push_neg at hf
            obtain ⟨labels, hl, hm⟩ := hf
            simp [bookAppointmentSteps, bookStep, bookAppointment, h1, h2, hd, ha, hl, hm]

/-- A call that passes the checks, stage by stage: the first failing persistence step
ends it, and what was written before stays. -/
theorem steps_accepted (out : BookOutcomes) (today : Int) (newId : String) (req : BookRequest)
    (db : Db) (docData : Doctor) (hw : inWindow today req.slotDate)
    (hd : db.doctors req.docId = some docData) (ha : docData.available = true)
    (hf : slotFree docData req.slotDate req.slotTime) :
    bookAppointmentSteps out today newId req db =
      match out.save with
      | some message => (.done ⟨false, message⟩, db)
      | none =>
        match out.update with
        | some message =>
          (.done ⟨false, message⟩,
            { db with appointments := (bookAppointment today newId req db).2.appointments })
        | none => (.done ⟨true, "Appointment Booked"⟩, (bookAppointment today newId req db).2) := by
  rw [book_ok today newId req db docData hw hd ha hf]
  unfold slotFree at hf
  cases hs : out.save with
  | some m =>
    cases hl : docData.slots_booked req.slotDate with
    | none => simp [bookAppointmentSteps, bookStep, hw.1, hw.2, hd, ha, hl, hs]
    | some labels =>
      simp [bookAppointmentSteps, bookStep, hw.1, hw.2, hd, ha, hl, hf labels hl, hs]
  | none =>
    cases hu : out.update with
    | some m =>
      cases hl : docData.slots_booked req.slotDate with
      | none => simp [bookAppointmentSteps, bookStep, hw.1, hw.2, hd, ha, hl, hs, hu]
      | some labels =>
        simp [bookAppointmentSteps, bookStep, hw.1, hw.2, hd, ha, hl, hf labels hl, hs, hu]
    | none =>
      cases hl : docData.slots_booked req.slotDate with
      | none =>
        cases hn : sendDoctorAppointmentNotification out.mailSent (db.users req.userId) <;>
          simp [bookAppointmentSteps, bookStep, hw.1, hw.2, hd, ha, hl, hs, hu, hn]
      | some labels =>
        cases hn : sendDoctorAppointmentNotification out.mailSent (db.users req.userId) <;>
          simp [bookAppointmentSteps, bookStep, hw.1, hw.2, hd, ha, hl, hf labels hl, hs, hu, hn]

/-- With every persistence call succeeding, the stages run in a row give the response and
the state of `bookAppointment`, whatever becomes of the mail. -/
theorem steps_all_good (mailSent : Bool) (today : Int) (newId : String) (req : BookRequest)
    (db : Db) :
    bookAppointmentSteps ⟨none, none, mailSent⟩ today newId req db =
      (.done (bookAppointment today newId req db).1, (bookAppointment today newId req db).2) := by
  rcases book_cases today newId req db with
    ⟨_, h1⟩ | ⟨_, _, h1⟩ | ⟨_, h1⟩ | ⟨_, h1⟩ | ⟨_, h1⟩ | ⟨docData, hw, hd, ha, hf, h1⟩
  · rw [steps_rejected _ today newId req db (by rw [h1]), h1]
  · rw [steps_rejected _ today newId req db (by rw [h1]), h1]
  · rw [steps_rejected _ today newId req db (by rw [h1]), h1]
  · rw [steps_rejected _ today newId req db (by rw [h1]), h1]
  · rw [steps_rejected _ today newId req db (by rw [h1]), h1]
  · rw [steps_accepted _ today newId req db docData hw hd ha hf, h1]

/-- The three outcomes of the notification: the mail is sent, the mail is not sent, the
user data is missing. -/
theorem notification_outcomes (user : User) :
    sendDoctorAppointmentNotification true (some user) = some true ∧
      sendDoctorAppointmentNotification false (some user) = some false ∧
      ∀ mailSent, sendDoctorAppointmentNotification mailSent none = none :=
  ⟨rfl, rfl, fun _ => rfl⟩

/-! ## Login, token and the booking route -/

/-- A login that issues a token found the user, with a status that is none of 'pending',
'declined' and 'blocked', and a matching password; the token is signed for that user. -/
theorem login_token_inv (jwt : Jwt) (user : Option (String × User)) (validPassword : Bool)
    (token : String) (h : (loginUser jwt user validPassword).token = some token) :
    ∃ id u, user = some (id, u) ∧ u.approval_status ≠ "pending" ∧
      u.approval_status ≠ "declined" ∧ u.approval_status ≠ "blocked" ∧
      validPassword = true ∧ token = jwt.sign id ∧
      loginUser jwt user validPassword = ⟨200, true, none, some token⟩ := by
  unfold loginUser at h ⊢
  match user, h with
  | none, h => simp at h
  | some (id, u), h =>
    simp only [] at h ⊢
    by_cases h1 : u.approval_status = "pending"
    · simp [h1] at h
    · by_cases h2 : u.approval_status = "declined"
      · simp [h2] at h
      · by_cases h3 : u.approval_status = "blocked"
        · simp [h3] at h
        · cases validPassword with
          | false => simp [h1, h2, h3] at h
          | true =>
            simp [h1, h2, h3] at h
            exact ⟨id, u, rfl, h1, h2, h3, rfl, h.symm, by simp [h1, h2, h3, h]⟩

/-- The answer of `bookAppointment` does not depend on the stored users: neither the
existence of the user of the request nor the approval status is read by a check. -/
theorem book_response_ignores_users (today : Int) (newId : String) (req : BookRequest)
    (db : Db) (users : String → Option User) :
    (bookAppointment today newId req { db with users := users }).1 =
      (bookAppointment today newId req db).1 := by
  cases h1 : dateLt (appointmentDate req.slotDate) (minDate today) with
  | true => simp [bookAppointment, h1]
  | false =>
    cases h2 : dateGt (appointmentDate req.slotDate) (maxDate today) with
    | true => simp [bookAppointment, h1, h2]
    | false =>
      cases hd : db.doctors req.docId with
      | none => simp [bookAppointment, h1, h2, hd]
      | some docData =>
        cases ha : docData.available with
        | false => simp [bookAppointment, h1, h2, hd, ha]
        | true =>
          cases hl : docData.slots_booked req.slotDate with
          | none => simp [bookAppointment, h1, h2, hd, ha, hl]
          | some labels =>
            by_cases hm : req.slotTime ∈ labels
            · simp [bookAppointment, h1, h2, hd, ha, hl, hm]
            · simp [bookAppointment, h1, h2, hd, ha, hl, hm]

/-! ## Two calls for one slot -/

/-- The state after a booking that was accepted, written by its third and fourth stage. -/
theorem four_stages (out : BookOutcomes) (today : Int) (newId : String) (req : BookRequest)
    (db : Db) (docData : Doctor) (b : BookCall) (rest : List Bool)
    (hs : out.save = none) (hu : out.update = none)
    (hw : inWindow today req.slotDate)
    (hd : db.doctors req.docId = some docData) (ha : docData.available = true)
    (hf : slotFree docData req.slotDate req.slotTime) :
    interleave ([true, true, true, true] ++ rest) ⟨out, today, newId, req, .start⟩ b db =
      interleave rest ⟨out, today, newId, req, .updated (db.users req.userId)⟩ b
        (bookAppointment today newId req db).2 := by
  rw [book_ok today newId req db docData hw hd ha hf]
  unfold slotFree at hf
  cases hl : docData.slots_booked req.slotDate with
  | none => simp [interleave, BookCall.step, bookStep, hw.1, hw.2, hd, ha, hl, hs, hu]
  | some labels =>
    simp [interleave, BookCall.step, bookStep, hw.1, hw.2, hd, ha, hl, hf labels hl, hs, hu]

/-- The first stage of a call in the window, on a state whose ledger holds the label. -/
theorem start_on_taken (out : BookOutcomes) (today : Int) (newId : String) (req : BookRequest)
    (db : Db) (docData : Doctor) (labels : List String) (hw : inWindow today req.slotDate)
    (hd : db.doctors req.docId = some docData) (ha : docData.available = true)
    (hl : docData.slots_booked req.slotDate = some labels) (hm : req.slotTime ∈ labels) :
    bookStep out today newId req .start db = (.done ⟨false, "Slot Not Available"⟩, db) := by
  simp [bookStep, hw.1, hw.2, hd, ha, hl, hm]

/-- Once the first call has written the ledger, whatever the order of the stages that
follow: the state stays as the first call left it, the first call ends with 'Appointment
Booked' at its next stage, and the second call, for the same slot, is turned down at its
first stage. -/
theorem after_ledger_write (today1 today2 : Int) (id1 id2 : String) (req1 req2 : BookRequest)
    (out1 out2 : BookOutcomes) (db1 : Db) (docData : Doctor) (labels : List String)
    (hw2 : inWindow today2 req2.slotDate)
    (hd : db1.doctors req2.docId = some docData) (ha : docData.available = true)
    (hl : docData.slots_booked req2.slotDate = some labels) (hm : req2.slotTime ∈ labels)
    (rest : List Bool) :
    ∀ sa sb : BookStage,
      ((∃ u, sa = .updated u) ∨ sa = .done ⟨true, "Appointment Booked"⟩) →
      (sb = .start ∨ sb = .done ⟨false, "Slot Not Available"⟩) →
      (interleave rest ⟨out1, today1, id1, req1, sa⟩ ⟨out2, today2, id2, req2, sb⟩ db1).2.2 =
          db1 ∧
        (interleave rest ⟨out1, today1, id1, req1, sa⟩
            ⟨out2, today2, id2, req2, sb⟩ db1).1.stage =
          (if true ∈ rest then .done ⟨true, "Appointment Booked"⟩ else sa) ∧
        (interleave rest ⟨out1, today1, id1, req1, sa⟩
            ⟨out2, today2, id2, req2, sb⟩ db1).2.1.stage =
          (if false ∈ rest then .done ⟨false, "Slot Not Available"⟩ else sb) := by
  induction rest with
  | nil => intro sa sb _ _; exact ⟨rfl, by simp [interleave], by simp [interleave]⟩
  | cons c rest ih =>
    intro sa sb h1 h2
    cases c with
    | true =>
      have hstep : bookStep out1 today1 id1 req1 sa db1 =
          (.done ⟨true, "Appointment Booked"⟩, db1) := by
        rcases h1 with ⟨u, h⟩ | h
        · rw [h]
          cases hn : sendDoctorAppointmentNotification out1.mailSent u <;>
            simp [bookStep, hn]
        · rw [h]; rfl
      simp only [interleave, BookCall.step, hstep]
      obtain ⟨e1, e2, e3⟩ := ih (.done ⟨true, "Appointment Booked"⟩) sb (Or.inr rfl) h2
      refine ⟨e1, ?_, ?_⟩
      · rw [e2]; simp
      · rw [e3]; simp
    | false =>
      have hstep : bookStep out2 today2 id2 req2 sb db1 =
          (.done ⟨false, "Slot Not Available"⟩, db1) := by
        rcases h2 with h | h
        · rw [h]
          exact start_on_taken out2 today2 id2 req2 db1 docData labels hw2 hd ha hl hm
        · rw [h]; rfl
      simp only [interleave, BookCall.step, hstep]
      obtain ⟨e1, e2, e3⟩ := ih sa (.done ⟨false, "Slot Not Available"⟩) h1 (Or.inr rfl)
      refine ⟨e1, ?_, ?_⟩
      · rw [e2]; simp
      · rw [e3]; simp

/-- Two calls for the same free slot whose reads of the doctor both come before the first
write of the ledger are both answered 'Appointment Booked', and both records are stored. -/
theorem overlapping_calls (today1 today2 : Int) (id1 id2 : String) (req1 req2 : BookRequest)
    (db : Db) (docData : Doctor) (hw1 : inWindow today1 req1.slotDate)
    (hw2 : inWindow today2 req2.slotDate) (hdoc : req2.docId = req1.docId)
    (hdate : req2.slotDate = req1.slotDate) (htime : req2.slotTime = req1.slotTime)
    (hd : db.doctors req1.docId = some docData) (ha : docData.available = true)
    (hf : slotFree docData req1.slotDate req1.slotTime) :
    (interleave overlapping ⟨allGood, today1, id1, req1, .start⟩
        ⟨allGood, today2, id2, req2, .start⟩ db).1.stage.response =
        some ⟨true, "Appointment Booked"⟩ ∧
      (interleave overlapping ⟨allGood, today1, id1, req1, .start⟩
        ⟨allGood, today2, id2, req2, .start⟩ db).2.1.stage.response =
        some ⟨true, "Appointment Booked"⟩ ∧
      (interleave overlapping ⟨allGood, today1, id1, req1, .start⟩
        ⟨allGood, today2, id2, req2, .start⟩ db).2.2.appointments =
        db.appointments ++
          [appointmentModel id1 req1.userId req1.docId (db.users req1.userId)
              ⟨docData.email, docData.available, docData.fees⟩ docData.fees
              req1.slotTime req1.slotDate today1,
            appointmentModel id2 req2.userId req2.docId (db.users req2.userId)
              ⟨docData.email, docData.available, docData.fees⟩ docData.fees
              req2.slotTime req2.slotDate today2] := by
  have hd2 : db.doctors req2.docId = some docData := by rw [hdoc]; exact hd
  unfold slotFree at hf
  cases hl : docData.slots_booked req1.slotDate with
  | none =>
    have hl2 : docData.slots_booked req2.slotDate = none := by rw [hdate]; exact hl
    cases hn1 : sendDoctorAppointmentNotification true (db.users req1.userId) <;>
    cases hn2 : sendDoctorAppointmentNotification true (db.users req2.userId) <;>
      simp [interleave, overlapping, BookCall.step, bookStep, allGood, hw1.1, hw1.2, hw2.1,
        hw2.2, hd, hd2, ha, hl, hl2, hn1, hn2, BookStage.response]
  | some labels =>
    have hl2 : docData.slots_booked req2.slotDate = some labels := by rw [hdate]; exact hl
    have hm := hf labels hl
    have hm2 : req2.slotTime ∉ labels := by rw [htime]; exact hm
    cases hn1 : sendDoctorAppointmentNotification true (db.users req1.userId) <;>
    cases hn2 : sendDoctorAppointmentNotification true (db.users req2.userId) <;>
      simp [interleave, overlapping, BookCall.step, bookStep, allGood, hw1.1, hw1.2, hw2.1,
        hw2.2, hd, hd2, ha, hl, hl2, hm, hm2, hn1, hn2, BookStage.response]

/-- The same two calls one after the other: the second is turned down as slot taken and
one appointment is stored. -/
theorem calls_one_after_the_other :
    (interleave oneAfterTheOther callOfU1 callOfU2 clinic).1.stage.response =
        some ⟨true, "Appointment Booked"⟩ ∧
      (interleave oneAfterTheOther callOfU1 callOfU2 clinic).2.1.stage.response =
        some ⟨false, "Slot Not Available"⟩ ∧
      (interleave oneAfterTheOther callOfU1 callOfU2 clinic).2.2.appointments.map
          (fun a => a._id) = ["a1"] ∧
      noDoubleBooking (interleave oneAfterTheOther callOfU1 callOfU2 clinic).2.2 := by
  decide

/-! ## The booking invariant when no cancelled appointment is cancelled again -/

theorem slotHeld_iff (db : Db) (a : Appointment) :
    slotHeld db a = true ↔
      ∃ labels, ledgerEntry db a.docId a.slotDate = some (some labels) ∧
        a.slotTime ∈ labels := by
  unfold slotHeld
  split
  · next labels h => simp [h]
  · next h =>
    simp only [Bool.false_eq_true, false_iff, not_exists, not_and]
    intro labels hl
    exact absurd hl (h labels)

theorem findAppointment_mem (id : String) (l : List Appointment) (a : Appointment)
    (h : findAppointment id l = some a) : a ∈ l := by
  induction l with
  | nil => simp [findAppointment] at h
  | cons b rest ih =>
    by_cases hb : b._id = id
    · simp [findAppointment, hb] at h
      simp [h]
    · simp only [findAppointment, hb, if_false] at h
      exact List.mem_cons_of_mem _ (ih h)

/-- The update of the document found by its `_id` replaces one element of the list. -/
theorem updateAppointment_split (id : String) (l : List Appointment) (a : Appointment)
    (h : findAppointment id l = some a) :
    ∃ l1 l2, l = l1 ++ a :: l2 ∧
      ∀ f, updateAppointment id f l = l1 ++ f a :: l2 := by
  induction l with
  | nil => simp [findAppointment] at h
  | cons b rest ih =>
    by_cases hb : b._id = id
    · simp [findAppointment, hb] at h
      subst h
      exact ⟨[], rest, rfl, fun f => by simp [updateAppointment, hb]⟩
    · simp only [findAppointment, hb, if_false] at h
      obtain ⟨l1, l2, e, hu⟩ := ih h
      exact ⟨b :: l1, l2, by simp [e], fun f => by simp [updateAppointment, hb, hu f]⟩

theorem pairwise_replace {R : Appointment → Appointment → Prop} (l1 l2 : List Appointment)
    (a b : Appointment) (h : (l1 ++ a :: l2).Pairwise R)
    (hl : ∀ x, R x a → R x b) (hr : ∀ x, R a x → R b x) :
    (l1 ++ b :: l2).Pairwise R := by
  rw [List.pairwise_append] at h ⊢
  obtain ⟨h1, h2, h3⟩ := h
  rw [List.pairwise_cons] at h2 ⊢
  refine ⟨h1, ⟨fun x hx => hr x (h2.1 x hx), h2.2⟩, ?_⟩
  intro x hx y hy
  rcases List.mem_cons.1 hy with e | e
  · rw [e]
    exact hl x (h3 x hx a (List.mem_cons_self _ _))
  · exact h3 x hx y (List.mem_cons_of_mem _ e)

/-- A held slot gives the doctor and the labels of the date-key. -/
theorem slotHeld_entry (db : Db) (a : Appointment) (h : slotHeld db a = true) :
    ∃ d labels, db.doctors a.docId = some d ∧ d.slots_booked a.slotDate = some labels ∧
      a.slotTime ∈ labels := by
  rw [slotHeld_iff] at h
  obtain ⟨labels, hl, hm⟩ := h
  unfold ledgerEntry at hl
  cases hd : db.doctors a.docId with
  | none => simp [hd] at hl
  | some d =>
    simp [hd] at hl
    exact ⟨d, labels, rfl, hl, hm⟩

/-- The starting condition of the invariant gives the second half of it: when the
ledgers hold exactly the slots of the appointments that are not cancelled, each of these
has its slot held. -/
theorem activeHeld_of_ledgerMatches (db : Db) (h : ledgerMatches db) : activeHeld db := by
  intro a ha hact
  rw [slotHeld_iff]
  exact (h a.docId a.slotDate a.slotTime).2 ⟨a, ha, hact, rfl, rfl, rfl⟩

/-- A write that marks the found appointment, which was not cancelled, as cancelled and
releases its slot keeps the invariant. -/
theorem inv_cancel_write (db db2 : Db) (id : String) (f : Appointment → Appointment)
    (a : Appointment) (hf : ∀ x, (f x).cancelled = true)
    (hfind : findAppointment id db.appointments = some a) (hact : a.cancelled = false)
    (h0 : noDoubleBooking db) (h1 : activeHeld db)
    (happ : db2.appointments = updateAppointment id f db.appointments)
    (hdoc : db2.doctors = releaseSlot db.doctors a.docId a.slotDate a.slotTime) :
    noDoubleBooking db2 ∧ activeHeld db2 := by
  obtain ⟨l1, l2, e, hu⟩ := updateAppointment_split id db.appointments a hfind
  unfold noDoubleBooking at h0 ⊢
  unfold activeHeld at h1 ⊢
  rw [happ, hu f]
  rw [e] at h0 h1
  constructor
  · apply pairwise_replace l1 l2 a (f a) h0
    · intro x _ hx
      have := hf a
      rw [hx.2.1] at this
      exact absurd this (by simp)
    · intro x _ hx
      have := hf a
      rw [hx.1] at this
      exact absurd this (by simp)
  · intro b hb hbact
    have hne : b ≠ f a := by
      intro hba
      have := hf a
      rw [← hba, hbact] at this
      exact absurd this (by simp)
    have hmem : b ∈ l1 ∨ b ∈ l2 := by
      rcases List.mem_append.1 hb with h | h
      · exact Or.inl h
      · rcases List.mem_cons.1 h with h | h
        · exact absurd h hne
        · exact Or.inr h
    have hdiff : ¬sameSlot a b := by
      rw [List.pairwise_append, List.pairwise_cons] at h0
      rcases hmem with h | h
      · intro hs
        exact h0.2.2 b h a (List.mem_cons_self _ _)
          ⟨hbact, hact, hs.1.symm, hs.2.1.symm, hs.2.2.symm⟩
      · intro hs
        exact h0.2.1.1 b h ⟨hact, hbact, hs⟩
    have hheld : slotHeld db b = true := by
      apply h1 b _ hbact
      rcases hmem with h | h
      · exact List.mem_append_left _ h
      · exact List.mem_append_right _ (List.mem_cons_of_mem _ h)
    rw [slotHeld_iff] at hheld ⊢
    obtain ⟨labels, hl, hm⟩ := hheld
    rw [ledgerEntry_release db db2 a.docId a.slotDate a.slotTime hdoc, hl]
    by_cases hc : b.docId = a.docId ∧ b.slotDate = a.slotDate
    · rw [if_pos hc]
      refine ⟨labels.filter (fun e => e ≠ a.slotTime), rfl, ?_⟩
      rw [List.mem_filter]
      refine ⟨hm, ?_⟩
      have : b.slotTime ≠ a.slotTime := fun ht => hdiff ⟨hc.1.symm, hc.2.symm, ht.symm⟩
      simpa using this
    · rw [if_neg hc]
      exact ⟨labels, rfl, hm⟩

/-- A write on the found appointment that keeps its flag and its slot keeps the invariant. -/
theorem inv_neutral_write (db db2 : Db) (id : String) (f : Appointment → Appointment)
    (a : Appointment)
    (hf : ∀ x, (f x).cancelled = x.cancelled ∧ (f x).docId = x.docId ∧
      (f x).slotDate = x.slotDate ∧ (f x).slotTime = x.slotTime)
    (hfind : findAppointment id db.appointments = some a)
    (h0 : noDoubleBooking db) (h1 : activeHeld db)
    (happ : db2.appointments = updateAppointment id f db.appointments)
    (hdoc : db2.doctors = db.doctors) :
    noDoubleBooking db2 ∧ activeHeld db2 := by
  obtain ⟨l1, l2, e, hu⟩ := updateAppointment_split id db.appointments a hfind
  unfold noDoubleBooking at h0 ⊢
  unfold activeHeld at h1 ⊢
  rw [happ, hu f]
  rw [e] at h0 h1
  obtain ⟨f1, f2, f3, f4⟩ := hf a
  constructor
  · apply pairwise_replace l1 l2 a (f a) h0
    · intro x hx
      unfold sameSlot at hx ⊢
      rw [f1, f2, f3, f4]
      exact hx
    · intro x hx
      unfold sameSlot at hx ⊢
      rw [f1, f2, f3, f4]
      exact hx
  · intro b hb hbact
    have key : ∀ x, slotHeld db x = true → slotHeld db2 x = true := by
      intro x hx
      rw [slotHeld_iff] at hx ⊢
      unfold ledgerEntry at hx ⊢
      rw [hdoc]
      exact hx
    rcases List.mem_append.1 hb with h | h
    · exact key b (h1 b (List.mem_append_left _ h) hbact)
    · rcases List.mem_cons.1 h with h | h
      · have ha : slotHeld db a = true :=
          h1 a (List.mem_append_right _ (List.mem_cons_self _ _)) (by rw [← f1, ← h]; exact hbact)
        have := key a ha
        rw [slotHeld_iff] at this ⊢
        rw [h, f2, f3, f4]
        exact this
      · exact key b (h1 b (List.mem_append_right _ (List.mem_cons_of_mem _ h)) hbact)

/-- A booking keeps the invariant. -/
theorem inv_book (today : Int) (newId : String) (req : BookRequest) (db : Db)
    (h0 : noDoubleBooking db) (h1 : activeHeld db) :
    noDoubleBooking (bookAppointment today newId req db).2 ∧
      activeHeld (bookAppointment today newId req db).2 := by
  rcases book_cases today newId req db with
    ⟨_, e⟩ | ⟨_, _, e⟩ | ⟨_, e⟩ | ⟨_, e⟩ | ⟨_, e⟩ | ⟨docData, hw, hd, ha, hf, _⟩
  · rw [e]; exact ⟨h0, h1⟩
  · rw [e]; exact ⟨h0, h1⟩
  · rw [e]; exact ⟨h0, h1⟩
  · rw [e]; exact ⟨h0, h1⟩
  · rw [e]; exact ⟨h0, h1⟩
  · rw [book_ok today newId req db docData hw hd ha hf]
    have hentry : ∀ (x : Appointment) (labels : List String),
        ledgerEntry db x.docId x.slotDate = some (some labels) →
        ∃ labels2, ledgerEntry
          { db with
            appointments := db.appointments ++
              [appointmentModel newId req.userId req.docId (db.users req.userId)
                ⟨docData.email, docData.available, docData.fees⟩ docData.fees
                req.slotTime req.slotDate today]
            doctors := updateSlots db.doctors req.docId
              (docData.slots_booked.set req.slotDate
                ((docData.slots_booked req.slotDate).getD [] ++ [req.slotTime])) }
          x.docId x.slotDate = some (some labels2) ∧ ∀ t ∈ labels, t ∈ labels2 := by
      intro x labels hl
      unfold ledgerEntry at hl ⊢
      by_cases hid : x.docId = req.docId
      · rw [hid, hd] at hl
        simp only [Option.map_some', Option.some.injEq] at hl
        by_cases hk : x.slotDate = req.slotDate
        · rw [hk] at hl
          refine ⟨labels ++ [req.slotTime], ?_, fun t ht => List.mem_append_left _ ht⟩
          simp [updateSlots, hid, hd, Ledger.set, hk, hl]
        · exact ⟨labels, by simp [updateSlots, hid, hd, Ledger.set, hk, hl], fun t ht => ht⟩
      · exact ⟨labels, by simpa [updateSlots, hid] using hl, fun t ht => ht⟩
    constructor
    · unfold noDoubleBooking at h0 ⊢
      simp only []
      rw [List.pairwise_append]
      refine ⟨h0, List.pairwise_singleton _ _, ?_⟩
      intro x hx y hy
      rw [List.mem_singleton] at hy
      subst hy
      rintro ⟨hxa, _, hs⟩
      obtain ⟨d, labels, hxd, hxl, hxm⟩ := slotHeld_entry db x (h1 x hx hxa)
      have e1 : x.docId = req.docId := hs.1
      have e2 : x.slotDate = req.slotDate := hs.2.1
      have e3 : x.slotTime = req.slotTime := hs.2.2
      rw [e1, hd] at hxd
      simp only [Option.some.injEq] at hxd
      rw [← hxd, e2] at hxl
      rw [e3] at hxm
      exact hf labels hxl hxm
    · unfold activeHeld
      intro x hx hxa
      rw [slotHeld_iff]
      simp only [] at hx
      rcases List.mem_append.1 hx with h | h
      · have := h1 x h hxa
        rw [slotHeld_iff] at this
        obtain ⟨labels, hl, hm⟩ := this
        obtain ⟨labels2, hl2, hsub⟩ := hentry x labels hl
        exact ⟨labels2, hl2, hsub _ hm⟩
      · rw [List.mem_singleton] at h
        subst h
        refine ⟨(docData.slots_booked req.slotDate).getD [] ++ [req.slotTime], ?_, ?_⟩
        · simp [ledgerEntry, updateSlots, hd, Ledger.set, appointmentModel]
        · simp [appointmentModel]

/-- A patient cancel that does not find a cancelled appointment keeps the invariant. -/
theorem inv_cancel (req : CancelRequest) (db : Db)
    (hfirst : ∀ a, findAppointment req.appointmentId db.appointments = some a →
      a.cancelled = false)
    (h0 : noDoubleBooking db) (h1 : activeHeld db) :
    noDoubleBooking (cancelAppointment req db).2 ∧
      activeHeld (cancelAppointment req db).2 := by
  cases hfind : findAppointment req.appointmentId db.appointments with
  | none =>
    have : cancelAppointment req db =
        (⟨false, "Cannot read properties of null (reading 'userId')"⟩, db) := by
      simp [cancelAppointment, hfind]
    rw [this]; exact ⟨h0, h1⟩
  | some a =>
    by_cases hu : a.userId = req.userId
    · have hact := hfirst a hfind
      obtain ⟨d, labels, hd, hl, _⟩ :=
        slotHeld_entry db a (h1 a (findAppointment_mem _ _ _ hfind) hact)
      rw [cancel_ok req db a d labels hfind hu hd hl]
      exact inv_cancel_write db _ req.appointmentId _ a (fun _ => rfl) hfind hact h0 h1 rfl
        (releaseSlot_entry_found db.doctors a.docId a.slotDate a.slotTime d labels hd hl).symm
    · rw [cancel_unauthorized req db a hfind hu]; exact ⟨h0, h1⟩

/-- An admin cancel that does not find a cancelled appointment keeps the invariant. -/
theorem inv_admin_cancel (appointmentId : String) (reason : Option String) (db : Db)
    (hfirst : ∀ a, findAppointment appointmentId db.appointments = some a →
      a.cancelled = false)
    (h0 : noDoubleBooking db) (h1 : activeHeld db) :
    noDoubleBooking (appointmentCancel appointmentId reason db).2 ∧
      activeHeld (appointmentCancel appointmentId reason db).2 := by
  cases hfind : findAppointment appointmentId db.appointments with
  | none =>
    have : appointmentCancel appointmentId reason db =
        (⟨false, "Appointment not found"⟩, db) := by
      simp [appointmentCancel, hfind]
    rw [this]; exact ⟨h0, h1⟩
  | some a =>
    have hact := hfirst a hfind
    obtain ⟨d, labels, hd, hl, _⟩ :=
      slotHeld_entry db a (h1 a (findAppointment_mem _ _ _ hfind) hact)
    rw [admin_cancel_entry appointmentId reason db a d labels hfind hd hl]
    exact inv_cancel_write db _ appointmentId _ a (fun _ => rfl) hfind hact h0 h1 rfl
      (releaseSlot_entry_found db.doctors a.docId a.slotDate a.slotTime d labels hd hl).symm

/-- An approval keeps the invariant. -/
theorem inv_approve (appointmentId : String) (db : Db)
    (h0 : noDoubleBooking db) (h1 : activeHeld db) :
    noDoubleBooking (approveAppointment appointmentId db).2 ∧
      activeHeld (approveAppointment appointmentId db).2 := by
  cases hfind : findAppointment appointmentId db.appointments with
  | none =>
    have : approveAppointment appointmentId db = (⟨false, "Appointment not found"⟩, db) := by
      simp [approveAppointment, hfind]
    rw [this]; exact ⟨h0, h1⟩
  | some a =>
    have : approveAppointment appointmentId db =
        (⟨true, "Appointment approved successfully"⟩,
          { db with
            appointments := updateAppointment appointmentId
              (fun a => { a with status := some "approved" }) db.appointments }) := by
      simp [approveAppointment, hfind]
    rw [this]
    exact inv_neutral_write db _ appointmentId (fun a => { a with status := some "approved" })
      a (by intro _; exact ⟨rfl, rfl, rfl, rfl⟩) hfind h0 h1 rfl rfl

/-- Sequential double booking is excluded as long as no cancel is applied to an
appointment that is cancelled already: from a state in which no two appointments that are
not cancelled share a slot and each of them has its label in the ledger, any sequence of
bookings, patient cancels, admin cancels and approvals of that kind leads to such a state. -/
theorem no_double_booking_without_recancel (ops : List Op) :
    ∀ db : Db, noDoubleBooking db → activeHeld db → runWithoutRecancel ops db = true →
      noDoubleBooking (runOps ops db) ∧ activeHeld (runOps ops db) := by
  induction ops with
  | nil => intro db h0 h1 _; exact ⟨h0, h1⟩
  | cons op rest ih =>
    intro db h0 h1 hrun
    simp only [runWithoutRecancel, Bool.and_eq_true] at hrun
    have hstep : noDoubleBooking (op.apply db) ∧ activeHeld (op.apply db) := by
      cases op with
      | book today newId req => exact inv_book today newId req db h0 h1
      | cancel req =>
        apply inv_cancel req db _ h0 h1
        intro a ha
        have := hrun.1
        simp [Op.withoutRecancel, ha] at this
        exact this
      | adminCancel appointmentId reason =>
        apply inv_admin_cancel appointmentId reason db _ h0 h1
        intro a ha
        have := hrun.1
        simp [Op.withoutRecancel, ha] at this
        exact this
      | approve appointmentId => exact inv_approve appointmentId db h0 h1
      | sweep now => exact absurd hrun.1 (by simp [Op.withoutRecancel])
      | payStripe appointmentId success => exact absurd hrun.1 (by simp [Op.withoutRecancel])
      | payRazorpay orderInfo => exact absurd hrun.1 (by simp [Op.withoutRecancel])
    exact ih (op.apply db) hstep.1 hstep.2 hrun.2

/-- The invariant on the sample clinic: the slot is booked, released by the admin and
booked again, and the two conditions hold at the end. -/
theorem no_double_booking_sample :
    noDoubleBooking (runOps (recancelRun.take 3) clinicOpening) ∧
      activeHeld (runOps (recancelRun.take 3) clinicOpening) :=
  no_double_booking_without_recancel (recancelRun.take 3) clinicOpening (by decide)
    (by decide) (by decide)

/-! ## Claims on persistence outcomes, approval of users, notification and double booking -/

/-- C21 (book atomicity), counterexample. On the sample clinic the save of the appointment
succeeds and the write of the ledger then fails: the call answers with the failure, the
appointment `a1` is stored, and the ledger of the doctor is what it was before, without
the date-key of the appointment. One store changed and the other did not. -/
theorem save_without_ledger_entry :
    (bookAppointmentSteps updateFails nov6at10 "a1" (slotReq "u1") clinic).1.response =
        some ⟨false, "connection closed"⟩ ∧
      clinic.appointments = [] ∧
      (bookAppointmentSteps updateFails nov6at10 "a1" (slotReq "u1") clinic).2.appointments.map
          (fun a => (a._id, a.docId, a.slotDate, a.slotTime, a.cancelled)) =
        [("a1", "doc1", "12_11_2026", "10:00 AM", false)] ∧
      ledgerEntry clinic "doc1" "12_11_2026" = some none ∧
      ledgerEntry (bookAppointmentSteps updateFails nov6at10 "a1" (slotReq "u1") clinic).2
          "doc1" "12_11_2026" = some none := by
  decide

/-- C21 (book atomicity), amended. Every booking call ends with a response in one of three
ways. Either neither store is changed and the answer is a failure: the checks turned the
request down or the save of the appointment failed. Or both persistence steps succeeded:
the answer is 'Appointment Booked', one new record that is not cancelled is stored for the
requested slot and the ledger entry of the date-key holds the time label. Or the save
succeeded and the write of the ledger failed: the answer is the failure of the write, the
new record is stored all the same and the ledgers are what they were before. -/
theorem book_persistence_outcomes (out : BookOutcomes) (today : Int) (newId : String)
    (req : BookRequest) (db : Db) :
    ((bookAppointmentSteps out today newId req db).2 = db ∧
        ∃ message, (bookAppointmentSteps out today newId req db).1 = .done ⟨false, message⟩) ∨
      (out.save = none ∧ out.update = none ∧
        (bookAppointmentSteps out today newId req db).1 = .done ⟨true, "Appointment Booked"⟩ ∧
        (∃ a, (bookAppointmentSteps out today newId req db).2.appointments =
            db.appointments ++ [a] ∧
          a._id = newId ∧ a.userId = req.userId ∧ a.docId = req.docId ∧
          a.slotDate = req.slotDate ∧ a.slotTime = req.slotTime ∧ a.cancelled = false) ∧
        ∃ labels, ledgerEntry (bookAppointmentSteps out today newId req db).2 req.docId
            req.slotDate = some (some labels) ∧ req.slotTime ∈ labels) ∨
      (∃ message, out.save = none ∧ out.update = some message ∧
        (bookAppointmentSteps out today newId req db).1 = .done ⟨false, message⟩ ∧
        (∃ a, (bookAppointmentSteps out today newId req db).2.appointments =
            db.appointments ++ [a] ∧
          a._id = newId ∧ a.userId = req.userId ∧ a.docId = req.docId ∧
          a.slotDate = req.slotDate ∧ a.slotTime = req.slotTime ∧ a.cancelled = false) ∧
        (bookAppointmentSteps out today newId req db).2.doctors = db.doctors) := by
  rcases book_cases today newId req db with
    ⟨_, h1⟩ | ⟨_, _, h1⟩ | ⟨_, h1⟩ | ⟨_, h1⟩ | ⟨_, h1⟩ | ⟨docData, hw, hd, ha, hf, _⟩
  · rw [steps_rejected out today newId req db (by rw [h1]), h1]
    exact Or.inl ⟨rfl, _, rfl⟩
  · rw [steps_rejected out today newId req db (by rw [h1]), h1]
    exact Or.inl ⟨rfl, _, rfl⟩
  · rw [steps_rejected out today newId req db (by rw [h1]), h1]
    exact Or.inl ⟨rfl, _, rfl⟩
  · rw [steps_rejected out today newId req db (by rw [h1]), h1]
    exact Or.inl ⟨rfl, _, rfl⟩
  · rw [steps_rejected out today newId req db (by rw [h1]), h1]
    exact Or.inl ⟨rfl, _, rfl⟩
  · rw [steps_accepted out today newId req db docData hw hd ha hf,
      book_ok today newId req db docData hw hd ha hf]
    cases hs : out.save with
    | some m => exact Or.inl ⟨rfl, m, rfl⟩
    | none =>
      cases hu : out.update with
      | some m =>
        refine Or.inr (Or.inr ⟨m, rfl, rfl, rfl, ⟨_, rfl, ?_⟩, rfl⟩)
        simp [appointmentModel]
      | none =>
        refine Or.inr (Or.inl ⟨rfl, rfl, rfl, ⟨_, rfl, ?_⟩,
          (docData.slots_booked req.slotDate).getD [] ++ [req.slotTime], ?_, by simp⟩)
        · simp [appointmentModel]
        · simp [ledgerEntry, updateSlots, hd, Ledger.set]

/-- C22 (only approved users act). Patient `u1` logs in while approved and is given a
token. The admin then blocks `u1`: the stored status is 'blocked' and a new login is
refused. A booking request that carries the old token is answered 'Appointment Booked'
all the same, and the stored appointment is the one of `u1`, whose status is 'blocked'. -/
theorem blocked_user_books_with_old_token :
    clinic.users "u1" = some ⟨"ana@mail.example", "approved"⟩ ∧
      loginUser toyJwt (some ("u1", ⟨"ana@mail.example", "approved"⟩)) true =
        ⟨200, true, none, some "tok.u1"⟩ ∧
      updateApprovalStatus "u1" "blocked" clinic =
        (⟨true, "User blocked successfully"⟩, clinicU1Blocked) ∧
      clinicU1Blocked.users "u1" = some ⟨"ana@mail.example", "blocked"⟩ ∧
      loginUser toyJwt (some ("u1", ⟨"ana@mail.example", "blocked"⟩)) true =
        ⟨403, false,
          some "Your account has been blocked. Please contact support for assistance.",
          none⟩ ∧
      (bookAppointmentRoute toyJwt (some "Bearer tok.u1") nov6at10 "a1" (slotReq "")
          clinicU1Blocked).1 = ⟨true, "Appointment Booked"⟩ ∧
      (bookAppointmentRoute toyJwt (some "Bearer tok.u1") nov6at10 "a1" (slotReq "")
          clinicU1Blocked).2.appointments.map
            (fun a => (a._id, a.userId, a.userData.map (fun u => u.approval_status))) =
        [("a1", "u1", some "blocked")] := by
  refine ⟨by decide, by decide, rfl, by decide, by decide, by decide, by decide⟩

/-- C22 (only approved users act), amended. The approval status gates the login and
nothing else. A login that issues a token is for a stored user whose status is none of
'pending', 'declined' and 'blocked' (so it is 'approved' when it is one of the four values
of the enum) and whose password matches, and the token is signed for that user; a user
whose status is 'pending', 'declined' or 'blocked' is refused with status 403 and gets no
token. The booking route is gated by the token alone: its answer is the same whatever the
stored users and their statuses are. -/
theorem approval_gates_login_only (jwt : Jwt) (user : Option (String × User))
    (validPassword : Bool) :
    (∀ token, (loginUser jwt user validPassword).token = some token →
      ∃ id u, user = some (id, u) ∧ u.approval_status ≠ "pending" ∧
        u.approval_status ≠ "declined" ∧ u.approval_status ≠ "blocked" ∧
        (u.approval_status ∈ ["pending", "approved", "declined", "blocked"] →
          u.approval_status = "approved") ∧
        validPassword = true ∧ token = jwt.sign id) ∧
      (∀ id u, user = some (id, u) →
        u.approval_status = "pending" ∨ u.approval_status = "declined" ∨
          u.approval_status = "blocked" →
        (loginUser jwt user validPassword).status = 403 ∧
          (loginUser jwt user validPassword).success = false ∧
          (loginUser jwt user validPassword).token = none) ∧
      ∀ (authorization : Option String) (today : Int) (newId : String) (body : BookRequest)
        (db : Db) (users : String → Option User),
        (bookAppointmentRoute jwt authorization today newId body { db with users := users }).1 =
          (bookAppointmentRoute jwt authorization today newId body db).1 := by
  refine ⟨?_, ?_, ?_⟩
  · intro token h
    obtain ⟨id, u, hu, h1, h2, h3, hv, ht, _⟩ := login_token_inv jwt user validPassword token h
    refine ⟨id, u, hu, h1, h2, h3, ?_, hv, ht⟩
    intro hmem
    simp only [List.mem_cons, List.mem_singleton, List.not_mem_nil, or_false] at hmem
    rcases hmem with h | h | h | h
    · exact absurd h h1
    · exact h
    · exact absurd h h2
    · exact absurd h h3
  · intro id u hu hs
    rw [hu]
    rcases hs with h | h | h <;> simp [loginUser, h]
  · intro authorization today newId body db users
    unfold bookAppointmentRoute
    cases authUser jwt authorization with
    | error response => rfl
    | ok id => exact book_response_ignores_users today newId _ db users

/-- Witness of C22, amended: on the sample clinic the booking route gives `u1` the same
answer before and after the admin has blocked that patient. -/
theorem approval_gates_login_only_witness :
    (bookAppointmentRoute toyJwt (some "Bearer tok.u1") nov6at10 "a1" (slotReq "")
        { clinic with users := clinicU1Blocked.users }).1 =
      (bookAppointmentRoute toyJwt (some "Bearer tok.u1") nov6at10 "a1" (slotReq "")
        clinic).1 :=
  (approval_gates_login_only toyJwt none false).2.2 (some "Bearer tok.u1") nov6at10 "a1"
    (slotReq "") clinic clinicU1Blocked.users

/-- C23 (notification failure never blocks or rolls back a booking). For a request in the
window, to an available doctor, for a free slot, with both persistence steps succeeding:
whether the mail is sent or not, and whether the notification returns or throws (it throws
when the user of the request is not found), the call answers 'Appointment Booked' and the
persisted state is the same as when the mail is sent, namely the state with the new record
and the time label in the ledger. -/
theorem notification_outcome_ignored (today : Int) (newId : String) (req : BookRequest)
    (db : Db) (docData : Doctor) (hw : inWindow today req.slotDate)
    (hd : db.doctors req.docId = some docData) (ha : docData.available = true)
    (hf : slotFree docData req.slotDate req.slotTime) (mailSent : Bool) :
    (bookAppointmentSteps ⟨none, none, mailSent⟩ today newId req db).1 =
        .done ⟨true, "Appointment Booked"⟩ ∧
      (bookAppointmentSteps ⟨none, none, mailSent⟩ today newId req db).2 =
        (bookAppointmentSteps ⟨none, none, true⟩ today newId req db).2 ∧
      (bookAppointmentSteps ⟨none, none, mailSent⟩ today newId req db).2 =
        (bookAppointment today newId req db).2 := by
  rw [steps_accepted _ today newId req db docData hw hd ha hf,
    steps_accepted _ today newId req db docData hw hd ha hf]
  exact ⟨rfl, rfl, rfl⟩

/-- Witness of C23: a request whose user is not stored, so that the notification throws,
and whose mail would not be sent either. -/
theorem notification_outcome_ignored_witness :
    sendDoctorAppointmentNotification false (clinic.users "ghost") = none ∧
      (bookAppointmentSteps ⟨none, none, false⟩ nov6at10 "a1" (slotReq "ghost") clinic).1 =
        .done ⟨true, "Appointment Booked"⟩ :=
  ⟨by decide,
    (notification_outcome_ignored nov6at10 "a1" (slotReq "ghost") clinic drCruz (by decide)
      rfl rfl (fun labels h => by simp [drCruz, slotReq] at h) false).1⟩

/-- C24 (no concurrent double booking). Two calls for the same slot, served with every
persistence call succeeding: when both read the doctor before either writes the ledger,
both are answered 'Appointment Booked', two appointments that are not cancelled are
stored for the slot, and the ledger holds the label once. -/
theorem overlapping_calls_both_succeed :
    (interleave overlapping callOfU1 callOfU2 clinic).1.stage.response =
        some ⟨true, "Appointment Booked"⟩ ∧
      (interleave overlapping callOfU1 callOfU2 clinic).2.1.stage.response =
        some ⟨true, "Appointment Booked"⟩ ∧
      (interleave overlapping callOfU1 callOfU2 clinic).2.2.appointments.map
          (fun a => (a._id, a.userId, a.docId, a.slotDate, a.slotTime, a.cancelled)) =
        [("a1", "u1", "doc1", "12_11_2026", "10:00 AM", false),
          ("a2", "u2", "doc1", "12_11_2026", "10:00 AM", false)] ∧
      ledgerEntry (interleave overlapping callOfU1 callOfU2 clinic).2.2 "doc1" "12_11_2026" =
        some (some ["10:00 AM"]) ∧
      ¬noDoubleBooking (interleave overlapping callOfU1 callOfU2 clinic).2.2 := by
  decide

/-- C24 (no concurrent double booking), amended. Two calls for the same free slot, every
persistence call succeeding: in every interleaving in which the first call has written the
ledger before the second call reads the doctor, exactly one appointment is created, the
first call is answered 'Appointment Booked' once it has moved again, the second call is
answered 'Slot Not Available' once it has moved, and the second call is never answered
with success. -/
theorem ledger_write_before_read (today1 today2 : Int) (id1 id2 : String)
    (req1 req2 : BookRequest) (db : Db) (docData : Doctor)
    (hw1 : inWindow today1 req1.slotDate) (hw2 : inWindow today2 req2.slotDate)
    (hdoc : req2.docId = req1.docId) (hdate : req2.slotDate = req1.slotDate)
    (htime : req2.slotTime = req1.slotTime)
    (hd : db.doctors req1.docId = some docData) (ha : docData.available = true)
    (hf : slotFree docData req1.slotDate req1.slotTime) (rest : List Bool) :
    (interleave ([true, true, true, true] ++ rest) ⟨allGood, today1, id1, req1, .start⟩
        ⟨allGood, today2, id2, req2, .start⟩ db).2.2.appointments =
        db.appointments ++
          [appointmentModel id1 req1.userId req1.docId (db.users req1.userId)
            ⟨docData.email, docData.available, docData.fees⟩ docData.fees
            req1.slotTime req1.slotDate today1] ∧
      (true ∈ rest →
        (interleave ([true, true, true, true] ++ rest) ⟨allGood, today1, id1, req1, .start⟩
          ⟨allGood, today2, id2, req2, .start⟩ db).1.stage.response =
          some ⟨true, "Appointment Booked"⟩) ∧
      (false ∈ rest →
        (interleave ([true, true, true, true] ++ rest) ⟨allGood, today1, id1, req1, .start⟩
          ⟨allGood, today2, id2, req2, .start⟩ db).2.1.stage.response =
          some ⟨false, "Slot Not Available"⟩) ∧
      (interleave ([true, true, true, true] ++ rest) ⟨allGood, today1, id1, req1, .start⟩
          ⟨allGood, today2, id2, req2, .start⟩ db).2.1.stage.response ≠
        some ⟨true, "Appointment Booked"⟩ := by
  rw [four_stages allGood today1 id1 req1 db docData _ rest rfl rfl hw1 hd ha hf]
  obtain ⟨e1, e2, e3⟩ := after_ledger_write today1 today2 id1 id2 req1 req2 allGood allGood
    (bookAppointment today1 id1 req1 db).2
    { docData with
      slots_booked := docData.slots_booked.set req1.slotDate
        ((docData.slots_booked req1.slotDate).getD [] ++ [req1.slotTime]) }
    ((docData.slots_booked req1.slotDate).getD [] ++ [req1.slotTime]) hw2
    (by rw [book_ok today1 id1 req1 db docData hw1 hd ha hf]; simp [updateSlots, hdoc, hd])
    ha (by simp [Ledger.set, hdate]) (by simp [htime]) rest
    (.updated (db.users req1.userId)) .start (Or.inl ⟨_, rfl⟩) (Or.inl rfl)
  rw [e1, e2, e3]
  refine ⟨by rw [book_ok today1 id1 req1 db docData hw1 hd ha hf], ?_, ?_, ?_⟩
  · intro h; rw [if_pos h]; rfl
  · intro h; rw [if_pos h]; rfl
  · by_cases h : false ∈ rest
    · rw [if_pos h]; simp [BookStage.response]
    · rw [if_neg h]; simp [BookStage.response]

/-- Witness of C24, amended: on the sample clinic the call of `u1` runs its first four
stages, then the call of `u2` runs to its response, then the call of `u1` ends. -/
theorem ledger_write_before_read_witness :
    (interleave ([true, true, true, true] ++ [false, false, true])
        ⟨allGood, nov6at10, "a1", slotReq "u1", .start⟩
        ⟨allGood, nov6at10, "a2", slotReq "u2", .start⟩ clinic).2.1.stage.response =
      some ⟨false, "Slot Not Available"⟩ :=
  (ledger_write_before_read nov6at10 nov6at10 "a1" "a2" (slotReq "u1") (slotReq "u2") clinic
    drCruz (by decide) (by decide) rfl rfl rfl rfl rfl
    (fun labels h => by simp [drCruz, slotReq] at h) [false, false, true]).2.2.1 (by decide)

/-- C25 (no sequential double booking). The sample clinic starts with an empty ledger and
no appointment. Patient `u1` books a slot, the admin cancels that appointment, patient `u2`
books the freed slot, and `u1` cancels the first appointment once more: the label of the
appointment of `u2`, which is not cancelled, is gone from the ledger. A third booking of
the slot is then accepted, and two appointments that are not cancelled share the slot. -/
theorem recancel_leads_to_double_booking :
    ledgerMatches clinicOpening ∧
      (runOps recancelRun clinicOpening).appointments.map
          (fun a => (a._id, a.slotDate, a.slotTime, a.cancelled)) =
        [("a1", "12_11_2026", "10:00 AM", true), ("a2", "12_11_2026", "10:00 AM", false)] ∧
      ledgerEntry (runOps recancelRun clinicOpening) "doc1" "12_11_2026" = some (some []) ∧
      ¬activeHeld (runOps recancelRun clinicOpening) ∧
      (bookAppointment nov6at10 "a3" (slotReq "u1") (runOps recancelRun clinicOpening)).1 =
        ⟨true, "Appointment Booked"⟩ ∧
      ¬noDoubleBooking
        (runOps (recancelRun ++ [.book nov6at10 "a3" (slotReq "u1")]) clinicOpening) := by
  refine ⟨?_, by decide, by decide, by decide, by decide, by decide⟩
  intro id k t
  constructor
  · rintro ⟨labels, h, _⟩
    unfold ledgerEntry clinicOpening drSantos at h
    by_cases hid : id = "doc1"
    · simp [hid] at h
    · simp [hid] at h
  · rintro ⟨a, ha, _⟩
    simp [clinicOpening] at ha

end MalitaDoc
